import Mathlib

/-! AOI dwell tracking and event logging.

A shallow embedding of `src/data-logger.js` (class `DataLogger`) and
`src/aoi-manager.js` (class `AOIManager`), followed by theorems about them.

Conventions of the embedding

* JavaScript numbers that the code uses as pixel coordinates, counters and
  millisecond timestamps are integers (`Int`, `Nat`); a number that may be
  `NaN` is an `Option Int` with `none` for `NaN`.
* A property that may be missing (`undefined`) is an `Option`.
* A plain object used as a string-keyed map is an association list `Obj` of its
  own properties, in insertion order (the order `Object.entries` lists it).
  Where the code reads or writes such an object under a key that
  `Object.prototype` defines (`isProtoKey`), the definition says what the
  inherited property does.
* `Date.now()` and `new Date()` read one system clock.  The clock is the
  stream `Window.clock` of the readings still to come: every read takes the
  head of the stream, so consecutive reads inside one callback may differ.
* An ISO timestamp string (`new Date().toISOString()`) is represented by the
  clock reading it renders.
* `JSON.stringify` of the session log is represented by the log it
  serialises; the stores keep those values under their keys.
* `JSON.parse` of an exported string is the round trip `viaJson` of the object
  it serialises.  What the round trip makes of a payload value `JsVal.other` is a
  parameter (`Builtins.jsonOther`).  Values on which `JSON.stringify` throws (a
  `BigInt`, a cyclic structure) are not payload values of the embedding.
-/

/-! ## JavaScript values and objects -/

/-- A JavaScript value, as carried in payload fields the code never inspects.  `num`
is an integer, `infinity` is `Infinity` or `-Infinity`, `date` is a `Date` object at
an instant (`none` for an invalid date) and `function` is a function or a symbol.
`other label` is any truthy value that is none of the rest (a fractional number, an
array, a nested object, ...), told apart by its label. -/
inductive JsVal where
  | undefined
  | null
  | bool (b : Bool)
  | num (n : Int)
  | str (s : String)
  | nan
  | infinity (negative : Bool)
  | date (ms : Option Int)
  | function
  | other (label : String)
  deriving DecidableEq, Repr

/-- Truthiness of a value. -/
def JsVal.truthy : JsVal → Bool
  | .undefined => false
  | .null => false
  | .bool b => b
  | .num n => n != 0
  | .str s => s != ""
  | .nan => false
  | .infinity _ => true
  | .date _ => true
  | .function => true
  | .other _ => true

/-- Truthiness of a number that may be missing: `undefined` and `0` are falsy. -/
def truthyNum : Option Int → Bool
  | none => false
  | some n => n != 0

/-- Truthiness of a string that may be missing: `undefined` and `""` are falsy. -/
def truthyStr : Option String → Bool
  | none => false
  | some s => s != ""

/-- A plain object used as a map from string keys, in insertion order. -/
abbrev Obj (α : Type) := List (String × α)

namespace Obj

variable {α : Type}

/-- Property read `o[k]`. -/
def get : Obj α → String → Option α
  | [], _ => none
  | (k', v) :: rest, k => if k' = k then some v else get rest k

/-- Property write `o[k] = v`: overwrite in place, or append a new key. -/
def set : Obj α → String → α → Obj α
  | [], k, v => [(k, v)]
  | (k', v') :: rest, k, v => if k' = k then (k', v) :: rest else (k', v') :: set rest k v

/-- Property removal `delete o[k]`. -/
def delete : Obj α → String → Obj α
  | [], _ => []
  | (k', v') :: rest, k => if k' = k then delete rest k else (k', v') :: delete rest k

/-- The keys, in `Object.keys` order. -/
def keys (o : Obj α) : List String := o.map Prod.fst

/-- Property write `o[k] = v` of a number.  Under the key `__proto__` an object
without such an own property runs the setter inherited from `Object.prototype`,
which ignores a number: nothing is stored. -/
def setNumber (o : Obj Int) (k : String) (v : Int) : Obj Int :=
  if k = "__proto__" ∧ get o k = none then o else set o k v

end Obj

/-- The property names a plain object inherits from `Object.prototype`. -/
def protoKeys : List String :=
  ["constructor", "__defineGetter__", "__defineSetter__", "hasOwnProperty",
   "__lookupGetter__", "__lookupSetter__", "isPrototypeOf", "propertyIsEnumerable",
   "toString", "valueOf", "__proto__", "toLocaleString"]

/-- Whether `o[k]` on a plain object without own property `k` reads an inherited
value (a built-in function, or `Object.prototype` itself for `__proto__`). -/
def isProtoKey (k : String) : Bool := protoKeys.contains k

/-! ## The session log -/

/-- The payload object handed to `logEvent`; every field is optional. -/
structure EventData where
  pageX : Option Int := none
  pageY : Option Int := none
  question : Option String := none
  value : JsVal := JsVal.undefined
  aoiId : Option String := none
  aoiName : Option String := none
  timestamp : Option Int := none
  duration : Option Int := none
  totalVisits : Option Nat := none
  totalTime : Option Int := none
  position : Option (Int × Int) := none
  target : Option String := none
  targetId : Option String := none
  extra : Obj JsVal := []
  deriving DecidableEq, Repr

/-- One entry of `logData.events`. -/
structure LogRecord where
  type : String
  timestamp : Int
  timestampMs : Int
  pageX : Int
  pageY : Int
  data : EventData
  deriving DecidableEq, Repr

/-- One entry of `logData.gazeData`. -/
structure GazePoint where
  x : Int
  y : Int
  timestamp : Int
  timestampMs : Int
  validity : Nat
  deriving DecidableEq, Repr

/-- One entry of `logData.interactions`. -/
structure Interaction where
  type : String
  timestamp : Int
  timestampMs : Int
  details : Obj JsVal
  deriving DecidableEq, Repr

/-- One entry of `logData.answers`; a field is `none` when the object has no such property. -/
structure AnswerEntry where
  value : Option JsVal := none
  timestamp : Int
  questionId : Option String := none
  answer : Option JsVal := none
  metadata : Option (Obj JsVal) := none
  deriving DecidableEq, Repr

/-- One entry of `logData.aoiVisits`; `lastEntry` is `none` when it is `null`. -/
structure AOIVisit where
  entries : Nat
  totalTime : Int
  lastEntry : Option Int
  deriving DecidableEq, Repr

/-- The object `logData.timestamps`. -/
structure Milestones where
  pageLoad : Option Int := none
  taskCompleted : Option Int := none
  deriving DecidableEq, Repr

/-- The object `this.logData`. -/
structure LogData where
  participantId : String
  taskId : String
  startTime : Int
  events : List LogRecord := []
  gazeData : List GazePoint := []
  interactions : List Interaction := []
  answers : Obj AnswerEntry := []
  timestamps : Milestones := {}
  aoiVisits : Obj AOIVisit := []
  deriving DecidableEq, Repr

/-! ## The browser environment -/

/-- A key/value store (`localStorage`, `sessionStorage`).  `rejects` says that
`setItem` throws (quota exceeded, storage disabled); `writes` counts the
`setItem` calls the store has accepted. -/
structure Storage where
  items : Obj LogData := []
  rejects : Bool := false
  writes : Nat := 0

/-- The call `setItem(key, value)`; `none` when it throws. -/
def Storage.setItem (s : Storage) (key : String) (value : LogData) : Option Storage :=
  if s.rejects then none
  else some { s with items := Obj.set s.items key value, writes := s.writes + 1 }

/-- The call `removeItem(key)`. -/
def Storage.removeItem (s : Storage) (key : String) : Storage :=
  { s with items := Obj.delete s.items key }

/-- The globals the two classes touch.  `builtinLastEntry` holds the own property
`lastEntry` of the values inherited from `Object.prototype`, by the key that reads
the value: no entry when the value has no such property, `none` for `null`. -/
structure Window where
  clock : Nat → Int
  localStorage : Storage := {}
  sessionStorage : Storage := {}
  lastGazePoint : Option (Int × Int) := none
  builtinLastEntry : Obj (Option Int) := []

/-- One read of the system clock (`Date.now()`, `new Date()`). -/
def Window.now (w : Window) : Int × Window :=
  (w.clock 0, { w with clock := fun n => w.clock (n + 1) })

/-- The read `aoi.lastEntry` when `aoi` is the value a plain object inherits under
`k`: its own property, or else the one of `Object.prototype`, which every such
value inherits from. -/
def Window.inheritedLastEntry (w : Window) (k : String) : Option Int :=
  match Obj.get w.builtinLastEntry k with
  | some v => v
  | none => if k = "__proto__" then none else (Obj.get w.builtinLastEntry "__proto__").getD none

/-! ## DataLogger -/

/-- The fields of a `DataLogger` instance, with the globals it works on. -/
structure DataLogger where
  taskId : String
  participantId : String
  logData : LogData
  lastSave : Option Int := none
  window : Window

namespace DataLogger

/-- The key `taskData_<participantId>_<taskId>`. -/
def storageKey (d : DataLogger) : String :=
  "taskData_" ++ d.participantId ++ "_" ++ d.taskId

/-- The method `saveData()`: both `setItem` calls sit in one `try`; the result is the
boolean returned. -/
def saveData (d : DataLogger) : DataLogger × Bool :=
  match d.window.localStorage.setItem d.storageKey d.logData with
  | none => (d, false)
  | some ls =>
    let d1 := { d with window := { d.window with localStorage := ls } }
    match d1.window.sessionStorage.setItem ("backup_" ++ d.storageKey) d.logData with
    | none => (d1, false)
    | some ss => ({ d1 with window := { d1.window with sessionStorage := ss } }, true)

/-- The tail of `autoSave()` once the debounce test has let the call through. -/
def autoSaveWrite (d : DataLogger) : DataLogger :=
  let d1 := (saveData d).1
  let (t, w) := d1.window.now
  { d1 with window := w, lastSave := some t }

/-- The method `autoSave()`.  `this.lastSave && ...` reads the clock only when
`lastSave` is truthy. -/
def autoSave (d : DataLogger) : DataLogger :=
  if truthyNum d.lastSave then
    let (t, w) := d.window.now
    let d1 := { d with window := w }
    if t - d.lastSave.getD 0 < 1000 then d1 else autoSaveWrite d1
  else autoSaveWrite d

/-- The aggregate created for a region seen for the first time. -/
def freshVisit : AOIVisit := { entries := 0, totalTime := 0, lastEntry := none }

/-- The tail of `trackAOIVisit` when `aoiVisits` has no own property `aoiId` and
`aoiId` names a property of `Object.prototype`: `aoiVisits[aoiId]` is the inherited
value, which is truthy, so no aggregate is created and `aoi` is that value.  The
writes to `entries`, `totalTime` and `lastEntry` land on it and leave `aoiVisits`
alone; `lastEntry` is kept because it decides the clock read of a later exit. -/
def trackInherited (d : DataLogger) (eventType aoiId : String) : DataLogger :=
  if eventType = "aoi_enter" then
    let (t, w) := d.window.now
    { d with window := { w with builtinLastEntry := Obj.set w.builtinLastEntry aoiId (some t) } }
  else if eventType = "aoi_exit" && truthyNum (d.window.inheritedLastEntry aoiId) then
    let (_, w) := d.window.now
    { d with window := { w with builtinLastEntry := Obj.set w.builtinLastEntry aoiId none } }
  else d

/-- The method `trackAOIVisit(eventType, eventData)`; `none` when reading
`eventData.aoiId` throws because there is no payload. -/
def trackAOIVisit (d : DataLogger) (eventType : String) (eventData : Option EventData) :
    Option DataLogger :=
  match eventData with
  | none => none
  | some ed =>
    if !truthyStr ed.aoiId then some d
    else
      let aoiId := ed.aoiId.getD ""
      if (Obj.get d.logData.aoiVisits aoiId).isNone && isProtoKey aoiId then
        some (trackInherited d eventType aoiId)
      else
        let visits :=
          match Obj.get d.logData.aoiVisits aoiId with
          | none => Obj.set d.logData.aoiVisits aoiId freshVisit
          | some _ => d.logData.aoiVisits
        let aoi := (Obj.get visits aoiId).getD freshVisit
        if eventType = "aoi_enter" then
          let (t, w) := d.window.now
          let aoi1 := { aoi with entries := aoi.entries + 1, lastEntry := some t }
          some { d with window := w, logData := { d.logData with aoiVisits := Obj.set visits aoiId aoi1 } }
        else if eventType = "aoi_exit" && truthyNum aoi.lastEntry then
          let (t, w) := d.window.now
          let duration := t - aoi.lastEntry.getD 0
          let aoi1 := { aoi with totalTime := aoi.totalTime + duration, lastEntry := none }
          some { d with window := w, logData := { d.logData with aoiVisits := Obj.set visits aoiId aoi1 } }
        else
          some { d with logData := { d.logData with aoiVisits := visits } }

/-- The `switch` of `logEvent`, run after the record is pushed; `none` when a case
throws on a missing payload. -/
def logEventSwitch (d : DataLogger) (eventType : String) (eventData : Option EventData)
    (event : LogRecord) : Option DataLogger :=
  if eventType = "page_loaded" then
    some { d with logData := { d.logData with
      timestamps := { d.logData.timestamps with pageLoad := some event.timestamp } } }
  else if eventType = "task_completed" then
    some { d with logData := { d.logData with
      timestamps := { d.logData.timestamps with taskCompleted := some event.timestamp } } }
  else if eventType = "answer_updated" then
    match eventData with
    | none => none
    | some ed =>
      if truthyStr ed.question then
        some { d with logData := { d.logData with
          answers := Obj.set d.logData.answers (ed.question.getD "")
            { value := some ed.value, timestamp := event.timestamp } } }
      else some d
  else if eventType = "aoi_enter" ∨ eventType = "aoi_exit" then
    trackAOIVisit d eventType eventData
  else some d

/-- The head of `logEvent`: build the record (two clock reads) and push it. -/
def pushEvent (d : DataLogger) (eventType : String) (eventData : Option EventData) :
    DataLogger × LogRecord :=
  let (iso, w1) := d.window.now
  let (ms, w2) := w1.now
  let event : LogRecord :=
    { type := eventType
      timestamp := iso
      timestampMs := ms
      pageX := (eventData.bind EventData.pageX).getD 0
      pageY := (eventData.bind EventData.pageY).getD 0
      data := eventData.getD {} }
  ({ d with window := w2, logData := { d.logData with events := d.logData.events ++ [event] } },
   event)

/-- The method `logEvent(eventType, eventData)`.  The first component is the logger
afterwards; the second is the record returned, or `none` when the call threw
(the record is already pushed then, and `autoSave` has not run). -/
def logEvent (d : DataLogger) (eventType : String) (eventData : Option EventData) :
    DataLogger × Option LogRecord :=
  match logEventSwitch (pushEvent d eventType eventData).1 eventType eventData
      (pushEvent d eventType eventData).2 with
  | none => ((pushEvent d eventType eventData).1, none)
  | some d2 => (autoSave d2, some (pushEvent d eventType eventData).2)

/-- The method `logGazeData(x, y, timestamp, validity)`. -/
def logGazeData (d : DataLogger) (x y : Int) (timestamp : Option Int) (validity : Option Nat) :
    DataLogger × GazePoint :=
  let (iso, w1) :=
    match timestamp with
    | some t => (t, d.window)
    | none => d.window.now
  let (ms, w2) := w1.now
  let gazePoint : GazePoint :=
    { x := x, y := y, timestamp := iso, timestampMs := ms, validity := validity.getD 0 }
  let pushed := d.logData.gazeData ++ [gazePoint]
  let kept := if pushed.length > 10000 then pushed.drop (pushed.length - 5000) else pushed
  ({ d with window := w2, logData := { d.logData with gazeData := kept } }, gazePoint)

/-- The method `logInteraction(interactionType, details)`. -/
def logInteraction (d : DataLogger) (interactionType : String) (details : Option (Obj JsVal)) :
    DataLogger × Interaction :=
  let (iso, w1) := d.window.now
  let (ms, w2) := w1.now
  let interaction : Interaction :=
    { type := interactionType, timestamp := iso, timestampMs := ms, details := details.getD [] }
  let d1 := { d with
    window := w2
    logData := { d.logData with interactions := d.logData.interactions ++ [interaction] } }
  (autoSave d1, interaction)

/-- The method `logAnswer(questionId, answer, metadata = {})`. -/
def logAnswer (d : DataLogger) (questionId : String) (answer : JsVal)
    (metadata : Option (Obj JsVal)) : DataLogger × AnswerEntry :=
  let (iso, w1) := d.window.now
  let answerRecord : AnswerEntry :=
    { questionId := some questionId, answer := some answer, timestamp := iso,
      metadata := some (metadata.getD []) }
  let d1 := { d with
    window := w1
    logData := { d.logData with answers := Obj.set d.logData.answers questionId answerRecord } }
  (autoSave d1, answerRecord)

/-- The method `clearData()`. -/
def clearData (d : DataLogger) : DataLogger :=
  let w := { d.window with
    localStorage := d.window.localStorage.removeItem d.storageKey
    sessionStorage := d.window.sessionStorage.removeItem ("backup_" ++ d.storageKey) }
  { d with
    window := w
    logData := { d.logData with events := [], gazeData := [], interactions := [],
                                answers := [], aoiVisits := [] } }

end DataLogger

/-! ## AOIManager -/

/-- One value of `aoiConfig`.  The geometry and the statistics are missing until
`setupElementAOITracking` fills them in; `totalTime` and `visits` are `none` when
they are not a number. -/
structure AOIConfig where
  name : Option String := none
  id : Option String := none
  selector : Option String := none
  x : Option Int := none
  y : Option Int := none
  width : Option Int := none
  height : Option Int := none
  totalTime : Option Int := none
  visits : Option Nat := none
  deriving DecidableEq, Repr

/-- The pointer event handed to a handler: a DOM event, or the object
`checkPointInAOIs` builds. -/
structure DomEvent where
  clientX : Int
  clientY : Int
  tagName : String := ""
  targetId : String := ""
  className : String := ""
  deriving DecidableEq, Repr

/-- An element of the page, as `getBoundingClientRect` measures it. -/
structure Element where
  left : Int
  top : Int
  width : Int
  height : Int
  deriving DecidableEq, Repr

/-- The part of the page the manager queries when it is constructed. -/
structure Document where
  getElementById : String → Option Element
  querySelectorAll : String → List Element
  scrollX : Int := 0
  scrollY : Int := 0

/-- The fields of an `AOIManager` instance; `dataLogger` is the logger it reports to. -/
structure AOIManager where
  aoiConfig : Obj AOIConfig
  dataLogger : DataLogger
  activeAOIs : List String := []
  aoiTimers : Obj Int := []
  isEnabled : Bool := true

namespace AOIManager

/-- The expression `this.aoiConfig[aoiId]?.name || aoiId`.  Without an own property
`aoiId` the read gives the value inherited under a key of `Object.prototype`: the
function `Object` for `constructor`, whose `name` is "Object", and otherwise a
function named like its key or a value without `name`. -/
def aoiName (cfg : Obj AOIConfig) (aoiId : String) : String :=
  match Obj.get cfg aoiId with
  | some c => if truthyStr c.name then c.name.getD "" else aoiId
  | none => if aoiId = "constructor" then "Object" else aoiId

/-- The method `setupElementAOITracking(element, aoiId)`, as far as it changes
`aoiConfig`; the listeners it installs are the handlers below.  The write
`this.aoiConfig[aoiId] = ...` stores an own property: `initializeAOITracking` passes
a key that `aoiConfig` lists, or a name that ends in `_<index>`. -/
def setupElementAOITracking (m : AOIManager) (doc : Document) (element : Option Element)
    (aoiId : String) : AOIManager :=
  match element with
  | none => m
  | some el =>
    if aoiId = "" then m
    else
      let old := (Obj.get m.aoiConfig aoiId).getD {}
      let merged : AOIConfig :=
        { old with
          id := some aoiId
          x := some (el.left + doc.scrollX)
          y := some (el.top + doc.scrollY)
          width := some el.width
          height := some el.height
          totalTime := some 0
          visits := some 0 }
      { m with aoiConfig := Obj.set m.aoiConfig aoiId merged }

/-- The loop `elements.forEach((el, index) => ...)` of `initializeAOITracking`. -/
def setupSelected (doc : Document) (aoiName : String) :
    AOIManager → List Element → Nat → AOIManager
  | m, [], _ => m
  | m, el :: rest, index =>
    setupSelected doc aoiName
      (setupElementAOITracking m doc (some el) (aoiName ++ "_" ++ toString index)) rest (index + 1)

/-- The body of the `forEach` callback of `initializeAOITracking` for one entry. -/
def initEntry (doc : Document) (m : AOIManager) (entry : String × AOIConfig) : AOIManager :=
  let element := if truthyStr entry.2.id then doc.getElementById (entry.2.id.getD "") else none
  match element with
  | some el => setupElementAOITracking m doc (some el) entry.1
  | none =>
    if truthyStr entry.2.selector then
      setupSelected doc entry.1 m (doc.querySelectorAll (entry.2.selector.getD "")) 0
    else m

/-- The method `initializeAOITracking()`, over the entries `aoiConfig` has when it starts. -/
def initializeAOITracking (m : AOIManager) (doc : Document) : AOIManager :=
  if !m.isEnabled then m else m.aoiConfig.foldl (initEntry doc) m

/-- The constructor. -/
def new (aoiConfig : Obj AOIConfig) (dataLogger : DataLogger) (doc : Document) : AOIManager :=
  initializeAOITracking
    { aoiConfig := aoiConfig, dataLogger := dataLogger, activeAOIs := [], aoiTimers := [],
      isEnabled := true } doc

/-- The method `handleAOIEnter(aoiId, event)`. -/
def handleAOIEnter (m : AOIManager) (aoiId : String) (event : DomEvent) : AOIManager :=
  if !m.isEnabled || m.activeAOIs.contains aoiId then m
  else
    let (enterTime, w) := m.dataLogger.window.now
    let payload : EventData :=
      { aoiId := some aoiId
        aoiName := some (aoiName m.aoiConfig aoiId)
        timestamp := some enterTime
        position := some (event.clientX, event.clientY) }
    { m with
      activeAOIs := m.activeAOIs ++ [aoiId]
      aoiTimers := Obj.setNumber m.aoiTimers aoiId enterTime
      dataLogger := ({ m.dataLogger with window := w }.logEvent "aoi_enter" (some payload)).1 }

/-- The statement block `totalTime += duration; visits++` of `handleAOIExit`. -/
def addDwell (c : AOIConfig) (duration : Option Int) : AOIConfig :=
  { c with
    totalTime := c.totalTime.bind (fun t => duration.map (fun dur => t + dur))
    visits := c.visits.map (fun v => v + 1) }

/-- The method `handleAOIExit(aoiId, event)`.  The duration is `none` (not a number)
when `aoiTimers` has no own entry for the region: `aoiTimers[aoiId]` is then
`undefined` or a value inherited from `Object.prototype`, and `exitTime` minus either
is `NaN`. -/
def handleAOIExit (m : AOIManager) (aoiId : String) (event : DomEvent) : AOIManager :=
  if !m.isEnabled || !m.activeAOIs.contains aoiId then m
  else
    let (exitTime, w) := m.dataLogger.window.now
    let enterTime := Obj.get m.aoiTimers aoiId
    let duration := enterTime.map (fun t => exitTime - t)
    let cfg :=
      match Obj.get m.aoiConfig aoiId with
      | some c => Obj.set m.aoiConfig aoiId (addDwell c duration)
      | none => m.aoiConfig
    let payload : EventData :=
      { aoiId := some aoiId
        aoiName := some (aoiName cfg aoiId)
        timestamp := some exitTime
        duration := duration
        totalVisits := some (((Obj.get cfg aoiId).bind AOIConfig.visits).getD 0)
        totalTime := some (((Obj.get cfg aoiId).bind AOIConfig.totalTime).getD 0)
        position := some (event.clientX, event.clientY) }
    { m with
      activeAOIs := m.activeAOIs.filter (fun a => a != aoiId)
      aoiTimers := Obj.delete m.aoiTimers aoiId
      aoiConfig := cfg
      dataLogger := ({ m.dataLogger with window := w }.logEvent "aoi_exit" (some payload)).1 }

/-- The method `handleAOIClick(aoiId, event)`. -/
def handleAOIClick (m : AOIManager) (aoiId : String) (event : DomEvent) : AOIManager :=
  if !m.isEnabled then m
  else
    let (t, w) := m.dataLogger.window.now
    let payload : EventData :=
      { aoiId := some aoiId
        aoiName := some (aoiName m.aoiConfig aoiId)
        timestamp := some t
        position := some (event.clientX, event.clientY)
        target := some event.tagName
        targetId := some (if event.targetId != "" then event.targetId else event.className) }
    { m with dataLogger := ({ m.dataLogger with window := w }.logEvent "aoi_click" (some payload)).1 }

/-- The hit test of `checkPointInAOIs`; a comparison with a missing bound is false. -/
def isInside (config : AOIConfig) (x y : Int) : Bool :=
  match config.x, config.y, config.width, config.height with
  | some cx, some cy, some w, some h =>
    decide (x ≥ cx) && decide (x ≤ cx + w) && decide (y ≥ cy) && decide (y ≤ cy + h)
  | _, _, _, _ => false

/-- The object `{ clientX: x, clientY: y, timestamp: Date.now() }`; building it reads the clock. -/
def simulatedEvent (m : AOIManager) (x y : Int) : DomEvent × AOIManager :=
  ({ clientX := x, clientY := y },
   { m with dataLogger := { m.dataLogger with window := m.dataLogger.window.now.2 } })

/-- The body of the `forEach` callback of `checkPointInAOIs` for one entry. -/
def checkEntry (x y : Int) (m : AOIManager) (entry : String × AOIConfig) : AOIManager :=
  if !truthyNum entry.2.x || !truthyNum entry.2.width then m
  else
    let inside := isInside entry.2 x y
    let wasInside := m.activeAOIs.contains entry.1
    if inside && !wasInside then
      let (ev, m1) := simulatedEvent m x y
      handleAOIEnter m1 entry.1 ev
    else if !inside && wasInside then
      let (ev, m1) := simulatedEvent m x y
      handleAOIExit m1 entry.1 ev
    else m

/-- The method `checkPointInAOIs(x, y)`: the entries are those `aoiConfig` has when
the call starts. -/
def checkPointInAOIs (m : AOIManager) (x y : Int) : AOIManager :=
  m.aoiConfig.foldl (checkEntry x y) m

/-- The method `checkGazeInAOIs()`, the body of the 100 ms poll timer. -/
def checkGazeInAOIs (m : AOIManager) : AOIManager :=
  match m.dataLogger.window.lastGazePoint with
  | some p => checkPointInAOIs m p.1 p.2
  | none => m

/-- The method `enable()`. -/
def enable (m : AOIManager) : AOIManager := { m with isEnabled := true }

/-- The method `disable()`. -/
def disable (m : AOIManager) : AOIManager := { m with isEnabled := false }

/-- The method `cleanup()`, as far as it changes the fields modelled. -/
def cleanup (m : AOIManager) : AOIManager := { m with activeAOIs := [], aoiTimers := [] }

end AOIManager

/-! ## DataLogger: export and statistics -/

/-- The built-ins `exportData` relies on: `toISOString` of an instant, the text
`JSON.stringify` gives for a payload, and what `JSON.stringify` followed by
`JSON.parse` makes of the property value `JsVal.other label`: `none` when the
property is left out, else the value that comes back (the value itself for a
fractional number and for an array or object of JSON values). -/
structure Builtins where
  isoString : Int → String
  stringify : EventData → String
  jsonOther : String → Option JsVal

/-- The object `dataToExport`: the session log with the export metadata. -/
structure ExportSnapshot where
  logData : LogData
  exportTime : Int
  exportFormat : String
  deriving DecidableEq, Repr

/-- The value `exportData` returns.  `json` stands for the string
`JSON.stringify(dataToExport, null, 2)`, represented by the object it serialises. -/
inductive Exported where
  | json (snapshot : ExportSnapshot)
  | csv (text : String)
  | text (text : String)
  | object (snapshot : ExportSnapshot)
  deriving DecidableEq, Repr

/-- One row of the per-region statistics. -/
structure AOIStat where
  entries : Nat
  totalTime : Int
  averageTime : ℚ
  deriving DecidableEq, Repr

/-- The object `getStatistics` returns. -/
structure Statistics where
  participantId : String
  taskId : String
  duration : Int
  totalEvents : Nat
  eventTypes : Obj Nat
  aoiStatistics : Obj AOIStat
  answerCount : Nat
  gazeDataPoints : Nat
  deriving DecidableEq, Repr

namespace DataLogger

/-- The method `convertToCSV(data)`. -/
def convertToCSV (js : Builtins) (data : ExportSnapshot) : String :=
  data.logData.events.foldl
    (fun csv event =>
      let cells := [js.isoString event.timestamp, event.type,
        (js.stringify event.data).replace "\"" "\"\""]
      let row := ",".intercalate (cells.map (fun cell => "\"" ++ cell ++ "\""))
      csv ++ row ++ "\n")
    "Timestamp,EventType,Data\n"

/-- The allow-list of `convertToText`. -/
def importantTypes : List String :=
  ["page_loaded", "task_completed", "answer_updated", "article_selected"]

/-- The method `convertToText(data)`. -/
def convertToText (js : Builtins) (data : ExportSnapshot) : String :=
  let header :=
    "参与者ID: " ++ data.logData.participantId ++ "\n" ++
    "任务ID: " ++ data.logData.taskId ++ "\n" ++
    "开始时间: " ++ js.isoString data.logData.startTime ++ "\n" ++
    "总事件数: " ++ toString data.logData.events.length ++ "\n\n" ++
    "重要事件:\n" ++ "----------\n"
  (data.logData.events.filter (fun e => importantTypes.contains e.type)).foldl
    (fun text event =>
      text ++ js.isoString event.timestamp ++ " - " ++ event.type ++ ": " ++
        js.stringify event.data ++ "\n")
    header

/-- The method `exportData(format)`; it reads the clock once and changes nothing else. -/
def exportData (js : Builtins) (d : DataLogger) (format : String) : DataLogger × Exported :=
  let (t, w) := d.window.now
  let dataToExport : ExportSnapshot :=
    { logData := d.logData, exportTime := t, exportFormat := format }
  let d1 := { d with window := w }
  if format = "json" then (d1, Exported.json dataToExport)
  else if format = "csv" then (d1, Exported.csv (convertToCSV js dataToExport))
  else if format = "text" then (d1, Exported.text (convertToText js dataToExport))
  else (d1, Exported.object dataToExport)

/-- The method `countEventTypes()`. -/
def countEventTypes (d : DataLogger) : Obj Nat :=
  d.logData.events.foldl
    (fun counts event => Obj.set counts event.type ((Obj.get counts event.type).getD 0 + 1)) []

/-- The method `getAOIStatistics()` of the logger. -/
def getAOIStatistics (d : DataLogger) : Obj AOIStat :=
  d.logData.aoiVisits.foldl
    (fun stats entry =>
      Obj.set stats entry.1
        { entries := entry.2.entries
          totalTime := entry.2.totalTime
          averageTime := if entry.2.entries > 0 then (entry.2.totalTime : ℚ) / entry.2.entries else 0 })
    []

/-- The method `getStatistics()`; it reads the clock only when there is no event. -/
def getStatistics (d : DataLogger) : DataLogger × Statistics :=
  let (endTime, w) :=
    match d.logData.events.getLast? with
    | some last => (last.timestamp, d.window)
    | none => d.window.now
  ({ d with window := w },
   { participantId := d.participantId
     taskId := d.taskId
     duration := endTime - d.logData.startTime
     totalEvents := d.logData.events.length
     eventTypes := countEventTypes d
     aoiStatistics := getAOIStatistics d
     answerCount := d.logData.answers.length
     gazeDataPoints := d.logData.gazeData.length })

end DataLogger

/-- A call on a logger that is not `clearData`. -/
inductive LoggerCall where
  | logEvent (eventType : String) (eventData : Option EventData)
  | logGazeData (x y : Int) (timestamp : Option Int) (validity : Option Nat)
  | logInteraction (interactionType : String) (details : Option (Obj JsVal))
  | logAnswer (questionId : String) (answer : JsVal) (metadata : Option (Obj JsVal))
  | autoSave
  | saveData
  | exportData (js : Builtins) (format : String)
  | getStatistics

/-- The logger after one call (after a `logEvent` that threw, the logger it left). -/
def LoggerCall.run (d : DataLogger) : LoggerCall → DataLogger
  | .logEvent eventType eventData => (d.logEvent eventType eventData).1
  | .logGazeData x y timestamp validity => (d.logGazeData x y timestamp validity).1
  | .logInteraction interactionType details => (d.logInteraction interactionType details).1
  | .logAnswer questionId answer metadata => (d.logAnswer questionId answer metadata).1
  | .autoSave => d.autoSave
  | .saveData => d.saveData.1
  | .exportData js format => (DataLogger.exportData js d format).1
  | .getStatistics => d.getStatistics.1

/-- The logger after a sequence of calls. -/
def runCalls (d : DataLogger) (calls : List LoggerCall) : DataLogger :=
  calls.foldl LoggerCall.run d

/-- The type and the data of the record a call has `logEvent` push, if it is a
`logEvent` call: the payload, or the empty object when there is none. -/
def LoggerCall.logged : LoggerCall → Option (String × EventData)
  | .logEvent eventType eventData => some (eventType, eventData.getD {})
  | _ => none

/-! ## Timers, call sequences and the environment between callbacks -/

/-- What `setupAutoSave()` installs: the period and callback of the `setInterval`
timer, and the `beforeunload` listener. -/
structure AutoSaveHooks where
  intervalMs : Nat
  onInterval : DataLogger → DataLogger
  onBeforeUnload : DataLogger → DataLogger

/-- The method `setupAutoSave()`. -/
def DataLogger.setupAutoSave : AutoSaveHooks :=
  { intervalMs := 30000
    onInterval := fun d => d.autoSave
    onBeforeUnload := fun d => d.saveData.1 }

/-- The arguments of one `logGazeData` call. -/
structure GazeCall where
  x : Int
  y : Int
  timestamp : Option Int := none
  validity : Option Nat := none

/-- Consecutive `logGazeData` calls: the logger afterwards and the samples the calls
returned, in call order. -/
def logGazeSeq : DataLogger → List GazeCall → DataLogger × List GazePoint
  | d, [] => (d, [])
  | d, c :: rest =>
    ((logGazeSeq (d.logGazeData c.x c.y c.timestamp c.validity).1 rest).1,
     (d.logGazeData c.x c.y c.timestamp c.validity).2 ::
       (logGazeSeq (d.logGazeData c.x c.y c.timestamp c.validity).1 rest).2)

/-- Time passes: the clock reads `t` from now on. -/
def DataLogger.atTime (d : DataLogger) (t : Int) : DataLogger :=
  { d with window := { d.window with clock := fun _ => t } }

/-- The stores start or stop rejecting writes. -/
def DataLogger.storesReject (d : DataLogger) (rejects : Bool) : DataLogger :=
  { d with window := { d.window with
      localStorage := { d.window.localStorage with rejects := rejects }
      sessionStorage := { d.window.sessionStorage with rejects := rejects } } }

/-- A logger just constructed at clock reading `t`, with empty stores. -/
def sampleLogger (t : Int) : DataLogger :=
  { taskId := "task1", participantId := "p1"
    logData := { participantId := "p1", taskId := "task1", startTime := t }
    window := { clock := fun _ => t } }

/-- A fresh logger whose clock reads 5000, 5500, 6000, ... on consecutive reads. -/
def tickingLogger : DataLogger :=
  { sampleLogger 0 with window := { clock := fun n => 5000 + 500 * n } }

/-! ## Manager call sequences and their logs -/

/-- A callback or call on a manager: a poll tick at a position, the three element
listeners, and the two switches. -/
inductive ManagerCall where
  | checkPointInAOIs (x y : Int)
  | handleAOIEnter (aoiId : String) (event : DomEvent)
  | handleAOIExit (aoiId : String) (event : DomEvent)
  | handleAOIClick (aoiId : String) (event : DomEvent)
  | enable
  | disable

/-- The manager after one call. -/
def ManagerCall.run (m : AOIManager) : ManagerCall → AOIManager
  | .checkPointInAOIs x y => m.checkPointInAOIs x y
  | .handleAOIEnter aoiId event => m.handleAOIEnter aoiId event
  | .handleAOIExit aoiId event => m.handleAOIExit aoiId event
  | .handleAOIClick aoiId event => m.handleAOIClick aoiId event
  | .enable => m.enable
  | .disable => m.disable

/-- The manager after a sequence of calls. -/
def runManager (m : AOIManager) (calls : List ManagerCall) : AOIManager :=
  calls.foldl ManagerCall.run m

/-- The event list of the logger the manager reports to. -/
def AOIManager.events (m : AOIManager) : List LogRecord := m.dataLogger.logData.events

/-- The records logged since the manager was in state `m0`. -/
def AOIManager.eventsSince (m m0 : AOIManager) : List LogRecord :=
  m.events.drop m0.events.length

/-- The two kinds of dwell event. -/
inductive AOIKind where
  | enter
  | exit
  deriving DecidableEq, Repr

/-- The dwell kind of a record as far as region `R` is concerned. -/
def aoiKind (R : String) (r : LogRecord) : Option AOIKind :=
  if r.data.aoiId = some R then
    if r.type = "aoi_enter" then some AOIKind.enter
    else if r.type = "aoi_exit" then some AOIKind.exit
    else none
  else none

/-- The `aoi_enter` and `aoi_exit` records for region `R`, in log order. -/
def regionLog (R : String) (events : List LogRecord) : List LogRecord :=
  events.filter (fun r => (aoiKind R r).isSome)

/-- The kinds of the `aoi_enter` and `aoi_exit` records for region `R`, in log order. -/
def aoiLog (R : String) (events : List LogRecord) : List AOIKind :=
  events.filterMap (aoiKind R)

/-- A log of completed dwell cycles: `DwellCycles log n total` says that `log` is `n`
pairs of an `aoi_enter` record followed by an `aoi_exit` record, that every exit
carries as duration its own timestamp minus the timestamp of the enter before it,
and as `totalVisits` and `totalTime` the number of cycles and the sum of the durations
up to and including its own; `total` is the sum of all `n` durations. -/
inductive DwellCycles : List LogRecord → Nat → Int → Prop where
  | nil : DwellCycles [] 0 0
  | cycle (log : List LogRecord) (n : Nat) (total : Int) (e x : LogRecord) (te tx : Int) :
      DwellCycles log n total →
      e.type = "aoi_enter" → e.data.timestamp = some te →
      x.type = "aoi_exit" → x.data.timestamp = some tx →
      x.data.duration = some (tx - te) →
      x.data.totalVisits = some (n + 1) →
      x.data.totalTime = some (total + (tx - te)) →
      DwellCycles (log ++ [e, x]) (n + 1) (total + (tx - te))

/-- One transition of a manager: a listener whose guard lets it through, a clock read,
or a change of the enabled flag. -/
inductive AOIManager.Step : AOIManager → AOIManager → Prop where
  | enter (m : AOIManager) (aoiId : String) (event : DomEvent) :
      m.isEnabled = true → aoiId ∉ m.activeAOIs → Step m (m.handleAOIEnter aoiId event)
  | exit (m : AOIManager) (aoiId : String) (event : DomEvent) :
      m.isEnabled = true → aoiId ∈ m.activeAOIs → Step m (m.handleAOIExit aoiId event)
  | click (m : AOIManager) (aoiId : String) (event : DomEvent) :
      m.isEnabled = true → Step m (m.handleAOIClick aoiId event)
  | clock (m : AOIManager) (x y : Int) : Step m (m.simulatedEvent x y).2
  | flag (m : AOIManager) (b : Bool) : Step m { m with isEnabled := b }

/-- Zero or more transitions. -/
abbrev AOIManager.Steps : AOIManager → AOIManager → Prop :=
  Relation.ReflTransGen AOIManager.Step

/-- The time passes for a manager: the clock reads `t` from now on. -/
def AOIManager.atTime (m : AOIManager) (t : Int) : AOIManager :=
  { m with dataLogger := m.dataLogger.atTime t }

/-- A page whose only element, "title", measures as `el`, with nothing scrolled. -/
def regionPage (el : Element) : Document :=
  { getElementById := fun i => if i = "title" then some el else none
    querySelectorAll := fun _ => [] }

/-- A page whose element "title" is 100 wide and 50 high, with its corner at `(left, 0)`. -/
def titlePage (left : Int) : Document :=
  regionPage { left := left, top := 0, width := 100, height := 50 }

/-- A fresh manager with the one region "title" registered from `regionPage el`,
reporting to a fresh logger. -/
def regionManager (el : Element) : AOIManager :=
  AOIManager.new [("title", { id := some "title" })] (sampleLogger 0) (regionPage el)

/-- A fresh manager with the one region "title" registered from `titlePage left`. -/
def titleManager (left : Int) : AOIManager :=
  regionManager { left := left, top := 0, width := 100, height := 50 }

/-- The scenario: poll ticks with the samples (50,25), (200,200), (50,25) at clock
readings 0, 150 and 300. -/
def titleScenario (left : Int) : AOIManager :=
  ((((((titleManager left).atTime 0).checkPointInAOIs 50 25).atTime 150).checkPointInAOIs 200 200
    ).atTime 300).checkPointInAOIs 50 25

/-- A fresh manager with the region "title" registered at `(1, 0)`, on a logger whose
clock reads 5000, 5500, 6000, ... on consecutive reads. -/
def tickingManager : AOIManager :=
  AOIManager.new [("title", { id := some "title" })] tickingLogger (titlePage 1)

/-- Whether a call is `enable()`. -/
def ManagerCall.isEnable : ManagerCall → Bool
  | .enable => true
  | _ => false

/-- The configuration `titlePage 1` gives the region "title". -/
def titleConfig : AOIConfig :=
  { id := some "title", x := some 1, y := some 0, width := some 100, height := some 50,
    totalTime := some 0, visits := some 0 }

/-- Calls made while the manager is disabled: a tick outside the region, a
pointer-leave, a click and a tick inside. -/
def disabledCalls : List ManagerCall :=
  [ManagerCall.checkPointInAOIs 200 200,
   ManagerCall.handleAOIExit "title" { clientX := 200, clientY := 200 },
   ManagerCall.handleAOIClick "title" { clientX := 50, clientY := 25 },
   ManagerCall.checkPointInAOIs 50 25]

/-- Calls of two dwell cycles: ticks inside, outside and inside, then a pointer-leave. -/
def dwellCalls : List ManagerCall :=
  [ManagerCall.checkPointInAOIs 50 25,
   ManagerCall.checkPointInAOIs 200 200,
   ManagerCall.checkPointInAOIs 50 25,
   ManagerCall.handleAOIExit "title" { clientX := 200, clientY := 200 }]

/-! ## JSON round trip of an export -/

/-- What `JSON.parse(JSON.stringify(o))` makes of one property value, `none` when the
property is left out: `JSON.stringify` leaves out a property whose value is
`undefined` or a function, writes `NaN` and the infinities as `null` and a `Date` as
the string `toISOString` gives (`null` for an invalid date); `null`, booleans,
integers and strings come back as they are; for any other value the built-in
decides. -/
def JsVal.viaJson (js : Builtins) : JsVal → Option JsVal
  | .undefined => none
  | .function => none
  | .nan => some JsVal.null
  | .infinity _ => some JsVal.null
  | .date (some ms) => some (JsVal.str (js.isoString ms))
  | .date none => some JsVal.null
  | .other label => js.jsonOther label
  | v => some v

/-- The round trip of a plain object of values: the properties that are left out are
gone, the others are kept in order with the value that comes back. -/
def Obj.viaJson (js : Builtins) (o : Obj JsVal) : Obj JsVal :=
  o.filterMap (fun p => (p.2.viaJson js).map (fun v => (p.1, v)))

/-- The round trip of an entry of the answers map. -/
def AnswerEntry.viaJson (js : Builtins) (e : AnswerEntry) : AnswerEntry :=
  { value := e.value.bind (JsVal.viaJson js)
    timestamp := e.timestamp
    questionId := e.questionId
    answer := e.answer.bind (JsVal.viaJson js)
    metadata := e.metadata.map (Obj.viaJson js) }

/-- Whether a value comes back from the round trip as it is (a JSON value: `null`, a
boolean, a number other than `NaN` and the infinities, a string, or an array or
object of such). -/
def JsVal.jsonSafe (js : Builtins) (v : JsVal) : Bool :=
  v.viaJson js == some v

/-- Whether every property value of an entry of the answers map is a JSON value. -/
def AnswerEntry.jsonSafe (js : Builtins) (e : AnswerEntry) : Bool :=
  (e.value.map (JsVal.jsonSafe js)).getD true && (e.answer.map (JsVal.jsonSafe js)).getD true &&
    (e.metadata.getD []).all (fun p => p.2.jsonSafe js)

/-- The round trip of a payload: a `value` that is left out reads `undefined`. -/
def EventData.viaJson (js : Builtins) (p : EventData) : EventData :=
  { p with
    value := (p.value.viaJson js).getD JsVal.undefined
    extra := Obj.viaJson js p.extra }

/-- The round trip of an event record. -/
def LogRecord.viaJson (js : Builtins) (r : LogRecord) : LogRecord :=
  { r with data := r.data.viaJson js }

/-- The round trip of an interaction record. -/
def Interaction.viaJson (js : Builtins) (i : Interaction) : Interaction :=
  { i with details := Obj.viaJson js i.details }

/-- The round trip of the session log: arrays keep their length and order, maps keep
their keys; integers, strings and `null` come back as they are. -/
def LogData.viaJson (js : Builtins) (l : LogData) : LogData :=
  { l with
    events := l.events.map (LogRecord.viaJson js)
    interactions := l.interactions.map (Interaction.viaJson js)
    answers := l.answers.map (fun e => (e.1, e.2.viaJson js)) }

/-- The round trip of the exported object. -/
def ExportSnapshot.viaJson (js : Builtins) (s : ExportSnapshot) : ExportSnapshot :=
  { s with logData := s.logData.viaJson js }

/-- The call `JSON.parse` on what `exportData` returned; `none` when it throws (the
CSV and text renderings and the plain object are not JSON text). -/
def Exported.parseJson (js : Builtins) : Exported → Option ExportSnapshot
  | .json snapshot => some (snapshot.viaJson js)
  | .csv _ => none
  | .text _ => none
  | .object _ => none

/-- Built-ins for the examples: instants render as their number and payloads as the
empty text; every value `JsVal.other` is an array or object of JSON values, which the
round trip gives back. -/
def sampleBuiltins : Builtins :=
  { isoString := fun t => toString t
    stringify := fun _ => ""
    jsonOther := fun label => some (JsVal.other label) }

/-! ## Participant identity -/

/-- What `JSON.parse(storedData)` gives as far as `getParticipantId` uses it. -/
inductive ParsedRecord where
  | syntaxError
  | null
  | value (id : JsVal)
  deriving DecidableEq, Repr

/-- The method `getParticipantId()`, as a function of what it reads: the built-in
`JSON.parse`, the query-string parameter `participantId` (`none` when
`URLSearchParams.get` returns `null`), the item `participantData` of `localStorage`
(`none` when absent) and the global `window.participantId`.  The result is `none`
when the method throws: `JSON.parse` rejects the stored text, or the text parses to
`null` and reading `.id` fails.  `storedId` is computed before the `||` chain. -/
def DataLogger.getParticipantId (parse : String → ParsedRecord) (urlId : Option String)
    (storedData : Option String) (globalId : Option String) : Option JsVal :=
  let storedId : Option JsVal :=
    if truthyStr storedData then
      match parse (storedData.getD "") with
      | .syntaxError => none
      | .null => none
      | .value id => some id
    else some JsVal.null
  match storedId with
  | none => none
  | some sid =>
    if truthyStr urlId then some (JsVal.str (urlId.getD ""))
    else if sid.truthy then some sid
    else if truthyStr globalId then some (JsVal.str (globalId.getD ""))
    else some (JsVal.str "unknown")

/-- The built-in `JSON.parse` on the stored texts of the examples below: the text
`{"id":"P7"}` is an object whose id is "P7", `null` is `null`, `{}` is an object
without id, and `not json` is rejected; other texts are not used. -/
def sampleParse (s : String) : ParsedRecord :=
  if s = "\x7b\"id\":\"P7\"\x7d" then ParsedRecord.value (JsVal.str "P7")
  else if s = "null" then ParsedRecord.null
  else if s = "\x7b\x7d" then ParsedRecord.value JsVal.undefined
  else ParsedRecord.syntaxError

/-! ## Answer calls -/

/-- One of the two calls that write the answers map: `logEvent('answer_updated',
{question, value})` and `logAnswer(questionId, answer, metadata)`. -/
inductive AnswerCall where
  | answerUpdated (question : String) (value : JsVal)
  | logAnswer (questionId : String) (answer : JsVal) (metadata : Option (Obj JsVal))

/-- The logger after one answer call. -/
def AnswerCall.run (d : DataLogger) : AnswerCall → DataLogger
  | .answerUpdated question value =>
    (d.logEvent "answer_updated" (some { question := some question, value := value })).1
  | .logAnswer questionId answer metadata => (d.logAnswer questionId answer metadata).1

/-- The logger after a sequence of answer calls. -/
def runAnswerCalls (d : DataLogger) (calls : List AnswerCall) : DataLogger :=
  calls.foldl AnswerCall.run d

/-- Whether a call writes the entry of question `q`: `logAnswer` always does,
`answer_updated` only for a non-empty question (`if (eventData.question)`). -/
def AnswerCall.writes (q : String) : AnswerCall → Bool
  | .answerUpdated question _ => question = q && question != ""
  | .logAnswer questionId _ _ => questionId = q

/-- The entry a call stores in the answers map when its first clock read gives `t`:
`{value, timestamp}` for `answer_updated`, and the record
`{questionId, answer, timestamp, metadata}` for `logAnswer`. -/
def AnswerCall.entry (t : Int) : AnswerCall → AnswerEntry
  | .answerUpdated _ value => { value := some value, timestamp := t }
  | .logAnswer questionId answer metadata =>
    { questionId := some questionId, answer := some answer, timestamp := t,
      metadata := some (metadata.getD []) }

/-- The last call of a sequence that writes the entry of question `q`. -/
def lastWrite (q : String) (calls : List AnswerCall) : Option AnswerCall :=
  (calls.filter (AnswerCall.writes q)).getLast?

/-! ## The manager's life cycle -/

/-- A call on a manager, `cleanup()` included. -/
inductive LifecycleCall where
  | call (c : ManagerCall)
  | cleanup

/-- The manager after one life-cycle call. -/
def LifecycleCall.run (m : AOIManager) : LifecycleCall → AOIManager
  | .call c => c.run m
  | .cleanup => m.cleanup

/-- The manager after a sequence of life-cycle calls. -/
def runLifecycle (m : AOIManager) (calls : List LifecycleCall) : AOIManager :=
  calls.foldl LifecycleCall.run m

/-- The clock `later` is what is left of the clock `earlier` after some reads. -/
def ClockSuffix (later earlier : Nat → Int) : Prop :=
  ∃ k, ∀ n, later n = earlier (n + k)

/-- The clock a manager reads. -/
def AOIManager.clock (m : AOIManager) : Nat → Int := m.dataLogger.window.clock

/-- The timer invariant of a manager `m` reached from `m0`.  A region id other than
`__proto__` is active exactly when `aoiTimers` holds its enter time, and `aoiTimers`
holds none for `__proto__`.  Of the `aoi_exit` records logged since `m0`, those of a
region other than `__proto__` carry a number as duration, not negative when the clock
of `m0` never goes back, and those of `__proto__` carry none.  When the clock of `m0`
never goes back, the clock of `m` does not either, no timer is ahead of it, and the
`totalTime` of a region other than `__proto__` that was a non-negative number in `m0`
still is one. -/
def AOIManager.TimersSound (m0 m : AOIManager) : Prop :=
  (∀ id, id ≠ "__proto__" → (id ∈ m.activeAOIs ↔ (Obj.get m.aoiTimers id).isSome = true)) ∧
  Obj.get m.aoiTimers "__proto__" = none ∧
  (∃ new, m.events = m0.events ++ new ∧
    ∀ r ∈ new, r.type = "aoi_exit" →
      (r.data.aoiId ≠ some "__proto__" →
        ∃ dur, r.data.duration = some dur ∧ (Monotone m0.clock → 0 ≤ dur)) ∧
      (r.data.aoiId = some "__proto__" → r.data.duration = none)) ∧
  (Monotone m0.clock →
    Monotone m.clock ∧
    (∀ id t, Obj.get m.aoiTimers id = some t → ∀ n, t ≤ m.clock n) ∧
    (∀ R c0 t0, R ≠ "__proto__" → Obj.get m0.aoiConfig R = some c0 →
      c0.totalTime = some t0 → 0 ≤ t0 →
      ∃ c t, Obj.get m.aoiConfig R = some c ∧ c.totalTime = some t ∧ 0 ≤ t))

/-- Life-cycle calls with two dwells and a `cleanup()` in the middle of the second. -/
def lifecycleCalls : List LifecycleCall :=
  [LifecycleCall.call (ManagerCall.checkPointInAOIs 50 25),
   LifecycleCall.call (ManagerCall.checkPointInAOIs 200 200),
   LifecycleCall.call (ManagerCall.checkPointInAOIs 50 25),
   LifecycleCall.cleanup,
   LifecycleCall.call (ManagerCall.checkPointInAOIs 50 25),
   LifecycleCall.call (ManagerCall.handleAOIExit "title" { clientX := 200, clientY := 200 })]

/-- A fresh manager whose one region is registered under the own key `__proto__` (a
configuration that `JSON.parse` produced) from `titlePage 1`, on a logger whose clock
reads 5000, 5500, 6000, ... on consecutive reads. -/
def protoManager : AOIManager :=
  AOIManager.new [("__proto__", { id := some "title" })] tickingLogger (titlePage 1)

/-! # Theorems -/

/-! ## Objects -/

namespace Obj

variable {α : Type}

theorem get_set_same (o : Obj α) (k : String) (v : α) : get (set o k v) k = some v := by
  induction o with
  | nil => simp [set, get]
  | cons p rest ih =>
    obtain ⟨k', v'⟩ := p
    by_cases h : k' = k
    · simp [set, get, h]
    · simp [set, get, h, ih]

theorem get_set_other (o : Obj α) (k k' : String) (v : α) (h : k ≠ k') :
    get (set o k v) k' = get o k' := by
  induction o with
  | nil => simp [set, get, h]
  | cons p rest ih =>
    obtain ⟨k0, v0⟩ := p
    by_cases h0 : k0 = k
    · subst h0; simp [set, get, h]
    · by_cases h1 : k0 = k'
      · subst h1; simp [set, get, h0]
      · simp [set, get, h0, h1, ih]

theorem get_delete_same (o : Obj α) (k : String) : get (delete o k) k = none := by
  induction o with
  | nil => simp [delete, get]
  | cons p rest ih =>
    obtain ⟨k0, v0⟩ := p
    by_cases h0 : k0 = k
    · simp [delete, h0, ih]
    · simp [delete, get, h0, ih]

theorem get_delete_other (o : Obj α) (k k' : String) (h : k ≠ k') :
    get (delete o k) k' = get o k' := by
  induction o with
  | nil => simp [delete, get]
  | cons p rest ih =>
    obtain ⟨k0, v0⟩ := p
    by_cases h0 : k0 = k
    · subst h0; simp [delete, get, h, ih]
    · by_cases h1 : k0 = k'
      · subst h1; simp [delete, get, h0]
      · simp [delete, get, h0, h1, ih]

theorem get_setNumber_same (o : Obj Int) (k : String) (v : Int) (hk : k ≠ "__proto__") :
    get (setNumber o k v) k = some v := by
  unfold setNumber
  rw [if_neg (fun h => hk h.1)]
  exact get_set_same o k v

theorem get_setNumber_other (o : Obj Int) (k k' : String) (v : Int) (h : k ≠ k') :
    get (setNumber o k v) k' = get o k' := by
  unfold setNumber
  split
  · rfl
  · exact get_set_other o k k' v h

/-- A number is never stored under `__proto__` by a property write. -/
theorem get_setNumber_proto (o : Obj Int) (k : String) (v : Int)
    (h : get o "__proto__" = none) : get (setNumber o k v) "__proto__" = none := by
  by_cases hk : k = "__proto__"
  · subst hk
    unfold setNumber
    rw [if_pos ⟨rfl, h⟩]
    exact h
  · rw [get_setNumber_other o k "__proto__" v hk]
    exact h

end Obj

/-! ## DataLogger: what the persistence methods leave alone -/

namespace DataLogger

@[simp] theorem saveData_logData (d : DataLogger) : (saveData d).1.logData = d.logData := by
  unfold saveData
  split
  · rfl
  · dsimp only
    split <;> rfl

@[simp] theorem saveData_lastSave (d : DataLogger) : (saveData d).1.lastSave = d.lastSave := by
  unfold saveData
  split
  · rfl
  · dsimp only
    split <;> rfl

@[simp] theorem saveData_clock (d : DataLogger) : (saveData d).1.window.clock = d.window.clock := by
  unfold saveData
  split
  · rfl
  · dsimp only
    split <;> rfl

@[simp] theorem autoSaveWrite_logData (d : DataLogger) : (autoSaveWrite d).logData = d.logData := by
  simp [autoSaveWrite]

@[simp] theorem autoSave_logData (d : DataLogger) : (autoSave d).logData = d.logData := by
  unfold autoSave
  split
  · simp only []
    split <;> simp
  · simp

@[simp] theorem trackInherited_logData (d : DataLogger) (ty aoiId : String) :
    (trackInherited d ty aoiId).logData = d.logData := by
  unfold trackInherited
  split
  · rfl
  · split <;> rfl

theorem trackAOIVisit_events {d d' : DataLogger} {ty : String} {ed : Option EventData}
    (h : trackAOIVisit d ty ed = some d') : d'.logData.events = d.logData.events := by
  unfold trackAOIVisit at h
  split at h
  · exact absurd h (by simp)
  · split at h
    · simp at h; subst h; rfl
    · simp only [] at h
      split at h
      · simp at h; subst h; simp
      · split at h
        · simp at h; subst h; rfl
        · split at h <;> (simp at h; subst h; rfl)

theorem logEventSwitch_events {d d' : DataLogger} {ty : String} {ed : Option EventData}
    {ev : LogRecord} (h : logEventSwitch d ty ed ev = some d') :
    d'.logData.events = d.logData.events := by
  unfold logEventSwitch at h
  split at h
  · simp at h; subst h; rfl
  · split at h
    · simp at h; subst h; rfl
    · split at h
      · split at h
        · exact absurd h (by simp)
        · split at h <;> (simp at h; subst h; rfl)
      · split at h
        · exact trackAOIVisit_events h
        · simp at h; subst h; rfl

@[simp] theorem pushEvent_events (d : DataLogger) (ty : String) (ed : Option EventData) :
    (pushEvent d ty ed).1.logData.events = d.logData.events ++ [(pushEvent d ty ed).2] := rfl

@[simp] theorem pushEvent_type (d : DataLogger) (ty : String) (ed : Option EventData) :
    (pushEvent d ty ed).2.type = ty := rfl

@[simp] theorem pushEvent_data (d : DataLogger) (ty : String) (ed : Option EventData) :
    (pushEvent d ty ed).2.data = ed.getD {} := rfl

@[simp] theorem pushEvent_aoiVisits (d : DataLogger) (ty : String) (ed : Option EventData) :
    (pushEvent d ty ed).1.logData.aoiVisits = d.logData.aoiVisits := rfl

@[simp] theorem pushEvent_clock (d : DataLogger) (ty : String) (ed : Option EventData) (n : Nat) :
    (pushEvent d ty ed).1.window.clock n = d.window.clock (n + 2) := rfl

/-- The event list after `logEvent`, whether or not the call threw. -/
theorem logEvent_events (d : DataLogger) (ty : String) (ed : Option EventData) :
    (logEvent d ty ed).1.logData.events = d.logData.events ++ [(pushEvent d ty ed).2] := by
  unfold logEvent
  split
  · rfl
  · rename_i d2 h
    simp [logEventSwitch_events h]

end DataLogger

namespace DataLogger

theorem trackAOIVisit_some_payload (d : DataLogger) (ty : String) (p : EventData) :
    ∃ d', trackAOIVisit d ty (some p) = some d' := by
  unfold trackAOIVisit
  dsimp only
  split
  · exact ⟨_, rfl⟩
  · split
    · exact ⟨_, rfl⟩
    · split
      · exact ⟨_, rfl⟩
      · split <;> exact ⟨_, rfl⟩

theorem logEventSwitch_some_payload (d : DataLogger) (ty : String) (p : EventData)
    (ev : LogRecord) : ∃ d', logEventSwitch d ty (some p) ev = some d' := by
  unfold logEventSwitch
  split
  · exact ⟨_, rfl⟩
  · split
    · exact ⟨_, rfl⟩
    · split
      · dsimp only
        split <;> exact ⟨_, rfl⟩
      · split
        · exact trackAOIVisit_some_payload d ty p
        · exact ⟨_, rfl⟩

/-- The switch of `logEvent` throws exactly when there is no payload and the event
type is one of the three whose case reads a property of the payload. -/
theorem logEventSwitch_eq_none_iff (d : DataLogger) (ty : String) (payload : Option EventData)
    (ev : LogRecord) :
    logEventSwitch d ty payload ev = none ↔
      payload = none ∧ (ty = "answer_updated" ∨ ty = "aoi_enter" ∨ ty = "aoi_exit") := by
  cases payload with
  | some p =>
    obtain ⟨d', hd'⟩ := logEventSwitch_some_payload d ty p ev
    simp [hd']
  | none =>
    unfold logEventSwitch trackAOIVisit
    by_cases h1 : ty = "page_loaded"
    · subst h1; simp
    · by_cases h2 : ty = "task_completed"
      · subst h2; simp
      · by_cases h3 : ty = "answer_updated"
        · subst h3; simp
        · by_cases h4 : ty = "aoi_enter" ∨ ty = "aoi_exit"
          · simp [h1, h2, h3, h4]
          · simp only [h1, h2, h3, h4, if_false]
            rw [not_or] at h4
            simp [h3, h4.1, h4.2]

/-- The call `logEvent` throws exactly when there is no payload and the event type is
`answer_updated`, `aoi_enter` or `aoi_exit`. -/
theorem logEvent_eq_none_iff (d : DataLogger) (ty : String) (payload : Option EventData) :
    (logEvent d ty payload).2 = none ↔
      payload = none ∧ (ty = "answer_updated" ∨ ty = "aoi_enter" ∨ ty = "aoi_exit") := by
  rw [← logEventSwitch_eq_none_iff (pushEvent d ty payload).1 ty payload (pushEvent d ty payload).2]
  unfold logEvent
  split
  · rename_i h
    simp [h]
  · rename_i d2 h
    simp [h]

/-- The call `logEvent` returns the record it pushed unless it throws. -/
theorem logEvent_returns_or_throws (d : DataLogger) (ty : String) (payload : Option EventData) :
    (logEvent d ty payload).2 = some (pushEvent d ty payload).2 ∨
      (logEvent d ty payload).2 = none := by
  unfold logEvent
  split
  · exact Or.inr rfl
  · exact Or.inl rfl

/-- With a payload, `logEvent` returns the record it pushed. -/
theorem logEvent_returns (d : DataLogger) (ty : String) (p : EventData) :
    (logEvent d ty (some p)).2 = some (pushEvent d ty (some p)).2 := by
  unfold logEvent
  obtain ⟨d', hd'⟩ := logEventSwitch_some_payload (pushEvent d ty (some p)).1 ty p
    (pushEvent d ty (some p)).2
  rw [hd']

/-- With a payload, `logEvent` is the switch followed by `autoSave`. -/
theorem logEvent_fst (d : DataLogger) (ty : String) (p : EventData) (d2 : DataLogger)
    (h : logEventSwitch (pushEvent d ty (some p)).1 ty (some p) (pushEvent d ty (some p)).2
      = some d2) :
    (logEvent d ty (some p)).1 = autoSave d2 := by
  unfold logEvent
  rw [h]

@[simp] theorem logGazeData_events (d : DataLogger) (x y : Int) (ts : Option Int) (v : Option Nat) :
    (logGazeData d x y ts v).1.logData.events = d.logData.events := by
  cases ts <;> rfl

@[simp] theorem logInteraction_events (d : DataLogger) (ty : String) (details : Option (Obj JsVal)) :
    (logInteraction d ty details).1.logData.events = d.logData.events := by
  simp [logInteraction, Window.now]

@[simp] theorem logAnswer_events (d : DataLogger) (q : String) (a : JsVal)
    (md : Option (Obj JsVal)) : (logAnswer d q a md).1.logData.events = d.logData.events := by
  simp [logAnswer, Window.now]

@[simp] theorem exportData_logData (js : Builtins) (d : DataLogger) (format : String) :
    (exportData js d format).1.logData = d.logData := by
  unfold exportData
  simp only [Window.now]
  split
  · rfl
  · split
    · rfl
    · split <;> rfl

@[simp] theorem getStatistics_logData (d : DataLogger) : (getStatistics d).1.logData = d.logData := by
  unfold getStatistics
  split
  rfl

end DataLogger

/-- What one call adds to the event list. -/
theorem LoggerCall.run_events (d : DataLogger) (c : LoggerCall) :
    ∃ new, (c.run d).logData.events = d.logData.events ++ new ∧
      new.map (fun r => (r.type, r.data)) = c.logged.toList := by
  cases c with
  | logEvent ty data =>
    exact ⟨_, DataLogger.logEvent_events d ty data, by simp [LoggerCall.logged]⟩
  | logGazeData x y ts v => exact ⟨[], by simp [LoggerCall.run], by simp [LoggerCall.logged]⟩
  | logInteraction ty details => exact ⟨[], by simp [LoggerCall.run], by simp [LoggerCall.logged]⟩
  | logAnswer q a md => exact ⟨[], by simp [LoggerCall.run], by simp [LoggerCall.logged]⟩
  | autoSave => exact ⟨[], by simp [LoggerCall.run], by simp [LoggerCall.logged]⟩
  | saveData => exact ⟨[], by simp [LoggerCall.run], by simp [LoggerCall.logged]⟩
  | exportData js format => exact ⟨[], by simp [LoggerCall.run], by simp [LoggerCall.logged]⟩
  | getStatistics => exact ⟨[], by simp [LoggerCall.run], by simp [LoggerCall.logged]⟩

theorem runCalls_events (calls : List LoggerCall) (d : DataLogger) :
    ∃ new, (runCalls d calls).logData.events = d.logData.events ++ new ∧
      new.map (fun r => (r.type, r.data)) = calls.filterMap LoggerCall.logged := by
  induction calls generalizing d with
  | nil => exact ⟨[], by simp [runCalls], by simp⟩
  | cons c rest ih =>
    obtain ⟨new1, h1, h1'⟩ := LoggerCall.run_events d c
    obtain ⟨new2, h2, h2'⟩ := ih (c.run d)
    refine ⟨new1 ++ new2, ?_, ?_⟩
    · have : runCalls d (c :: rest) = runCalls (c.run d) rest := rfl
      rw [this, h2, h1, List.append_assoc]
    · rw [List.map_append, h1', h2']
      cases hc : c.logged <;> simp [List.filterMap_cons, hc]

/-- C7: the event log is append-only and order-preserving.  For every logger with
event list `E` and every call `logEvent(type, data)`, the event list afterwards is `E`
followed by exactly one new record, whose type is `type` and whose data is `data`,
and that record is returned.  A call `logEvent(type)` that passes no data also adds
exactly one record of that type, with the empty object as data, and returns it
unless the type is `answer_updated`, `aoi_enter` or `aoi_exit`.  The calls
`logGazeData`, `logInteraction`, `logAnswer`, `autoSave`, `saveData`, `exportData` and
`getStatistics` leave the list as it is; so after any sequence of these calls the
list is the old one followed by the records of the `logEvent` calls, in call order. -/
theorem C7_event_log_append_only (d : DataLogger) :
    (∀ (ty : String) (data : EventData), ∃ r : LogRecord,
      r.type = ty ∧ r.data = data ∧
      (d.logEvent ty (some data)).1.logData.events = d.logData.events ++ [r] ∧
      (d.logEvent ty (some data)).2 = some r) ∧
    (∀ ty : String, ∃ r : LogRecord,
      r.type = ty ∧ r.data = {} ∧
      (d.logEvent ty none).1.logData.events = d.logData.events ++ [r] ∧
      ((d.logEvent ty none).2 = some r ∨
        ty = "answer_updated" ∨ ty = "aoi_enter" ∨ ty = "aoi_exit")) ∧
    (∀ x y ts v, (d.logGazeData x y ts v).1.logData.events = d.logData.events) ∧
    (∀ ty details, (d.logInteraction ty details).1.logData.events = d.logData.events) ∧
    (∀ q a md, (d.logAnswer q a md).1.logData.events = d.logData.events) ∧
    d.autoSave.logData.events = d.logData.events ∧
    d.saveData.1.logData.events = d.logData.events ∧
    (∀ js format, (DataLogger.exportData js d format).1.logData.events = d.logData.events) ∧
    d.getStatistics.1.logData.events = d.logData.events ∧
    (∀ calls : List LoggerCall, ∃ new : List LogRecord,
      (runCalls d calls).logData.events = d.logData.events ++ new ∧
      new.map (fun r => (r.type, r.data)) = calls.filterMap LoggerCall.logged) := by
  refine ⟨?_, ?_, by simp, by simp, by simp, by simp, by simp, by simp, by simp,
    fun calls => runCalls_events calls d⟩
  · intro ty data
    exact ⟨_, rfl, rfl, DataLogger.logEvent_events d ty (some data),
      DataLogger.logEvent_returns d ty data⟩
  · intro ty
    refine ⟨_, rfl, rfl, DataLogger.logEvent_events d ty none, ?_⟩
    rcases DataLogger.logEvent_returns_or_throws d ty none with h | h
    · exact Or.inl h
    · exact Or.inr ((DataLogger.logEvent_eq_none_iff d ty none).1 h).2

namespace Obj

variable {α : Type}

theorem set_set (o : Obj α) (k : String) (v v' : α) : set (set o k v) k v' = set o k v' := by
  induction o with
  | nil => simp [set]
  | cons p rest ih =>
    obtain ⟨k0, v0⟩ := p
    by_cases h0 : k0 = k
    · simp [set, h0]
    · simp [set, h0, ih]

theorem set_get_self (o : Obj α) (k : String) (v : α) (h : get o k = some v) : set o k v = o := by
  induction o with
  | nil => simp [get] at h
  | cons p rest ih =>
    obtain ⟨k0, v0⟩ := p
    by_cases h0 : k0 = k
    · simp [get, h0] at h
      simp [set, h0, h]
    · simp [get, h0] at h
      simp [set, h0, ih h]

end Obj

namespace DataLogger

/-- The aggregate map after `trackAOIVisit` handled an `aoi_enter` for region `r`. -/
theorem trackAOIVisit_enter (d : DataLogger) (r : String) (p : EventData) (hr : r ≠ "")
    (hk : ((Obj.get d.logData.aoiVisits r).isNone && isProtoKey r) = false)
    (hp : p.aoiId = some r) :
    (trackAOIVisit d "aoi_enter" (some p)).map (fun x => x.logData.aoiVisits) =
      some (Obj.set d.logData.aoiVisits r
        { entries := ((Obj.get d.logData.aoiVisits r).getD freshVisit).entries + 1
          totalTime := ((Obj.get d.logData.aoiVisits r).getD freshVisit).totalTime
          lastEntry := some (d.window.clock 0) }) := by
  unfold trackAOIVisit
  simp only [hp, truthyStr, Window.now, Option.getD_some]
  have hr' : (r != "") = true := by simpa using hr
  simp only [hr', hk, Bool.not_true, Bool.false_eq_true, if_false, if_true]
  cases hg : Obj.get d.logData.aoiVisits r with
  | none => simp [Obj.get_set_same, Obj.set_set]
  | some a => simp [hg]

/-- The aggregate map after `trackAOIVisit` handled an `aoi_exit` for region `r`. -/
theorem trackAOIVisit_exit (d : DataLogger) (r : String) (p : EventData) (hr : r ≠ "")
    (hk : ((Obj.get d.logData.aoiVisits r).isNone && isProtoKey r) = false)
    (hp : p.aoiId = some r) :
    (trackAOIVisit d "aoi_exit" (some p)).map (fun x => x.logData.aoiVisits) =
      some (match Obj.get d.logData.aoiVisits r with
        | none => Obj.set d.logData.aoiVisits r freshVisit
        | some a =>
          if truthyNum a.lastEntry then
            Obj.set d.logData.aoiVisits r
              { a with totalTime := a.totalTime + (d.window.clock 0 - a.lastEntry.getD 0)
                       lastEntry := none }
          else d.logData.aoiVisits) := by
  unfold trackAOIVisit
  simp only [hp, truthyStr, Window.now, Option.getD_some]
  have hr' : (r != "") = true := by simpa using hr
  have hne : ¬ ("aoi_exit" = "aoi_enter") := by decide
  simp only [hr', hk, Bool.not_true, Bool.false_eq_true, if_false, hne]
  cases hg : Obj.get d.logData.aoiVisits r with
  | none => simp [Obj.get_set_same, freshVisit, truthyNum]
  | some a =>
    by_cases ht : truthyNum a.lastEntry = true
    · simp [hg, ht]
    · simp [hg, ht]

/-- For the two AOI event types `logEvent` leaves the aggregate map as `trackAOIVisit`
makes it, run on the logger that has pushed the record. -/
theorem logEvent_aoiVisits (d : DataLogger) (ty : String) (p : EventData)
    (h : ty = "aoi_enter" ∨ ty = "aoi_exit") :
    some (logEvent d ty (some p)).1.logData.aoiVisits =
      (trackAOIVisit (pushEvent d ty (some p)).1 ty (some p)).map
        (fun x => x.logData.aoiVisits) := by
  have h1 : ¬ ty = "page_loaded" := by rcases h with h | h <;> (subst h; decide)
  have h2 : ¬ ty = "task_completed" := by rcases h with h | h <;> (subst h; decide)
  have h3 : ¬ ty = "answer_updated" := by rcases h with h | h <;> (subst h; decide)
  obtain ⟨d2, hd2⟩ := trackAOIVisit_some_payload (pushEvent d ty (some p)).1 ty p
  have hsw : logEventSwitch (pushEvent d ty (some p)).1 ty (some p) (pushEvent d ty (some p)).2
      = some d2 := by
    unfold logEventSwitch
    simp only [h1, h2, h3, h, if_false, if_true]
    exact hd2
  rw [logEvent_fst d ty p d2 hsw, hd2]
  simp

/-- The aggregate map after `trackAOIVisit` handled an event for a region id that
reads a value inherited from `Object.prototype`: it is as before. -/
theorem trackAOIVisit_inherited (d : DataLogger) (ty r : String) (p : EventData)
    (hp : p.aoiId = some r) (hg : Obj.get d.logData.aoiVisits r = none)
    (hk : isProtoKey r = true) :
    (trackAOIVisit d ty (some p)).map (fun x => x.logData.aoiVisits) =
      some d.logData.aoiVisits := by
  have hr : (r != "") = true := by
    by_cases h : r = ""
    · subst h
      exact absurd hk (by decide)
    · simpa using h
  unfold trackAOIVisit
  simp [hp, truthyStr, hr, hg, hk]

end DataLogger

/-- C6 (as amended): let `r` be a non-empty region id under which `aoiVisits[r]` reads
the map itself: `r` is not the name of a property of `Object.prototype`, or the map
has an aggregate of its own for `r`.  For a payload naming `r`,
`logEvent('aoi_enter', ...)` counts one more entry for `r` (starting from the zero
aggregate when `r` had none) and sets `lastEntry` to the clock reading taken in
`trackAOIVisit` (the third read of the call); `logEvent('aoi_exit', ...)` with an open,
non-zero marker adds the reading minus the marker to `totalTime` and clears the
marker; with an aggregate but no open marker it leaves the map as it was; and with no
aggregate for `r` it adds the zero aggregate for `r`. -/
theorem C6_aoi_visit_aggregates (d : DataLogger) (r : String) (p : EventData)
    (hr : r ≠ "") (hk : isProtoKey r = false ∨ Obj.get d.logData.aoiVisits r ≠ none)
    (hp : p.aoiId = some r) :
    (d.logEvent "aoi_enter" (some p)).1.logData.aoiVisits =
      Obj.set d.logData.aoiVisits r
        { entries := ((Obj.get d.logData.aoiVisits r).getD DataLogger.freshVisit).entries + 1
          totalTime := ((Obj.get d.logData.aoiVisits r).getD DataLogger.freshVisit).totalTime
          lastEntry := some (d.window.clock 2) } ∧
    (∀ a t0, Obj.get d.logData.aoiVisits r = some a → a.lastEntry = some t0 → t0 ≠ 0 →
      (d.logEvent "aoi_exit" (some p)).1.logData.aoiVisits =
        Obj.set d.logData.aoiVisits r
          { entries := a.entries, totalTime := a.totalTime + (d.window.clock 2 - t0),
            lastEntry := none }) ∧
    (∀ a, Obj.get d.logData.aoiVisits r = some a → (a.lastEntry = none ∨ a.lastEntry = some 0) →
      (d.logEvent "aoi_exit" (some p)).1.logData.aoiVisits = d.logData.aoiVisits) ∧
    (Obj.get d.logData.aoiVisits r = none →
      (d.logEvent "aoi_exit" (some p)).1.logData.aoiVisits =
        Obj.set d.logData.aoiVisits r { entries := 0, totalTime := 0, lastEntry := none }) := by
  have hk' : ((Obj.get d.logData.aoiVisits r).isNone && isProtoKey r) = false := by
    rcases hk with hk | hk
    · simp [hk]
    · cases hg : Obj.get d.logData.aoiVisits r with
      | none => exact absurd hg hk
      | some a => simp
  have henter := DataLogger.logEvent_aoiVisits d "aoi_enter" p (Or.inl rfl)
  have hexit := DataLogger.logEvent_aoiVisits d "aoi_exit" p (Or.inr rfl)
  rw [DataLogger.trackAOIVisit_enter _ r p hr (by simpa using hk') hp] at henter
  rw [DataLogger.trackAOIVisit_exit _ r p hr (by simpa using hk') hp] at hexit
  simp only [Option.some.injEq, DataLogger.pushEvent_aoiVisits, DataLogger.pushEvent_clock] at henter hexit
  refine ⟨henter, ?_, ?_, ?_⟩
  · intro a t0 ha hl ht
    rw [hexit, ha]
    simp [hl, truthyNum, ht]
  · intro a ha hl
    rw [hexit, ha]
    rcases hl with hl | hl <;> simp [hl, truthyNum]
  · intro ha
    rw [hexit, ha]
    rfl

/-- C6, an instance: on a logger constructed at clock 100 the first `aoi_enter` for
"title" gives the aggregate one entry and the marker 100, and an `aoi_exit` at clock
250 then adds 150 ms and clears the marker. -/
theorem C6_aoi_visit_aggregates_witness :
    "title" ≠ "" ∧ isProtoKey "title" = false ∧
    ({ aoiId := some "title" } : EventData).aoiId = some "title" ∧
    ((sampleLogger 100).logEvent "aoi_enter" (some { aoiId := some "title" })).1.logData.aoiVisits =
      [("title", { entries := 1, totalTime := 0, lastEntry := some 100 })] ∧
    ((((sampleLogger 100).logEvent "aoi_enter" (some { aoiId := some "title" })).1.atTime 250).logEvent
        "aoi_exit" (some { aoiId := some "title" })).1.logData.aoiVisits =
      [("title", { entries := 1, totalTime := 150, lastEntry := none })] :=
  ⟨by decide, by decide, rfl,
   (C6_aoi_visit_aggregates (sampleLogger 100) "title" { aoiId := some "title" }
      (by decide) (Or.inl (by decide)) rfl).1.trans (by decide),
   ((C6_aoi_visit_aggregates
      (((sampleLogger 100).logEvent "aoi_enter" (some { aoiId := some "title" })).1.atTime 250)
      "title" { aoiId := some "title" } (by decide) (Or.inl (by decide)) rfl).2.1
      { entries := 1, totalTime := 0, lastEntry := some 100 } 100 (by decide) rfl
      (by decide)).trans (by decide)⟩

/-- C6 as stated fails: an `aoi_exit` for a region that has no aggregate and no open
marker is not a no-op on the aggregate map, it adds the zero aggregate for the region.
A marker set at clock reading 0 is not treated as open: the `aoi_exit` at clock 150
adds nothing to `totalTime` and leaves the marker in place.  An `aoi_enter` whose
`aoiId` is the empty string counts no entry.  And an `aoi_enter` whose `aoiId` names a
property of `Object.prototype` ("constructor", "toString", "__proto__") creates no
aggregate and counts no entry in the map. -/
theorem C6_exit_without_marker_counterexample :
    (Obj.get (sampleLogger 100).logData.aoiVisits "title" = none ∧
     ((sampleLogger 100).logEvent "aoi_exit" (some { aoiId := some "title" })).1.logData.aoiVisits =
       [("title", { entries := 0, totalTime := 0, lastEntry := none })] ∧
     ((sampleLogger 100).logEvent "aoi_exit" (some { aoiId := some "title" })).1.logData.aoiVisits ≠
       (sampleLogger 100).logData.aoiVisits) ∧
    (((sampleLogger 0).logEvent "aoi_enter" (some { aoiId := some "title" })).1.logData.aoiVisits =
       [("title", { entries := 1, totalTime := 0, lastEntry := some 0 })] ∧
     ((((sampleLogger 0).logEvent "aoi_enter" (some { aoiId := some "title" })).1.atTime 150).logEvent
        "aoi_exit" (some { aoiId := some "title" })).1.logData.aoiVisits =
       [("title", { entries := 1, totalTime := 0, lastEntry := some 0 })]) ∧
    ((sampleLogger 100).logEvent "aoi_enter" (some { aoiId := some "" })).1.logData.aoiVisits = [] ∧
    (((sampleLogger 100).logEvent "aoi_enter" (some { aoiId := some "constructor" })
       ).1.logData.aoiVisits = [] ∧
     ((sampleLogger 100).logEvent "aoi_enter" (some { aoiId := some "toString" })
       ).1.logData.aoiVisits = [] ∧
     ((sampleLogger 100).logEvent "aoi_enter" (some { aoiId := some "__proto__" })
       ).1.logData.aoiVisits = []) := by
  decide

/-! ## The gaze buffer -/

namespace DataLogger

/-- The buffer after `logGazeData`, in terms of the sample the call returns. -/
theorem logGazeData_gazeData (d : DataLogger) (x y : Int) (ts : Option Int) (v : Option Nat) :
    (d.logGazeData x y ts v).1.logData.gazeData =
      if (d.logData.gazeData ++ [(d.logGazeData x y ts v).2]).length > 10000 then
        (d.logData.gazeData ++ [(d.logGazeData x y ts v).2]).drop
          ((d.logData.gazeData ++ [(d.logGazeData x y ts v).2]).length - 5000)
      else d.logData.gazeData ++ [(d.logGazeData x y ts v).2] := by
  cases ts <;> rfl

end DataLogger

theorem logGazeSeq_fill (calls : List GazeCall) (d : DataLogger) (hne : calls ≠ [])
    (h : d.logData.gazeData.length + calls.length = 10001) :
    (logGazeSeq d calls).1.logData.gazeData =
      (d.logData.gazeData ++ (logGazeSeq d calls).2).drop 5001 := by
  induction calls generalizing d with
  | nil => exact absurd rfl hne
  | cons c rest ih =>
    cases rest with
    | nil =>
      simp only [List.length_singleton] at h
      simp only [logGazeSeq]
      rw [DataLogger.logGazeData_gazeData]
      have hlen : (d.logData.gazeData ++ [(d.logGazeData c.x c.y c.timestamp c.validity).2]).length
          = 10001 := by simp; omega
      rw [hlen]
      simp
    | cons c' rest' =>
      simp only [List.length_cons] at h
      have hstep : (d.logGazeData c.x c.y c.timestamp c.validity).1.logData.gazeData =
          d.logData.gazeData ++ [(d.logGazeData c.x c.y c.timestamp c.validity).2] := by
        rw [DataLogger.logGazeData_gazeData]
        have hlen : ¬ (d.logData.gazeData ++
            [(d.logGazeData c.x c.y c.timestamp c.validity).2]).length > 10000 := by
          simp; omega
        rw [if_neg hlen]
      have := ih (d.logGazeData c.x c.y c.timestamp c.validity).1 (by simp)
        (by rw [hstep]; simp; omega)
      rw [logGazeSeq]
      dsimp only
      rw [this, hstep]
      simp

theorem logGazeSeq_length (calls : List GazeCall) (d : DataLogger) :
    (logGazeSeq d calls).2.length = calls.length := by
  induction calls generalizing d with
  | nil => rfl
  | cons c rest ih => simp [logGazeSeq, ih]

/-- C8: `logGazeData` appends the sample `s` it returns to the buffer `B`; the buffer
afterwards is `B` followed by `s` when that has at most 10,000 samples, and
otherwise the last 5,000 samples of `B` followed by `s`, in order.  From an empty
buffer, 10,001 consecutive calls leave exactly 5,000 samples: the 5,002nd to the
10,001st returned, in order. -/
theorem C8_gaze_buffer_drop_oldest (d : DataLogger) :
    (∀ x y ts v,
      ((d.logData.gazeData ++ [(d.logGazeData x y ts v).2]).length ≤ 10000 →
        (d.logGazeData x y ts v).1.logData.gazeData =
          d.logData.gazeData ++ [(d.logGazeData x y ts v).2]) ∧
      (10000 < (d.logData.gazeData ++ [(d.logGazeData x y ts v).2]).length →
        (d.logGazeData x y ts v).1.logData.gazeData =
          (d.logData.gazeData ++ [(d.logGazeData x y ts v).2]).drop
            ((d.logData.gazeData ++ [(d.logGazeData x y ts v).2]).length - 5000) ∧
        (d.logGazeData x y ts v).1.logData.gazeData.length = 5000 ∧
        (d.logGazeData x y ts v).1.logData.gazeData <:+
          d.logData.gazeData ++ [(d.logGazeData x y ts v).2])) ∧
    (∀ calls : List GazeCall, d.logData.gazeData = [] → calls.length = 10001 →
      (logGazeSeq d calls).2.length = 10001 ∧
      (logGazeSeq d calls).1.logData.gazeData = (logGazeSeq d calls).2.drop 5001 ∧
      (logGazeSeq d calls).1.logData.gazeData.length = 5000) := by
  constructor
  · intro x y ts v
    constructor
    · intro h
      rw [DataLogger.logGazeData_gazeData, if_neg (by omega)]
    · intro h
      rw [DataLogger.logGazeData_gazeData, if_pos h]
      refine ⟨rfl, ?_, List.drop_suffix _ _⟩
      rw [List.length_drop]
      omega
  · intro calls hempty hlen
    have hne : calls ≠ [] := by
      intro h0
      rw [h0] at hlen
      simp at hlen
    have hfill := logGazeSeq_fill calls d hne (by rw [hempty, hlen]; rfl)
    rw [hempty, List.nil_append] at hfill
    have hl := logGazeSeq_length calls d
    refine ⟨by rw [hl, hlen], hfill, ?_⟩
    rw [hfill, List.length_drop, hl, hlen]

/-- C8, an instance: 10,001 samples logged on a fresh logger leave 5,000. -/
theorem C8_gaze_buffer_drop_oldest_witness :
    (sampleLogger 100).logData.gazeData = [] ∧
    (List.replicate 10001 ({ x := 3, y := 4 } : GazeCall)).length = 10001 ∧
    (logGazeSeq (sampleLogger 100)
      (List.replicate 10001 { x := 3, y := 4 })).1.logData.gazeData.length = 5000 :=
  ⟨rfl, List.length_replicate _ _,
   ((C8_gaze_buffer_drop_oldest (sampleLogger 100)).2 (List.replicate 10001 { x := 3, y := 4 })
      rfl (List.length_replicate _ _)).2.2⟩

/-! ## Saving -/

namespace DataLogger

/-- The stores after `saveData` do not depend on the clock or on `lastSave`. -/
theorem saveData_stores (d : DataLogger) (w : Nat → Int) (ls : Option Int) :
    (saveData { d with window := { d.window with clock := w }, lastSave := ls }).1.window.localStorage
        = (saveData d).1.window.localStorage ∧
    (saveData { d with window := { d.window with clock := w }, lastSave := ls }).1.window.sessionStorage
        = (saveData d).1.window.sessionStorage := by
  unfold saveData storageKey Storage.setItem
  dsimp only
  by_cases h1 : d.window.localStorage.rejects = true
  · simp [h1]
  · by_cases h2 : d.window.sessionStorage.rejects = true
    · simp [h1, h2]
    · simp [h1, h2]

/-- A `saveData` the primary store accepts is one more accepted write, of the current log. -/
theorem saveData_accepted (d : DataLogger) (h : d.window.localStorage.rejects = false) :
    (saveData d).1.window.localStorage.writes = d.window.localStorage.writes + 1 ∧
    Obj.get (saveData d).1.window.localStorage.items d.storageKey = some d.logData := by
  unfold saveData Storage.setItem
  dsimp only
  by_cases h2 : d.window.sessionStorage.rejects = true
  · simp [h, h2, Obj.get_set_same]
  · simp [h, h2, Obj.get_set_same]

/-- A `saveData` the primary store rejects writes nothing. -/
theorem saveData_rejected (d : DataLogger) (h : d.window.localStorage.rejects = true) :
    (saveData d).1.window.localStorage = d.window.localStorage ∧ (saveData d).2 = false := by
  unfold saveData Storage.setItem
  simp [h]

theorem autoSaveWrite_stores (d : DataLogger) :
    (autoSaveWrite d).window.localStorage = (saveData d).1.window.localStorage ∧
    (autoSaveWrite d).window.sessionStorage = (saveData d).1.window.sessionStorage ∧
    (autoSaveWrite d).lastSave = some (d.window.clock 0) := by
  simp [autoSaveWrite, Window.now]

/-- The debounced branch of `autoSave`: only the clock has been read. -/
theorem autoSave_debounced (d : DataLogger) (last : Int) (h : d.lastSave = some last)
    (h0 : last ≠ 0) (hlt : d.window.clock 0 - last < 1000) :
    autoSave d = { d with window := d.window.now.2 } := by
  unfold autoSave
  simp [h, truthyNum, h0, Window.now, hlt]

/-- The branch of `autoSave` taken when `lastSave` is set and the window has elapsed. -/
theorem autoSave_elapsed (d : DataLogger) (last : Int) (h : d.lastSave = some last)
    (h0 : last ≠ 0) (hge : 1000 ≤ d.window.clock 0 - last) :
    autoSave d = autoSaveWrite { d with window := d.window.now.2 } := by
  unfold autoSave
  simp [h, truthyNum, h0, Window.now, not_lt.mpr hge]

/-- The branch of `autoSave` taken when `lastSave` is `undefined` or `0`. -/
theorem autoSave_unset (d : DataLogger) (h : d.lastSave = none ∨ d.lastSave = some 0) :
    autoSave d = autoSaveWrite d := by
  unfold autoSave
  rcases h with h | h <;> simp [h, truthyNum]

/-- When debounced, `autoSave` leaves both stores, `lastSave` and the log alone. -/
theorem autoSave_debounced_frame (d : DataLogger) (last : Int) (h : d.lastSave = some last)
    (h0 : last ≠ 0) (hlt : d.window.clock 0 - last < 1000) :
    d.autoSave.window.localStorage = d.window.localStorage ∧
    d.autoSave.window.sessionStorage = d.window.sessionStorage ∧
    d.autoSave.lastSave = d.lastSave ∧ d.autoSave.logData = d.logData := by
  rw [autoSave_debounced d last h h0 hlt]
  exact ⟨rfl, rfl, rfl, rfl⟩

/-- Once the window has elapsed, `autoSave` leaves the stores as `saveData` does. -/
theorem autoSave_elapsed_stores (d : DataLogger) (last : Int) (h : d.lastSave = some last)
    (h0 : last ≠ 0) (hge : 1000 ≤ d.window.clock 0 - last) :
    d.autoSave.window.localStorage = d.saveData.1.window.localStorage ∧
    d.autoSave.window.sessionStorage = d.saveData.1.window.sessionStorage ∧
    d.autoSave.lastSave = some (d.window.clock 1) := by
  rw [autoSave_elapsed d last h h0 hge]
  obtain ⟨h1, h2, h3⟩ := autoSaveWrite_stores { d with window := d.window.now.2 }
  obtain ⟨h4, h5⟩ := saveData_stores d (fun n => d.window.clock (n + 1)) d.lastSave
  exact ⟨h1.trans h4, h2.trans h5, h3⟩

/-- With `lastSave` unset or zero, `autoSave` leaves the stores as `saveData` does. -/
theorem autoSave_unset_stores (d : DataLogger) (h : d.lastSave = none ∨ d.lastSave = some 0) :
    d.autoSave.window.localStorage = d.saveData.1.window.localStorage ∧
    d.autoSave.window.sessionStorage = d.saveData.1.window.sessionStorage ∧
    d.autoSave.lastSave = some (d.window.clock 0) := by
  rw [autoSave_unset d h]
  exact autoSaveWrite_stores d

end DataLogger

/-- C9 (as amended): `autoSave` is a no-op exactly when `lastSave` is set, non-zero and
less than 1000 ms before the clock reading; `lastSave` is the reading taken after the
last `autoSave` that called `saveData`, whether or not that save succeeded, and a
direct `saveData` call does not set it.  Otherwise `autoSave` calls `saveData` once
and sets `lastSave` to the next clock reading.  From a logger that has not saved yet,
with stores that accept writes and a non-zero clock, two `autoSave` calls less than
1000 ms apart make one accepted write and a call 1000 ms or more after the first
makes the second. -/
theorem C9_autoSave_debounce (d : DataLogger) :
    (∀ last, d.lastSave = some last → last ≠ 0 → d.window.clock 0 - last < 1000 →
      d.autoSave.window.localStorage = d.window.localStorage ∧
      d.autoSave.window.sessionStorage = d.window.sessionStorage ∧
      d.autoSave.lastSave = d.lastSave ∧ d.autoSave.logData = d.logData) ∧
    (∀ last, d.lastSave = some last → last ≠ 0 → 1000 ≤ d.window.clock 0 - last →
      d.autoSave.window.localStorage = d.saveData.1.window.localStorage ∧
      d.autoSave.window.sessionStorage = d.saveData.1.window.sessionStorage ∧
      d.autoSave.lastSave = some (d.window.clock 1)) ∧
    ((d.lastSave = none ∨ d.lastSave = some 0) →
      d.autoSave.window.localStorage = d.saveData.1.window.localStorage ∧
      d.autoSave.window.sessionStorage = d.saveData.1.window.sessionStorage ∧
      d.autoSave.lastSave = some (d.window.clock 0)) ∧
    (d.window.localStorage.rejects = false →
      d.saveData.1.window.localStorage.writes = d.window.localStorage.writes + 1 ∧
      d.saveData.1.lastSave = d.lastSave) ∧
    (d.lastSave = none → d.window.localStorage.rejects = false →
      d.window.sessionStorage.rejects = false → d.window.clock 0 ≠ 0 →
      d.window.clock 1 - d.window.clock 0 < 1000 → 1000 ≤ d.window.clock 2 - d.window.clock 0 →
      d.autoSave.window.localStorage.writes = d.window.localStorage.writes + 1 ∧
      d.autoSave.autoSave.window.localStorage.writes = d.window.localStorage.writes + 1 ∧
      d.autoSave.autoSave.autoSave.window.localStorage.writes =
        d.window.localStorage.writes + 2) := by
  refine ⟨?_, ?_, ?_, ?_, ?_⟩
  · exact DataLogger.autoSave_debounced_frame d
  · exact DataLogger.autoSave_elapsed_stores d
  · exact DataLogger.autoSave_unset_stores d
  · intro h
    exact ⟨(DataLogger.saveData_accepted d h).1, DataLogger.saveData_lastSave d⟩
  · intro hls hl hs h0 hlt hge
    have e1 : d.autoSave = DataLogger.autoSaveWrite d := DataLogger.autoSave_unset d (Or.inl hls)
    have w1 : d.autoSave.window.localStorage.writes = d.window.localStorage.writes + 1 := by
      rw [e1, (DataLogger.autoSaveWrite_stores d).1]
      exact (DataLogger.saveData_accepted d hl).1
    have l1 : d.autoSave.lastSave = some (d.window.clock 0) := by
      rw [e1]; exact (DataLogger.autoSaveWrite_stores d).2.2
    have c1 : ∀ n, d.autoSave.window.clock n = d.window.clock (n + 1) := by
      intro n
      rw [e1]
      simp [DataLogger.autoSaveWrite, Window.now]
    have r1 : d.autoSave.window.localStorage.rejects = false := by
      rw [e1, (DataLogger.autoSaveWrite_stores d).1]
      unfold DataLogger.saveData Storage.setItem
      simp [hl, hs]
    have e2 : d.autoSave.autoSave = { d.autoSave with window := d.autoSave.window.now.2 } :=
      DataLogger.autoSave_debounced d.autoSave _ l1 h0 (by rw [c1]; exact hlt)
    have w2 : d.autoSave.autoSave.window.localStorage.writes = d.window.localStorage.writes + 1 := by
      rw [e2]; exact w1
    have l2 : d.autoSave.autoSave.lastSave = some (d.window.clock 0) := by
      rw [e2]; exact l1
    have c2 : d.autoSave.autoSave.window.clock 0 = d.window.clock 2 := by
      rw [e2]
      simp [Window.now, c1]
    have r2 : d.autoSave.autoSave.window.localStorage.rejects = false := by
      rw [e2]; exact r1
    have e3 := DataLogger.autoSave_elapsed d.autoSave.autoSave _ l2 h0 (by rw [c2]; exact hge)
    refine ⟨w1, w2, ?_⟩
    rw [e3, (DataLogger.autoSaveWrite_stores _).1]
    have := (DataLogger.saveData_accepted
      { d.autoSave.autoSave with window := d.autoSave.autoSave.window.now.2 } r2).1
    rw [this]
    show d.autoSave.autoSave.window.localStorage.writes + 1 = _
    rw [w2]

/-- C9, an instance: on a fresh logger whose clock reads 5000, 5500 and then 6000,
the first `autoSave` writes, the second does not, the third writes again. -/
theorem C9_autoSave_debounce_witness :
    (tickingLogger.lastSave = none ∧ tickingLogger.window.localStorage.rejects = false ∧
     tickingLogger.window.sessionStorage.rejects = false ∧ tickingLogger.window.clock 0 ≠ 0 ∧
     tickingLogger.window.clock 1 - tickingLogger.window.clock 0 < 1000 ∧
     1000 ≤ tickingLogger.window.clock 2 - tickingLogger.window.clock 0) ∧
    tickingLogger.autoSave.window.localStorage.writes = 1 ∧
    tickingLogger.autoSave.autoSave.window.localStorage.writes = 1 ∧
    tickingLogger.autoSave.autoSave.autoSave.window.localStorage.writes = 2 :=
  ⟨⟨rfl, rfl, rfl, by decide, by decide, by decide⟩,
   (C9_autoSave_debounce tickingLogger).2.2.2.2 rfl rfl rfl (by decide) (by decide) (by decide)⟩

/-- C9 as stated fails.  After an `autoSave` whose save the store rejected (no
successful save has happened: no write was accepted) an `autoSave` 500 ms later is a
no-op although the store accepts writes again; 100 ms after a successful direct
`saveData` (one accepted write) `autoSave` writes again; and after an `autoSave` that
wrote at clock reading 0 an `autoSave` 500 ms later writes again. -/
theorem C9_previous_successful_save_counterexample :
    (((sampleLogger 5000).storesReject true).autoSave.window.localStorage.writes = 0 ∧
     ((((sampleLogger 5000).storesReject true).autoSave.storesReject false).atTime 5500
        ).window.localStorage.rejects = false ∧
     ((((sampleLogger 5000).storesReject true).autoSave.storesReject false).atTime 5500
        ).autoSave.window.localStorage.writes = 0) ∧
    ((sampleLogger 5000).saveData.2 = true ∧
     (sampleLogger 5000).saveData.1.window.localStorage.writes = 1 ∧
     ((sampleLogger 5000).saveData.1.atTime 5100).autoSave.window.localStorage.writes = 2) ∧
    ((sampleLogger 0).autoSave.window.localStorage.writes = 1 ∧
     ((sampleLogger 0).autoSave.atTime 500).autoSave.window.localStorage.writes = 2) := by
  decide

/-- C10 (as amended): a firing of the 30,000 ms timer runs `autoSave`, so it writes
nothing when `lastSave` is set, non-zero and less than 1000 ms before the clock
reading, and otherwise calls `saveData`; the `beforeunload` listener runs `saveData`
whatever `lastSave` is, one more accepted write when the primary store accepts it. -/
theorem C10_timer_and_unload_saves (d : DataLogger) :
    DataLogger.setupAutoSave.intervalMs = 30000 ∧
    DataLogger.setupAutoSave.onInterval d = d.autoSave ∧
    (∀ last, d.lastSave = some last → last ≠ 0 → d.window.clock 0 - last < 1000 →
      (DataLogger.setupAutoSave.onInterval d).window.localStorage = d.window.localStorage ∧
      (DataLogger.setupAutoSave.onInterval d).window.sessionStorage = d.window.sessionStorage) ∧
    ((d.lastSave = none ∨ d.lastSave = some 0 ∨
        ∃ last, d.lastSave = some last ∧ 1000 ≤ d.window.clock 0 - last) →
      (DataLogger.setupAutoSave.onInterval d).window.localStorage =
        d.saveData.1.window.localStorage ∧
      (DataLogger.setupAutoSave.onInterval d).window.sessionStorage =
        d.saveData.1.window.sessionStorage) ∧
    DataLogger.setupAutoSave.onBeforeUnload d = d.saveData.1 ∧
    (d.window.localStorage.rejects = false →
      (DataLogger.setupAutoSave.onBeforeUnload d).window.localStorage.writes =
        d.window.localStorage.writes + 1 ∧
      Obj.get (DataLogger.setupAutoSave.onBeforeUnload d).window.localStorage.items d.storageKey =
        some d.logData) := by
  refine ⟨rfl, rfl, ?_, ?_, rfl, ?_⟩
  · intro last h h0 hlt
    obtain ⟨h1, h2, -, -⟩ := DataLogger.autoSave_debounced_frame d last h h0 hlt
    exact ⟨h1, h2⟩
  · intro h
    rcases h with h | h | ⟨last, h, hge⟩
    · obtain ⟨h1, h2, -⟩ := DataLogger.autoSave_unset_stores d (Or.inl h)
      exact ⟨h1, h2⟩
    · obtain ⟨h1, h2, -⟩ := DataLogger.autoSave_unset_stores d (Or.inr h)
      exact ⟨h1, h2⟩
    · by_cases h0 : last = 0
      · subst h0
        obtain ⟨h1, h2, -⟩ := DataLogger.autoSave_unset_stores d (Or.inr h)
        exact ⟨h1, h2⟩
      · obtain ⟨h1, h2, -⟩ := DataLogger.autoSave_elapsed_stores d last h h0 hge
        exact ⟨h1, h2⟩
  · intro h
    exact DataLogger.saveData_accepted d h

/-- C10, an instance: a timer firing at clock 30000 on a logger whose `autoSave` wrote
at clock 29500 writes nothing, and the `beforeunload` listener then writes. -/
theorem C10_timer_and_unload_saves_witness :
    (((sampleLogger 29500).autoSave.atTime 30000).lastSave = some 29500 ∧
     (29500 : Int) ≠ 0 ∧
     ((sampleLogger 29500).autoSave.atTime 30000).window.clock 0 - 29500 < 1000 ∧
     ((sampleLogger 29500).autoSave.atTime 30000).window.localStorage.rejects = false) ∧
    (DataLogger.setupAutoSave.onInterval ((sampleLogger 29500).autoSave.atTime 30000)
      ).window.localStorage = ((sampleLogger 29500).autoSave.atTime 30000).window.localStorage ∧
    (DataLogger.setupAutoSave.onBeforeUnload ((sampleLogger 29500).autoSave.atTime 30000)
      ).window.localStorage.writes =
        ((sampleLogger 29500).autoSave.atTime 30000).window.localStorage.writes + 1 :=
  ⟨⟨rfl, by decide, by decide, rfl⟩,
   ((C10_timer_and_unload_saves ((sampleLogger 29500).autoSave.atTime 30000)).2.2.1
      29500 rfl (by decide) (by decide)).1,
   ((C10_timer_and_unload_saves ((sampleLogger 29500).autoSave.atTime 30000)).2.2.2.2.2 rfl).1⟩

/-- C10 as stated fails: the timer firing at clock 30000, 500 ms after an `autoSave`
that wrote, performs no write although the store accepts writes. -/
theorem C10_timer_is_debounced_counterexample :
    ((sampleLogger 29500).autoSave.atTime 30000).window.localStorage.rejects = false ∧
    ((sampleLogger 29500).autoSave.atTime 30000).window.localStorage.writes = 1 ∧
    (DataLogger.setupAutoSave.onInterval ((sampleLogger 29500).autoSave.atTime 30000)
      ).window.localStorage.writes = 1 ∧
    (DataLogger.setupAutoSave.onInterval ((sampleLogger 29500).autoSave.atTime 30000)
      ).window.sessionStorage.writes = 1 := by
  decide

/-! ## AOIManager: what each listener does -/

namespace AOIManager

theorem handleAOIEnter_blocked (m : AOIManager) (aoiId : String) (ev : DomEvent)
    (h : m.isEnabled = false ∨ aoiId ∈ m.activeAOIs) : m.handleAOIEnter aoiId ev = m := by
  unfold handleAOIEnter
  rcases h with h | h <;> simp [h]

theorem handleAOIExit_blocked (m : AOIManager) (aoiId : String) (ev : DomEvent)
    (h : m.isEnabled = false ∨ aoiId ∉ m.activeAOIs) : m.handleAOIExit aoiId ev = m := by
  unfold handleAOIExit
  rcases h with h | h <;> simp [h]

theorem handleAOIClick_blocked (m : AOIManager) (aoiId : String) (ev : DomEvent)
    (h : m.isEnabled = false) : m.handleAOIClick aoiId ev = m := by
  unfold handleAOIClick
  simp [h]

/-- What `handleAOIEnter` does when its guard lets it through. -/
theorem handleAOIEnter_fires (m : AOIManager) (aoiId : String) (ev : DomEvent)
    (he : m.isEnabled = true) (hn : aoiId ∉ m.activeAOIs) :
    ∃ r : LogRecord, r.type = "aoi_enter" ∧ r.data.aoiId = some aoiId ∧
      r.data.timestamp = some (m.dataLogger.window.clock 0) ∧
      (m.handleAOIEnter aoiId ev).events = m.events ++ [r] ∧
      (m.handleAOIEnter aoiId ev).activeAOIs = m.activeAOIs ++ [aoiId] ∧
      (m.handleAOIEnter aoiId ev).aoiTimers =
        Obj.setNumber m.aoiTimers aoiId (m.dataLogger.window.clock 0) ∧
      (m.handleAOIEnter aoiId ev).aoiConfig = m.aoiConfig ∧
      (m.handleAOIEnter aoiId ev).isEnabled = true := by
  unfold handleAOIEnter
  rw [if_neg (by simp [he, hn])]
  exact ⟨_, rfl, rfl, rfl, DataLogger.logEvent_events _ _ _, rfl, rfl, rfl, he⟩

/-- What `handleAOIExit` does when its guard lets it through. -/
theorem handleAOIExit_fires (m : AOIManager) (aoiId : String) (ev : DomEvent)
    (he : m.isEnabled = true) (hn : aoiId ∈ m.activeAOIs) :
    ∃ r : LogRecord, r.type = "aoi_exit" ∧ r.data.aoiId = some aoiId ∧
      r.data.timestamp = some (m.dataLogger.window.clock 0) ∧
      r.data.duration =
        (Obj.get m.aoiTimers aoiId).map (fun t => m.dataLogger.window.clock 0 - t) ∧
      r.data.totalVisits =
        some (((Obj.get (m.handleAOIExit aoiId ev).aoiConfig aoiId).bind AOIConfig.visits).getD 0) ∧
      r.data.totalTime =
        some (((Obj.get (m.handleAOIExit aoiId ev).aoiConfig aoiId).bind AOIConfig.totalTime).getD 0) ∧
      (m.handleAOIExit aoiId ev).events = m.events ++ [r] ∧
      (m.handleAOIExit aoiId ev).activeAOIs = m.activeAOIs.filter (fun a => a != aoiId) ∧
      (m.handleAOIExit aoiId ev).aoiTimers = Obj.delete m.aoiTimers aoiId ∧
      (m.handleAOIExit aoiId ev).aoiConfig =
        (match Obj.get m.aoiConfig aoiId with
          | some c => Obj.set m.aoiConfig aoiId
              (addDwell c ((Obj.get m.aoiTimers aoiId).map
                (fun t => m.dataLogger.window.clock 0 - t)))
          | none => m.aoiConfig) ∧
      (m.handleAOIExit aoiId ev).isEnabled = true := by
  unfold handleAOIExit
  rw [if_neg (by simp [he, hn])]
  exact ⟨_, rfl, rfl, rfl, rfl, rfl, rfl, DataLogger.logEvent_events _ _ _, rfl, rfl, rfl, he⟩

/-- What `handleAOIClick` does when the manager is enabled. -/
theorem handleAOIClick_fires (m : AOIManager) (aoiId : String) (ev : DomEvent)
    (he : m.isEnabled = true) :
    ∃ r : LogRecord, r.type = "aoi_click" ∧
      (m.handleAOIClick aoiId ev).events = m.events ++ [r] ∧
      (m.handleAOIClick aoiId ev).activeAOIs = m.activeAOIs ∧
      (m.handleAOIClick aoiId ev).aoiTimers = m.aoiTimers ∧
      (m.handleAOIClick aoiId ev).aoiConfig = m.aoiConfig ∧
      (m.handleAOIClick aoiId ev).isEnabled = true := by
  unfold handleAOIClick
  rw [if_neg (by simp [he])]
  exact ⟨_, rfl, DataLogger.logEvent_events _ _ _, rfl, rfl, rfl, he⟩

theorem steps_handleAOIEnter (m : AOIManager) (aoiId : String) (ev : DomEvent) :
    Steps m (m.handleAOIEnter aoiId ev) := by
  by_cases h : m.isEnabled = true ∧ aoiId ∉ m.activeAOIs
  · exact Relation.ReflTransGen.single (Step.enter m aoiId ev h.1 h.2)
  · rw [handleAOIEnter_blocked]
    rw [not_and_or] at h
    rcases h with h | h
    · exact Or.inl (by simpa using h)
    · exact Or.inr (by simpa using h)

theorem steps_handleAOIExit (m : AOIManager) (aoiId : String) (ev : DomEvent) :
    Steps m (m.handleAOIExit aoiId ev) := by
  by_cases h : m.isEnabled = true ∧ aoiId ∈ m.activeAOIs
  · exact Relation.ReflTransGen.single (Step.exit m aoiId ev h.1 h.2)
  · rw [handleAOIExit_blocked]
    rw [not_and_or] at h
    rcases h with h | h
    · exact Or.inl (by simpa using h)
    · exact Or.inr h

theorem steps_handleAOIClick (m : AOIManager) (aoiId : String) (ev : DomEvent) :
    Steps m (m.handleAOIClick aoiId ev) := by
  by_cases h : m.isEnabled = true
  · exact Relation.ReflTransGen.single (Step.click m aoiId ev h)
  · rw [handleAOIClick_blocked]
    simpa using h

theorem steps_checkEntry (x y : Int) (m : AOIManager) (entry : String × AOIConfig) :
    Steps m (checkEntry x y m entry) := by
  unfold checkEntry
  split
  · exact Relation.ReflTransGen.refl
  · dsimp only
    split
    · exact Relation.ReflTransGen.head (Step.clock m x y) (steps_handleAOIEnter _ _ _)
    · split
      · exact Relation.ReflTransGen.head (Step.clock m x y) (steps_handleAOIExit _ _ _)
      · exact Relation.ReflTransGen.refl

theorem steps_foldl_checkEntry (x y : Int) (entries : List (String × AOIConfig))
    (m : AOIManager) : Steps m (entries.foldl (checkEntry x y) m) := by
  induction entries generalizing m with
  | nil => exact Relation.ReflTransGen.refl
  | cons e rest ih => exact (steps_checkEntry x y m e).trans (ih _)

end AOIManager

theorem ManagerCall.steps_run (m : AOIManager) (c : ManagerCall) :
    AOIManager.Steps m (c.run m) := by
  cases c with
  | checkPointInAOIs x y => exact AOIManager.steps_foldl_checkEntry x y _ m
  | handleAOIEnter aoiId ev => exact AOIManager.steps_handleAOIEnter m aoiId ev
  | handleAOIExit aoiId ev => exact AOIManager.steps_handleAOIExit m aoiId ev
  | handleAOIClick aoiId ev => exact AOIManager.steps_handleAOIClick m aoiId ev
  | enable => exact Relation.ReflTransGen.single (AOIManager.Step.flag m true)
  | disable => exact Relation.ReflTransGen.single (AOIManager.Step.flag m false)

theorem steps_runManager (calls : List ManagerCall) (m : AOIManager) :
    AOIManager.Steps m (runManager m calls) := by
  induction calls generalizing m with
  | nil => exact Relation.ReflTransGen.refl
  | cons c rest ih => exact (ManagerCall.steps_run m c).trans (ih _)

/-! ## AOIManager: enter and exit events alternate -/

theorem aoiLog_concat (R : String) (l : List LogRecord) (r : LogRecord) :
    aoiLog R (l ++ [r]) = aoiLog R l ++ (aoiKind R r).toList := by
  unfold aoiLog
  rw [List.filterMap_append]
  cases h : aoiKind R r <;> simp [List.filterMap_cons, h]

theorem aoiKind_enter (R : String) (r : LogRecord) (aoiId : String) (hty : r.type = "aoi_enter")
    (hid : r.data.aoiId = some aoiId) :
    aoiKind R r = if aoiId = R then some AOIKind.enter else none := by
  unfold aoiKind
  by_cases h : aoiId = R
  · simp [hid, hty, h]
  · simp [hid, h]

theorem aoiKind_exit (R : String) (r : LogRecord) (aoiId : String) (hty : r.type = "aoi_exit")
    (hid : r.data.aoiId = some aoiId) :
    aoiKind R r = if aoiId = R then some AOIKind.exit else none := by
  unfold aoiKind
  by_cases h : aoiId = R
  · simp [hid, hty, h]
  · simp [hid, h]

theorem aoiKind_click (R : String) (r : LogRecord) (hty : r.type = "aoi_click") :
    aoiKind R r = none := by
  unfold aoiKind
  simp [hty]

/-- The alternation invariant: what has been logged for `R` since `m0` alternates from
an enter, and `R` is active exactly when the last of it is an enter. -/
theorem AOIManager.step_alternate {m0 m m' : AOIManager} (R : String)
    (hstep : AOIManager.Step m m')
    (inv : ∃ new, m.events = m0.events ++ new ∧
      List.Chain' (fun a b => a ≠ b) (aoiLog R new) ∧
      (aoiLog R new).head? ≠ some AOIKind.exit ∧
      (R ∈ m.activeAOIs ↔ (aoiLog R new).getLast? = some AOIKind.enter)) :
    ∃ new, m'.events = m0.events ++ new ∧
      List.Chain' (fun a b => a ≠ b) (aoiLog R new) ∧
      (aoiLog R new).head? ≠ some AOIKind.exit ∧
      (R ∈ m'.activeAOIs ↔ (aoiLog R new).getLast? = some AOIKind.enter) := by
  obtain ⟨new, hev, hchain, hhead, hact⟩ := inv
  cases hstep with
  | enter aoiId ev he hn =>
    obtain ⟨r, hty, hid, -, hev', hact', -, -, -⟩ :=
      AOIManager.handleAOIEnter_fires m aoiId ev he hn
    refine ⟨new ++ [r], by rw [hev', hev, List.append_assoc], ?_⟩
    rw [aoiLog_concat, aoiKind_enter R r aoiId hty hid, hact']
    by_cases h : aoiId = R
    · subst h
      have hlast : (aoiLog aoiId new).getLast? ≠ some AOIKind.enter := fun h' => hn (hact.mpr h')
      simp only [if_true, Option.toList_some]
      refine ⟨?_, ?_, ?_⟩
      · refine List.Chain'.append hchain (List.chain'_singleton _) ?_
        intro a ha b hb
        simp only [List.head?_cons, Option.mem_def, Option.some.injEq] at hb
        subst hb
        intro hab
        subst hab
        exact hlast ha
      · rw [List.head?_append]
        cases hh : (aoiLog aoiId new).head? with
        | none => simp
        | some k =>
          rw [hh] at hhead
          simpa using hhead
      · simp
    · simp only [h, if_false, Option.toList_none, List.append_nil]
      refine ⟨hchain, hhead, ?_⟩
      rw [← hact]
      simp [Ne.symm h]
  | exit aoiId ev he hn =>
    obtain ⟨r, hty, hid, -, -, -, -, hev', hact', -, -, -⟩ :=
      AOIManager.handleAOIExit_fires m aoiId ev he hn
    refine ⟨new ++ [r], by rw [hev', hev, List.append_assoc], ?_⟩
    rw [aoiLog_concat, aoiKind_exit R r aoiId hty hid, hact']
    by_cases h : aoiId = R
    · subst h
      have hlast : (aoiLog aoiId new).getLast? = some AOIKind.enter := hact.mp hn
      have hne : aoiLog aoiId new ≠ [] := by
        intro h0
        rw [h0] at hlast
        simp at hlast
      simp only [if_true, Option.toList_some]
      refine ⟨?_, ?_, ?_⟩
      · refine List.Chain'.append hchain (List.chain'_singleton _) ?_
        intro a ha b hb
        simp only [List.head?_cons, Option.mem_def, Option.some.injEq] at hb
        subst hb
        rw [Option.mem_def, hlast] at ha
        cases ha
        decide
      · rw [List.head?_append_of_ne_nil _ hne]
        exact hhead
      · simp
    · simp only [h, if_false, Option.toList_none, List.append_nil]
      refine ⟨hchain, hhead, ?_⟩
      rw [← hact]
      simp [Ne.symm h]
  | click aoiId ev he =>
    obtain ⟨r, hty, hev', hact', -, -, -⟩ := AOIManager.handleAOIClick_fires m aoiId ev he
    refine ⟨new ++ [r], by rw [hev', hev, List.append_assoc], ?_⟩
    rw [aoiLog_concat, aoiKind_click R r hty, hact']
    simpa using ⟨hchain, hhead, hact⟩
  | clock x y => exact ⟨new, hev, hchain, hhead, hact⟩
  | flag b => exact ⟨new, hev, hchain, hhead, hact⟩

theorem AOIManager.steps_alternate {m0 m : AOIManager} (R : String)
    (hsteps : AOIManager.Steps m0 m) (h0 : R ∉ m0.activeAOIs) :
    ∃ new, m.events = m0.events ++ new ∧
      List.Chain' (fun a b => a ≠ b) (aoiLog R new) ∧
      (aoiLog R new).head? ≠ some AOIKind.exit ∧
      (R ∈ m.activeAOIs ↔ (aoiLog R new).getLast? = some AOIKind.enter) := by
  induction hsteps with
  | refl => exact ⟨[], by simp, by simp [aoiLog], by simp [aoiLog], by simp [aoiLog, h0]⟩
  | tail _ hstep ih => exact AOIManager.step_alternate R hstep ih

theorem AOIManager.eventsSince_eq {m m0 : AOIManager} {new : List LogRecord}
    (h : m.events = m0.events ++ new) : m.eventsSince m0 = new := by
  unfold AOIManager.eventsSince
  rw [h, List.drop_left]

namespace AOIManager

theorem setupElementAOITracking_frame (m : AOIManager) (doc : Document) (el : Option Element)
    (aoiId : String) :
    (setupElementAOITracking m doc el aoiId).activeAOIs = m.activeAOIs ∧
    (setupElementAOITracking m doc el aoiId).aoiTimers = m.aoiTimers ∧
    (setupElementAOITracking m doc el aoiId).dataLogger = m.dataLogger ∧
    (setupElementAOITracking m doc el aoiId).isEnabled = m.isEnabled := by
  unfold setupElementAOITracking
  split
  · exact ⟨rfl, rfl, rfl, rfl⟩
  · split <;> exact ⟨rfl, rfl, rfl, rfl⟩

theorem setupSelected_frame (doc : Document) (name : String) (els : List Element)
    (m : AOIManager) (index : Nat) :
    (setupSelected doc name m els index).activeAOIs = m.activeAOIs ∧
    (setupSelected doc name m els index).aoiTimers = m.aoiTimers ∧
    (setupSelected doc name m els index).dataLogger = m.dataLogger ∧
    (setupSelected doc name m els index).isEnabled = m.isEnabled := by
  induction els generalizing m index with
  | nil => exact ⟨rfl, rfl, rfl, rfl⟩
  | cons el rest ih =>
    unfold setupSelected
    obtain ⟨h1, h2, h3, h4⟩ := ih (setupElementAOITracking m doc (some el)
      (name ++ "_" ++ toString index)) (index + 1)
    obtain ⟨g1, g2, g3, g4⟩ := setupElementAOITracking_frame m doc (some el)
      (name ++ "_" ++ toString index)
    exact ⟨h1.trans g1, h2.trans g2, h3.trans g3, h4.trans g4⟩

theorem initEntry_frame (doc : Document) (m : AOIManager) (entry : String × AOIConfig) :
    (initEntry doc m entry).activeAOIs = m.activeAOIs ∧
    (initEntry doc m entry).aoiTimers = m.aoiTimers ∧
    (initEntry doc m entry).dataLogger = m.dataLogger ∧
    (initEntry doc m entry).isEnabled = m.isEnabled := by
  unfold initEntry
  dsimp only
  split
  · exact setupElementAOITracking_frame _ _ _ _
  · split
    · exact setupSelected_frame _ _ _ _ _
    · exact ⟨rfl, rfl, rfl, rfl⟩

theorem foldl_initEntry_frame (doc : Document) (entries : List (String × AOIConfig))
    (m : AOIManager) :
    (entries.foldl (initEntry doc) m).activeAOIs = m.activeAOIs ∧
    (entries.foldl (initEntry doc) m).aoiTimers = m.aoiTimers ∧
    (entries.foldl (initEntry doc) m).dataLogger = m.dataLogger ∧
    (entries.foldl (initEntry doc) m).isEnabled = m.isEnabled := by
  induction entries generalizing m with
  | nil => exact ⟨rfl, rfl, rfl, rfl⟩
  | cons e rest ih =>
    obtain ⟨h1, h2, h3, h4⟩ := ih (initEntry doc m e)
    obtain ⟨g1, g2, g3, g4⟩ := initEntry_frame doc m e
    exact ⟨h1.trans g1, h2.trans g2, h3.trans g3, h4.trans g4⟩

/-- Construction registers regions and touches nothing else: the manager starts enabled,
with no active region and no timer, on the logger it was given. -/
theorem new_frame (cfg : Obj AOIConfig) (dl : DataLogger) (doc : Document) :
    (AOIManager.new cfg dl doc).activeAOIs = [] ∧
    (AOIManager.new cfg dl doc).aoiTimers = [] ∧
    (AOIManager.new cfg dl doc).dataLogger = dl ∧
    (AOIManager.new cfg dl doc).isEnabled = true := by
  unfold AOIManager.new initializeAOITracking
  rw [if_neg (by simp)]
  exact foldl_initEntry_frame doc cfg _

end AOIManager

/-- C1: on a manager as constructed, after any sequence of poll ticks, pointer-enter,
pointer-leave and click callbacks and `enable()`/`disable()` calls, the `aoi_enter` and
`aoi_exit` events logged for a region `R` strictly alternate (no two consecutive ones
are of the same kind) and do not start with an exit, and `R` is in `activeAOIs`
exactly when the last of them is an enter. -/
theorem C1_enter_exit_alternate (cfg : Obj AOIConfig) (dl : DataLogger) (doc : Document)
    (R : String) (calls : List ManagerCall) :
    (runManager (AOIManager.new cfg dl doc) calls).events =
      dl.logData.events ++ (runManager (AOIManager.new cfg dl doc) calls).eventsSince
        (AOIManager.new cfg dl doc) ∧
    List.Chain' (fun a b => a ≠ b)
      (aoiLog R ((runManager (AOIManager.new cfg dl doc) calls).eventsSince
        (AOIManager.new cfg dl doc))) ∧
    (aoiLog R ((runManager (AOIManager.new cfg dl doc) calls).eventsSince
        (AOIManager.new cfg dl doc))).head? ≠ some AOIKind.exit ∧
    (R ∈ (runManager (AOIManager.new cfg dl doc) calls).activeAOIs ↔
      (aoiLog R ((runManager (AOIManager.new cfg dl doc) calls).eventsSince
        (AOIManager.new cfg dl doc))).getLast? = some AOIKind.enter) := by
  obtain ⟨hact, -, hdl, -⟩ := AOIManager.new_frame cfg dl doc
  obtain ⟨new, hev, hchain, hhead, hiff⟩ :=
    AOIManager.steps_alternate R (steps_runManager calls (AOIManager.new cfg dl doc))
      (by rw [hact]; simp)
  rw [AOIManager.eventsSince_eq hev]
  refine ⟨?_, hchain, hhead, hiff⟩
  rw [hev]
  unfold AOIManager.events
  rw [hdl]

/-! ## AOIManager: dwell accounting -/

theorem regionLog_concat (R : String) (l : List LogRecord) (r : LogRecord) :
    regionLog R (l ++ [r]) = regionLog R l ++ (if (aoiKind R r).isSome then [r] else []) := by
  unfold regionLog
  rw [List.filter_append]
  cases h : aoiKind R r <;> simp [List.filter_cons, h]

theorem DwellCycles.counts {log : List LogRecord} {n : Nat} {total : Int}
    (h : DwellCycles log n total) :
    (log.filter (fun r => r.type = "aoi_exit")).length = n ∧
    (log.filterMap (fun r => if r.type = "aoi_exit" then r.data.duration else none)).sum
      = total := by
  induction h with
  | nil => simp
  | cycle log n total e x te tx _ he hte hx htx hdur _ _ ih =>
    have hne : ¬ e.type = "aoi_exit" := by rw [he]; decide
    constructor
    · rw [List.filter_append, List.length_append, ih.1]
      simp [List.filter_cons, hne, hx]
    · rw [List.filterMap_append, List.sum_append, ih.2]
      simp [List.filterMap_cons, hne, hx, hdur]

/-- The accounting invariant: what has been logged for `R` since `m0` is a run of
completed dwell cycles, followed by one open enter exactly when `R` is active, whose
timestamp is the one `aoiTimers` holds; the region's `visits` and `totalTime` are the
number of cycles and the sum of their durations. -/
theorem AOIManager.step_account {m0 m m' : AOIManager} (R : String) (hR : R ≠ "__proto__")
    (hstep : AOIManager.Step m m')
    (inv : ∃ new cycles n total c, m.events = m0.events ++ new ∧ DwellCycles cycles n total ∧
      Obj.get m.aoiConfig R = some c ∧ c.visits = some n ∧ c.totalTime = some total ∧
      ((R ∉ m.activeAOIs ∧ regionLog R new = cycles) ∨
       (R ∈ m.activeAOIs ∧ ∃ e te, regionLog R new = cycles ++ [e] ∧ e.type = "aoi_enter" ∧
          e.data.timestamp = some te ∧ Obj.get m.aoiTimers R = some te))) :
    ∃ new cycles n total c, m'.events = m0.events ++ new ∧ DwellCycles cycles n total ∧
      Obj.get m'.aoiConfig R = some c ∧ c.visits = some n ∧ c.totalTime = some total ∧
      ((R ∉ m'.activeAOIs ∧ regionLog R new = cycles) ∨
       (R ∈ m'.activeAOIs ∧ ∃ e te, regionLog R new = cycles ++ [e] ∧ e.type = "aoi_enter" ∧
          e.data.timestamp = some te ∧ Obj.get m'.aoiTimers R = some te)) := by
  obtain ⟨new, cycles, n, total, c, hev, hcyc, hc, hv, ht, hlog⟩ := inv
  cases hstep with
  | enter aoiId ev he hn =>
    obtain ⟨r, hty, hid, hts, hev', hact', htm', hcfg', -⟩ :=
      AOIManager.handleAOIEnter_fires m aoiId ev he hn
    refine ⟨new ++ [r], cycles, n, total, c, by rw [hev', hev, List.append_assoc], hcyc,
      by rw [hcfg']; exact hc, hv, ht, ?_⟩
    rw [regionLog_concat, aoiKind_enter R r aoiId hty hid, hact', htm']
    by_cases h : aoiId = R
    · subst h
      rcases hlog with ⟨-, hl⟩ | ⟨hin, -⟩
      · right
        refine ⟨by simp, r, _, ?_, hty, hts, Obj.get_setNumber_same _ _ _ hR⟩
        simp [hl]
      · exact absurd hin hn
    · simp only [h, if_false, Option.isSome_none, Bool.false_eq_true, List.append_nil]
      rw [Obj.get_setNumber_other _ _ _ _ h]
      rcases hlog with ⟨hout, hl⟩ | ⟨hin, hl⟩
      · left
        exact ⟨by simpa [Ne.symm h] using hout, hl⟩
      · right
        exact ⟨by simp [hin], hl⟩
  | exit aoiId ev he hn =>
    obtain ⟨r, hty, hid, hts, hdur, htv, htt, hev', hact', htm', hcfg', -⟩ :=
      AOIManager.handleAOIExit_fires m aoiId ev he hn
    by_cases h : aoiId = R
    · subst h
      rcases hlog with ⟨hout, -⟩ | ⟨-, e, te, hl, hety, hets, htimer⟩
      · exact absurd hn hout
      · rw [htimer] at hdur
        rw [hc, htimer] at hcfg'
        have hget : Obj.get (m.handleAOIExit aoiId ev).aoiConfig aoiId =
            some (AOIManager.addDwell c (some (m.dataLogger.window.clock 0 - te))) := by
          rw [hcfg']
          exact Obj.get_set_same _ _ _
        rw [hget] at htv htt
        have hv' : (AOIManager.addDwell c (some (m.dataLogger.window.clock 0 - te))).visits
            = some (n + 1) := by simp [AOIManager.addDwell, hv]
        have ht' : (AOIManager.addDwell c (some (m.dataLogger.window.clock 0 - te))).totalTime
            = some (total + (m.dataLogger.window.clock 0 - te)) := by
          simp [AOIManager.addDwell, ht]
        refine ⟨new ++ [r], cycles ++ [e, r], n + 1,
          total + (m.dataLogger.window.clock 0 - te), _, by rw [hev', hev, List.append_assoc],
          ?_, hget, hv', ht', ?_⟩
        · refine DwellCycles.cycle cycles n total e r te _ hcyc hety hets hty hts ?_ ?_ ?_
          · simpa using hdur
          · simpa [hv'] using htv
          · simpa [ht'] using htt
        · left
          refine ⟨by rw [hact']; simp, ?_⟩
          rw [regionLog_concat, aoiKind_exit aoiId r aoiId hty hid, hl]
          simp
    · have hcfgR : Obj.get (m.handleAOIExit aoiId ev).aoiConfig R = some c := by
        rw [hcfg']
        cases hg : Obj.get m.aoiConfig aoiId with
        | none => exact hc
        | some c1 =>
          dsimp only
          rw [Obj.get_set_other _ _ _ _ h]
          exact hc
      refine ⟨new ++ [r], cycles, n, total, c, by rw [hev', hev, List.append_assoc], hcyc,
        hcfgR, hv, ht, ?_⟩
      rw [regionLog_concat, aoiKind_exit R r aoiId hty hid, hact', htm']
      simp only [h, if_false, Option.isSome_none, Bool.false_eq_true, List.append_nil]
      rw [Obj.get_delete_other _ _ _ h]
      rcases hlog with ⟨hout, hl⟩ | ⟨hin, hl⟩
      · left
        exact ⟨by simp [hout], hl⟩
      · right
        exact ⟨by simpa [Ne.symm h] using hin, hl⟩
  | click aoiId ev he =>
    obtain ⟨r, hty, hev', hact', htm', hcfg', -⟩ := AOIManager.handleAOIClick_fires m aoiId ev he
    refine ⟨new ++ [r], cycles, n, total, c, by rw [hev', hev, List.append_assoc], hcyc,
      by rw [hcfg']; exact hc, hv, ht, ?_⟩
    rw [regionLog_concat, aoiKind_click R r hty, hact', htm']
    simpa using hlog
  | clock x y => exact ⟨new, cycles, n, total, c, hev, hcyc, hc, hv, ht, hlog⟩
  | flag b => exact ⟨new, cycles, n, total, c, hev, hcyc, hc, hv, ht, hlog⟩

theorem AOIManager.steps_account {m0 m : AOIManager} (R : String) (c0 : AOIConfig)
    (hR : R ≠ "__proto__")
    (hsteps : AOIManager.Steps m0 m) (hc : Obj.get m0.aoiConfig R = some c0)
    (hv : c0.visits = some 0) (ht : c0.totalTime = some 0) (h0 : R ∉ m0.activeAOIs) :
    ∃ new cycles n total c, m.events = m0.events ++ new ∧ DwellCycles cycles n total ∧
      Obj.get m.aoiConfig R = some c ∧ c.visits = some n ∧ c.totalTime = some total ∧
      ((R ∉ m.activeAOIs ∧ regionLog R new = cycles) ∨
       (R ∈ m.activeAOIs ∧ ∃ e te, regionLog R new = cycles ++ [e] ∧ e.type = "aoi_enter" ∧
          e.data.timestamp = some te ∧ Obj.get m.aoiTimers R = some te)) := by
  induction hsteps with
  | refl =>
    exact ⟨[], [], 0, 0, c0, by simp, DwellCycles.nil, hc, hv, ht,
      Or.inl ⟨h0, by simp [regionLog]⟩⟩
  | tail _ hstep ih => exact AOIManager.step_account R hR hstep ih

/-- What a firing `handleAOIExit` does for a region whose enter time and statistics
are known: it logs one exit record carrying the dwell and the updated statistics, and
stores these statistics. -/
theorem AOIManager.handleAOIExit_account (m : AOIManager) (R : String) (ev : DomEvent)
    (c : AOIConfig) (n : Nat) (total te : Int)
    (he : m.isEnabled = true) (hin : R ∈ m.activeAOIs)
    (hc : Obj.get m.aoiConfig R = some c) (hv : c.visits = some n)
    (ht : c.totalTime = some total) (htimer : Obj.get m.aoiTimers R = some te) :
    ∃ (x : LogRecord) (c' : AOIConfig),
      (m.handleAOIExit R ev).events = m.events ++ [x] ∧
      x.type = "aoi_exit" ∧ x.data.aoiId = some R ∧
      x.data.timestamp = some (m.dataLogger.window.clock 0) ∧
      x.data.duration = some (m.dataLogger.window.clock 0 - te) ∧
      x.data.totalVisits = some (n + 1) ∧
      x.data.totalTime = some (total + (m.dataLogger.window.clock 0 - te)) ∧
      Obj.get (m.handleAOIExit R ev).aoiConfig R = some c' ∧
      c'.visits = some (n + 1) ∧
      c'.totalTime = some (total + (m.dataLogger.window.clock 0 - te)) ∧
      R ∉ (m.handleAOIExit R ev).activeAOIs := by
  obtain ⟨r, hty, hid, hts, hdur, htv, htt, hev', hact', -, hcfg', -⟩ :=
    AOIManager.handleAOIExit_fires m R ev he hin
  rw [htimer] at hdur
  rw [hc, htimer] at hcfg'
  have hget : Obj.get (m.handleAOIExit R ev).aoiConfig R =
      some (AOIManager.addDwell c (some (m.dataLogger.window.clock 0 - te))) := by
    rw [hcfg']
    exact Obj.get_set_same _ _ _
  rw [hget] at htv htt
  have hv' : (AOIManager.addDwell c (some (m.dataLogger.window.clock 0 - te))).visits
      = some (n + 1) := by simp [AOIManager.addDwell, hv]
  have ht' : (AOIManager.addDwell c (some (m.dataLogger.window.clock 0 - te))).totalTime
      = some (total + (m.dataLogger.window.clock 0 - te)) := by
    simp [AOIManager.addDwell, ht]
  refine ⟨r, _, hev', hty, hid, hts, by simpa using hdur, by simpa [hv'] using htv,
    by simpa [ht'] using htt, hget, hv', ht', ?_⟩
  rw [hact']
  simp

/-- C2 (as amended): let `R` be a region other than `__proto__`, registered with
`visits` 0 and `totalTime` 0 and not active.  After any sequence of calls the
`aoi_enter`/`aoi_exit` records logged for `R` are `n` completed cycles, followed by
one open enter exactly when `R` is active.  Every exit of a cycle carries as `duration`
its timestamp minus the timestamp of the enter before it, and as `totalVisits` and
`totalTime` the number of cycles and the sum of durations so far; the region's
`visits` is `n`, the number of exits logged, and its `totalTime` the sum of the
durations they carry.  The next transition does its part: on the enabled manager a
`handleAOIEnter` for the inactive `R` logs one enter record stamped with the clock
reading and makes `R` active, and a `handleAOIExit` for the active `R` logs one exit
record whose `duration` is the clock reading minus the timestamp of the open enter,
raises `visits` to `n + 1` and `totalTime` by that duration, carries both values and
makes `R` inactive. -/
theorem C2_dwell_accounting (m : AOIManager) (R : String) (c0 : AOIConfig)
    (calls : List ManagerCall) (hR : R ≠ "__proto__")
    (hc : Obj.get m.aoiConfig R = some c0)
    (hv : c0.visits = some 0) (ht : c0.totalTime = some 0) (h0 : R ∉ m.activeAOIs) :
    ∃ cycles n total c, DwellCycles cycles n total ∧
      Obj.get (runManager m calls).aoiConfig R = some c ∧
      c.visits = some n ∧ c.totalTime = some total ∧
      n = ((regionLog R ((runManager m calls).eventsSince m)).filter
            (fun r => r.type = "aoi_exit")).length ∧
      total = ((regionLog R ((runManager m calls).eventsSince m)).filterMap
            (fun r => if r.type = "aoi_exit" then r.data.duration else none)).sum ∧
      (R ∉ (runManager m calls).activeAOIs →
        regionLog R ((runManager m calls).eventsSince m) = cycles ∧
        ∀ ev, (runManager m calls).isEnabled = true → ∃ e : LogRecord,
          ((runManager m calls).handleAOIEnter R ev).eventsSince m =
            (runManager m calls).eventsSince m ++ [e] ∧
          e.type = "aoi_enter" ∧ e.data.aoiId = some R ∧
          e.data.timestamp = some ((runManager m calls).dataLogger.window.clock 0) ∧
          R ∈ ((runManager m calls).handleAOIEnter R ev).activeAOIs) ∧
      (R ∈ (runManager m calls).activeAOIs →
        ∃ (e : LogRecord) (te : Int),
          regionLog R ((runManager m calls).eventsSince m) = cycles ++ [e] ∧
          e.type = "aoi_enter" ∧ e.data.timestamp = some te ∧
          ∀ ev, (runManager m calls).isEnabled = true → ∃ (x : LogRecord) (c' : AOIConfig),
            ((runManager m calls).handleAOIExit R ev).eventsSince m =
              (runManager m calls).eventsSince m ++ [x] ∧
            x.type = "aoi_exit" ∧ x.data.aoiId = some R ∧
            x.data.timestamp = some ((runManager m calls).dataLogger.window.clock 0) ∧
            x.data.duration = some ((runManager m calls).dataLogger.window.clock 0 - te) ∧
            x.data.totalVisits = some (n + 1) ∧
            x.data.totalTime =
              some (total + ((runManager m calls).dataLogger.window.clock 0 - te)) ∧
            Obj.get ((runManager m calls).handleAOIExit R ev).aoiConfig R = some c' ∧
            c'.visits = some (n + 1) ∧
            c'.totalTime =
              some (total + ((runManager m calls).dataLogger.window.clock 0 - te)) ∧
            R ∉ ((runManager m calls).handleAOIExit R ev).activeAOIs) := by
  obtain ⟨new, cycles, n, total, c, hev, hcyc, hc', hv', ht', hlog⟩ :=
    AOIManager.steps_account R c0 hR (steps_runManager calls m) hc hv ht h0
  rw [AOIManager.eventsSince_eq hev]
  obtain ⟨hn, htot⟩ := hcyc.counts
  refine ⟨cycles, n, total, c, hcyc, hc', hv', ht', ?_, ?_, ?_, ?_⟩
  · rcases hlog with ⟨-, hl⟩ | ⟨-, e, te, hl, hety, -, -⟩
    · rw [hl, hn]
    · have hne : ¬ e.type = "aoi_exit" := by rw [hety]; decide
      rw [hl, List.filter_append, List.length_append, hn]
      simp [List.filter_cons, hne]
  · rcases hlog with ⟨-, hl⟩ | ⟨-, e, te, hl, hety, -, -⟩
    · rw [hl, htot]
    · have hne : ¬ e.type = "aoi_exit" := by rw [hety]; decide
      rw [hl, List.filterMap_append, List.sum_append, htot]
      simp [List.filterMap_cons, hne]
  · intro hout
    rcases hlog with ⟨-, hl⟩ | ⟨hin, -⟩
    · refine ⟨hl, fun ev hen => ?_⟩
      obtain ⟨r, hty, hid, hts, hev', hact', -, -, -⟩ :=
        AOIManager.handleAOIEnter_fires (runManager m calls) R ev hen hout
      refine ⟨r, ?_, hty, hid, hts, by rw [hact']; simp⟩
      exact AOIManager.eventsSince_eq (by rw [hev', hev, List.append_assoc])
    · exact absurd hin hout
  · intro hin
    rcases hlog with ⟨hout, -⟩ | ⟨-, e, te, hl, hety, hets, htimer⟩
    · exact absurd hin hout
    · refine ⟨e, te, hl, hety, hets, fun ev hen => ?_⟩
      obtain ⟨x, c', hev', hx⟩ :=
        AOIManager.handleAOIExit_account (runManager m calls) R ev c n total te hen hin hc' hv'
          ht' htimer
      exact ⟨x, c', AOIManager.eventsSince_eq (by rw [hev', hev, List.append_assoc]), hx⟩

/-! ## AOIManager: the enabled flag -/

namespace Obj

variable {α : Type}

theorem get_of_mem_nodup (o : Obj α) (k : String) (v : α) (hnd : (keys o).Nodup)
    (hmem : (k, v) ∈ o) : get o k = some v := by
  induction o with
  | nil => simp at hmem
  | cons p rest ih =>
    obtain ⟨k0, v0⟩ := p
    simp only [keys, List.map_cons, List.nodup_cons] at hnd
    rcases List.mem_cons.mp hmem with h | h
    · cases h
      simp [get]
    · have hne : k0 ≠ k := by
        intro hk
        subst hk
        exact hnd.1 (List.mem_map.mpr ⟨(k0, v), h, rfl⟩)
      simp only [get, hne, if_false]
      exact ih hnd.2 h

end Obj

namespace AOIManager

/-- On a disabled manager the body of the poll loop only reads the clock. -/
theorem checkEntry_disabled (x y : Int) (m : AOIManager) (entry : String × AOIConfig)
    (h : m.isEnabled = false) :
    (checkEntry x y m entry).aoiConfig = m.aoiConfig ∧
    (checkEntry x y m entry).activeAOIs = m.activeAOIs ∧
    (checkEntry x y m entry).aoiTimers = m.aoiTimers ∧
    (checkEntry x y m entry).isEnabled = false ∧
    (checkEntry x y m entry).dataLogger.logData = m.dataLogger.logData ∧
    (checkEntry x y m entry).dataLogger.lastSave = m.dataLogger.lastSave ∧
    (checkEntry x y m entry).dataLogger.window.localStorage = m.dataLogger.window.localStorage ∧
    (checkEntry x y m entry).dataLogger.window.sessionStorage =
      m.dataLogger.window.sessionStorage := by
  unfold checkEntry
  split
  · exact ⟨rfl, rfl, rfl, h, rfl, rfl, rfl, rfl⟩
  · dsimp only
    split
    · rw [handleAOIEnter_blocked (simulatedEvent m x y).2 _ _ (Or.inl h)]
      exact ⟨rfl, rfl, rfl, h, rfl, rfl, rfl, rfl⟩
    · split
      · rw [handleAOIExit_blocked (simulatedEvent m x y).2 _ _ (Or.inl h)]
        exact ⟨rfl, rfl, rfl, h, rfl, rfl, rfl, rfl⟩
      · exact ⟨rfl, rfl, rfl, h, rfl, rfl, rfl, rfl⟩

theorem foldl_checkEntry_disabled (x y : Int) (entries : List (String × AOIConfig))
    (m : AOIManager) (h : m.isEnabled = false) :
    (entries.foldl (checkEntry x y) m).aoiConfig = m.aoiConfig ∧
    (entries.foldl (checkEntry x y) m).activeAOIs = m.activeAOIs ∧
    (entries.foldl (checkEntry x y) m).aoiTimers = m.aoiTimers ∧
    (entries.foldl (checkEntry x y) m).isEnabled = false ∧
    (entries.foldl (checkEntry x y) m).dataLogger.logData = m.dataLogger.logData ∧
    (entries.foldl (checkEntry x y) m).dataLogger.lastSave = m.dataLogger.lastSave ∧
    (entries.foldl (checkEntry x y) m).dataLogger.window.localStorage =
      m.dataLogger.window.localStorage ∧
    (entries.foldl (checkEntry x y) m).dataLogger.window.sessionStorage =
      m.dataLogger.window.sessionStorage := by
  induction entries generalizing m with
  | nil => exact ⟨rfl, rfl, rfl, h, rfl, rfl, rfl, rfl⟩
  | cons e rest ih =>
    obtain ⟨g1, g2, g3, g4, g5, g6, g7, g8⟩ := checkEntry_disabled x y m e h
    obtain ⟨h1, h2, h3, h4, h5, h6, h7, h8⟩ := ih (checkEntry x y m e) g4
    exact ⟨h1.trans g1, h2.trans g2, h3.trans g3, h4, h5.trans g5, h6.trans g6, h7.trans g7,
      h8.trans g8⟩

/-- A listener for another region leaves `R` as it is and logs nothing of `R`. -/
theorem handleAOIEnter_other (m : AOIManager) (aoiId R : String) (ev : DomEvent)
    (hne : aoiId ≠ R) :
    (R ∈ (m.handleAOIEnter aoiId ev).activeAOIs ↔ R ∈ m.activeAOIs) ∧
    ∃ new, (m.handleAOIEnter aoiId ev).events = m.events ++ new ∧
      ∀ r ∈ new, r.data.aoiId ≠ some R := by
  by_cases h : m.isEnabled = true ∧ aoiId ∉ m.activeAOIs
  · obtain ⟨r, -, hid, -, hev, hact, -, -, -⟩ := handleAOIEnter_fires m aoiId ev h.1 h.2
    refine ⟨by rw [hact]; simp [Ne.symm hne], [r], hev, ?_⟩
    intro r' hr'
    rw [List.mem_singleton] at hr'
    subst hr'
    rw [hid]
    simpa using hne
  · rw [handleAOIEnter_blocked]
    · exact ⟨Iff.rfl, [], by simp, by simp⟩
    · rw [not_and_or] at h
      rcases h with h | h
      · exact Or.inl (by simpa using h)
      · exact Or.inr (by simpa using h)

theorem handleAOIExit_other (m : AOIManager) (aoiId R : String) (ev : DomEvent)
    (hne : aoiId ≠ R) :
    (R ∈ (m.handleAOIExit aoiId ev).activeAOIs ↔ R ∈ m.activeAOIs) ∧
    ∃ new, (m.handleAOIExit aoiId ev).events = m.events ++ new ∧
      ∀ r ∈ new, r.data.aoiId ≠ some R := by
  by_cases h : m.isEnabled = true ∧ aoiId ∈ m.activeAOIs
  · obtain ⟨r, -, hid, -, -, -, -, hev, hact, -, -, -⟩ := handleAOIExit_fires m aoiId ev h.1 h.2
    refine ⟨by rw [hact]; simp [Ne.symm hne], [r], hev, ?_⟩
    intro r' hr'
    rw [List.mem_singleton] at hr'
    subst hr'
    rw [hid]
    simpa using hne
  · rw [handleAOIExit_blocked]
    · exact ⟨Iff.rfl, [], by simp, by simp⟩
    · rw [not_and_or] at h
      rcases h with h | h
      · exact Or.inl (by simpa using h)
      · exact Or.inr h

/-- A poll tick with the point inside an active region `R` keeps `R` active and logs
no `aoi_enter` for it. -/
theorem foldl_checkEntry_inside (x y : Int) (R : String) (c : AOIConfig)
    (hin : isInside c x y = true) (entries : List (String × AOIConfig))
    (hentries : ∀ e ∈ entries, e.1 = R → e.2 = c) (m : AOIManager) (hact : R ∈ m.activeAOIs) :
    R ∈ (entries.foldl (checkEntry x y) m).activeAOIs ∧
    ∃ new, (entries.foldl (checkEntry x y) m).events = m.events ++ new ∧
      ∀ r ∈ new, ¬ (r.type = "aoi_enter" ∧ r.data.aoiId = some R) := by
  induction entries generalizing m with
  | nil => exact ⟨hact, [], by simp, by simp⟩
  | cons e rest ih =>
    have hstep : R ∈ (checkEntry x y m e).activeAOIs ∧
        ∃ new, (checkEntry x y m e).events = m.events ++ new ∧
          ∀ r ∈ new, r.data.aoiId ≠ some R := by
      by_cases he : e.1 = R
      · have hc : e.2 = c := hentries e (List.mem_cons_self _ _) he
        have hsame : checkEntry x y m e = m := by
          unfold checkEntry
          simp [hc, hin, he, hact]
        rw [hsame]
        exact ⟨hact, [], by simp, by simp⟩
      · unfold checkEntry
        split
        · exact ⟨hact, [], by simp, by simp⟩
        · dsimp only
          split
          · obtain ⟨h1, h2⟩ := handleAOIEnter_other (simulatedEvent m x y).2 e.1 R
              (simulatedEvent m x y).1 he
            exact ⟨h1.mpr hact, h2⟩
          · split
            · obtain ⟨h1, h2⟩ := handleAOIExit_other (simulatedEvent m x y).2 e.1 R
                (simulatedEvent m x y).1 he
              exact ⟨h1.mpr hact, h2⟩
            · exact ⟨hact, [], by simp, by simp⟩
    obtain ⟨hact1, new1, hev1, hnew1⟩ := hstep
    obtain ⟨hact2, new2, hev2, hnew2⟩ :=
      ih (fun e' he' => hentries e' (List.mem_cons_of_mem _ he')) (checkEntry x y m e) hact1
    refine ⟨hact2, new1 ++ new2, ?_, ?_⟩
    · rw [List.foldl_cons, hev2, hev1, List.append_assoc]
    · intro r hr
      rcases List.mem_append.mp hr with h | h
      · exact fun hh => hnew1 r h hh.2
      · exact hnew2 r h

end AOIManager

/-- While the manager is disabled and `enable()` is not called, nothing is logged and
the tracking state stays as it is. -/
theorem runManager_disabled (calls : List ManagerCall) (m : AOIManager)
    (h : m.isEnabled = false) (hcalls : calls.all (fun c => !c.isEnable) = true) :
    (runManager m calls).aoiConfig = m.aoiConfig ∧
    (runManager m calls).activeAOIs = m.activeAOIs ∧
    (runManager m calls).aoiTimers = m.aoiTimers ∧
    (runManager m calls).isEnabled = false ∧
    (runManager m calls).dataLogger.logData = m.dataLogger.logData := by
  induction calls generalizing m with
  | nil => exact ⟨rfl, rfl, rfl, h, rfl⟩
  | cons c rest ih =>
    rw [List.all_cons, Bool.and_eq_true] at hcalls
    have hstep : (c.run m).aoiConfig = m.aoiConfig ∧ (c.run m).activeAOIs = m.activeAOIs ∧
        (c.run m).aoiTimers = m.aoiTimers ∧ (c.run m).isEnabled = false ∧
        (c.run m).dataLogger.logData = m.dataLogger.logData := by
      cases c with
      | checkPointInAOIs x y =>
        obtain ⟨g1, g2, g3, g4, g5, -, -, -⟩ :=
          AOIManager.foldl_checkEntry_disabled x y m.aoiConfig m h
        exact ⟨g1, g2, g3, g4, g5⟩
      | handleAOIEnter aoiId ev =>
        have e : ManagerCall.run m (ManagerCall.handleAOIEnter aoiId ev) = m :=
          AOIManager.handleAOIEnter_blocked _ _ _ (Or.inl h)
        rw [e]
        exact ⟨rfl, rfl, rfl, h, rfl⟩
      | handleAOIExit aoiId ev =>
        have e : ManagerCall.run m (ManagerCall.handleAOIExit aoiId ev) = m :=
          AOIManager.handleAOIExit_blocked _ _ _ (Or.inl h)
        rw [e]
        exact ⟨rfl, rfl, rfl, h, rfl⟩
      | handleAOIClick aoiId ev =>
        have e : ManagerCall.run m (ManagerCall.handleAOIClick aoiId ev) = m :=
          AOIManager.handleAOIClick_blocked _ _ _ h
        rw [e]
        exact ⟨rfl, rfl, rfl, h, rfl⟩
      | enable => exact absurd hcalls.1 (by simp [ManagerCall.isEnable])
      | disable => exact ⟨rfl, rfl, rfl, rfl, rfl⟩
    obtain ⟨g1, g2, g3, g4, g5⟩ := hstep
    obtain ⟨h1, h2, h3, h4, h5⟩ := ih (c.run m) g4 hcalls.2
    exact ⟨h1.trans g1, h2.trans g2, h3.trans g3, h4, h5.trans g5⟩

/-- C5: on a disabled manager a poll tick and the pointer-enter, pointer-leave and
click callbacks log nothing and leave `aoiConfig` (so every region's `visits` and
`totalTime`), `activeAOIs` and `aoiTimers` as they are; `disable()` and `enable()`
change the enabled flag only.  So when `R` is active at `disable()`, after any calls
other than `enable()` and then `enable()`, the log is as it was, and a poll tick
with the point inside `R` logs no `aoi_enter` for `R` and leaves it active. -/
theorem C5_disabled_manager_is_inert (m : AOIManager) :
    (m.isEnabled = false →
      (∀ x y, (m.checkPointInAOIs x y).events = m.events ∧
        (m.checkPointInAOIs x y).aoiConfig = m.aoiConfig ∧
        (m.checkPointInAOIs x y).activeAOIs = m.activeAOIs ∧
        (m.checkPointInAOIs x y).aoiTimers = m.aoiTimers ∧
        (m.checkPointInAOIs x y).isEnabled = false) ∧
      (∀ aoiId ev, m.handleAOIEnter aoiId ev = m ∧ m.handleAOIExit aoiId ev = m ∧
        m.handleAOIClick aoiId ev = m)) ∧
    (m.disable = { m with isEnabled := false } ∧ m.enable = { m with isEnabled := true }) ∧
    (∀ (R : String) (c : AOIConfig) (x y : Int) (calls : List ManagerCall),
      R ∈ m.activeAOIs → Obj.get m.aoiConfig R = some c → (Obj.keys m.aoiConfig).Nodup →
      AOIManager.isInside c x y = true → calls.all (fun c => !c.isEnable) = true →
      (runManager m.disable calls).enable.events = m.events ∧
      R ∈ (runManager m.disable calls).enable.activeAOIs ∧
      (∀ r ∈ ((runManager m.disable calls).enable.checkPointInAOIs x y).eventsSince
            (runManager m.disable calls).enable,
          ¬ (r.type = "aoi_enter" ∧ r.data.aoiId = some R)) ∧
      R ∈ ((runManager m.disable calls).enable.checkPointInAOIs x y).activeAOIs) := by
  refine ⟨?_, ⟨rfl, rfl⟩, ?_⟩
  · intro h
    constructor
    · intro x y
      obtain ⟨g1, g2, g3, g4, g5, -, -, -⟩ :=
        AOIManager.foldl_checkEntry_disabled x y m.aoiConfig m h
      exact ⟨congrArg LogData.events g5, g1, g2, g3, g4⟩
    · intro aoiId ev
      exact ⟨AOIManager.handleAOIEnter_blocked _ _ _ (Or.inl h),
        AOIManager.handleAOIExit_blocked _ _ _ (Or.inl h),
        AOIManager.handleAOIClick_blocked _ _ _ h⟩
  · intro R c x y calls hact hc hnd hin hcalls
    obtain ⟨g1, g2, -, -, g5⟩ := runManager_disabled calls m.disable rfl hcalls
    have hact1 : R ∈ (runManager m.disable calls).enable.activeAOIs := by
      show R ∈ (runManager m.disable calls).activeAOIs
      rw [g2]
      exact hact
    have hentries : ∀ e ∈ (runManager m.disable calls).enable.aoiConfig, e.1 = R → e.2 = c := by
      intro e he heR
      have he' : e ∈ m.aoiConfig := by
        have : (runManager m.disable calls).enable.aoiConfig = m.aoiConfig := g1
        rw [this] at he
        exact he
      have := Obj.get_of_mem_nodup m.aoiConfig e.1 e.2 hnd he'
      rw [heR, hc] at this
      exact (Option.some.inj this).symm
    obtain ⟨hact2, new, hev, hnew⟩ := AOIManager.foldl_checkEntry_inside x y R c hin
      (runManager m.disable calls).enable.aoiConfig hentries
      (runManager m.disable calls).enable hact1
    refine ⟨congrArg LogData.events g5, hact1, ?_, hact2⟩
    have hsince : ((runManager m.disable calls).enable.checkPointInAOIs x y).eventsSince
        (runManager m.disable calls).enable = new := AOIManager.eventsSince_eq hev
    rw [hsince]
    exact hnew

/-- C2, an instance: the region "title" of `tickingManager` is registered with zero
statistics and is not active.  After the two dwell cycles of `dwellCalls` its log is
enter at 5500, exit at 8500 with duration 3000, enter at 12000, exit at 15000 with
duration 3000, the exits carrying 1 visit and 3000 ms, then 2 visits and 6000 ms; so
the region has `visits` 2 and `totalTime` 6000.  After the first three calls the
region is active, and a pointer-leave then logs an exit record. -/
theorem C2_dwell_accounting_witness :
    ("title" ≠ "__proto__" ∧ Obj.get tickingManager.aoiConfig "title" = some titleConfig ∧
     titleConfig.visits = some 0 ∧ titleConfig.totalTime = some 0 ∧
     "title" ∉ tickingManager.activeAOIs) ∧
    (regionLog "title" ((runManager tickingManager dwellCalls).eventsSince tickingManager)).map
        (fun r => (r.type, r.data.timestamp, r.data.duration, r.data.totalVisits,
          r.data.totalTime)) =
      [("aoi_enter", some 5500, none, none, none),
       ("aoi_exit", some 8500, some 3000, some 1, some 3000),
       ("aoi_enter", some 12000, none, none, none),
       ("aoi_exit", some 15000, some 3000, some 2, some 6000)] ∧
    (∃ c, Obj.get (runManager tickingManager dwellCalls).aoiConfig "title" = some c ∧
      c.visits = some 2 ∧ c.totalTime = some 6000) ∧
    ("title" ∈ (runManager tickingManager (dwellCalls.take 3)).activeAOIs ∧
     (runManager tickingManager (dwellCalls.take 3)).isEnabled = true ∧
     ∃ x : LogRecord,
      ((runManager tickingManager (dwellCalls.take 3)).handleAOIExit "title"
          { clientX := 200, clientY := 200 }).eventsSince tickingManager =
        (runManager tickingManager (dwellCalls.take 3)).eventsSince tickingManager ++ [x] ∧
      x.type = "aoi_exit" ∧ x.data.timestamp = some 15000) := by
  refine ⟨⟨by decide, rfl, rfl, rfl, by decide⟩, by decide, ?_, by decide, rfl, ?_⟩
  · obtain ⟨cycles, n, total, c, -, hc, hv, ht, hn, htot, -, -⟩ :=
      C2_dwell_accounting tickingManager "title" titleConfig dwellCalls (by decide) rfl rfl rfl
        (by decide)
    refine ⟨c, hc, ?_, ?_⟩
    · rw [hv, hn]
      decide
    · rw [ht, htot]
      decide
  · obtain ⟨cycles, n, total, c, -, -, -, -, -, -, -, hin⟩ :=
      C2_dwell_accounting tickingManager "title" titleConfig (dwellCalls.take 3) (by decide)
        rfl rfl rfl (by decide)
    obtain ⟨e, te, -, -, -, hx⟩ := hin (by decide)
    obtain ⟨x, c', hev, hty, -, hts, -⟩ := hx { clientX := 200, clientY := 200 } rfl
    exact ⟨x, hev, hty, hts⟩

/-- C2 as stated fails for a region registered under the own key `__proto__`: the
enter at 5500 stores no timer, so the exit at 8500 carries no number as duration
(`NaN`), not the 3000 ms between the two timestamps.  After this one cycle the region
has `visits` 1, its `totalTime` is no number, and the exit carries 0 as `totalTime`. -/
theorem C2_proto_region_counterexample :
    (Obj.get protoManager.aoiConfig "__proto__").map (fun c => (c.visits, c.totalTime)) =
      some (some 0, some 0) ∧
    (regionLog "__proto__"
        ((runManager protoManager
            [ManagerCall.checkPointInAOIs 50 25, ManagerCall.checkPointInAOIs 200 200]).eventsSince
          protoManager)).map
        (fun r => (r.type, r.data.timestamp, r.data.duration, r.data.totalVisits,
          r.data.totalTime)) =
      [("aoi_enter", some 5500, none, none, none),
       ("aoi_exit", some 8500, none, some 1, some 0)] ∧
    (Obj.get (runManager protoManager
        [ManagerCall.checkPointInAOIs 50 25, ManagerCall.checkPointInAOIs 200 200]).aoiConfig
      "__proto__").map (fun c => (c.visits, c.totalTime)) = some (some 1, none) := by
  decide

/-- C5, an instance: "title" is active after a tick inside it; disabled, the manager
ignores a tick; and after `disable()`, four callbacks and `enable()` a tick inside
"title" logs no `aoi_enter` for it. -/
theorem C5_disabled_manager_is_inert_witness :
    (tickingManager.disable.isEnabled = false ∧
     "title" ∈ (tickingManager.checkPointInAOIs 50 25).activeAOIs ∧
     Obj.get (tickingManager.checkPointInAOIs 50 25).aoiConfig "title" = some titleConfig ∧
     (Obj.keys (tickingManager.checkPointInAOIs 50 25).aoiConfig).Nodup ∧
     AOIManager.isInside titleConfig 50 25 = true ∧
     disabledCalls.all (fun c => !c.isEnable) = true) ∧
    (tickingManager.disable.checkPointInAOIs 50 25).events = tickingManager.disable.events ∧
    (runManager (tickingManager.checkPointInAOIs 50 25).disable disabledCalls).enable.events =
      (tickingManager.checkPointInAOIs 50 25).events ∧
    (∀ r ∈ ((runManager (tickingManager.checkPointInAOIs 50 25).disable
              disabledCalls).enable.checkPointInAOIs 50 25).eventsSince
            (runManager (tickingManager.checkPointInAOIs 50 25).disable disabledCalls).enable,
        ¬ (r.type = "aoi_enter" ∧ r.data.aoiId = some "title")) :=
  ⟨⟨rfl, by decide, rfl, by decide, rfl, rfl⟩,
   (((C5_disabled_manager_is_inert tickingManager.disable).1 rfl).1 50 25).1,
   ((C5_disabled_manager_is_inert (tickingManager.checkPointInAOIs 50 25)).2.2
      "title" titleConfig 50 25 disabledCalls (by decide) rfl (by decide) rfl rfl).1,
   ((C5_disabled_manager_is_inert (tickingManager.checkPointInAOIs 50 25)).2.2
      "title" titleConfig 50 25 disabledCalls (by decide) rfl (by decide) rfl rfl).2.2.1⟩

/-! ## AOIManager: the hit test of the poll loop -/

namespace AOIManager

theorem handleAOIEnter_isEnabled (m : AOIManager) (aoiId : String) (ev : DomEvent) :
    (m.handleAOIEnter aoiId ev).isEnabled = m.isEnabled := by
  by_cases h : m.isEnabled = true ∧ aoiId ∉ m.activeAOIs
  · obtain ⟨r, -, -, -, -, -, -, -, hen⟩ := handleAOIEnter_fires m aoiId ev h.1 h.2
    rw [hen, h.1]
  · rw [handleAOIEnter_blocked]
    rw [not_and_or] at h
    rcases h with h | h
    · exact Or.inl (by simpa using h)
    · exact Or.inr (by simpa using h)

theorem handleAOIExit_isEnabled (m : AOIManager) (aoiId : String) (ev : DomEvent) :
    (m.handleAOIExit aoiId ev).isEnabled = m.isEnabled := by
  by_cases h : m.isEnabled = true ∧ aoiId ∈ m.activeAOIs
  · obtain ⟨r, -, -, -, -, -, -, -, -, -, -, hen⟩ := handleAOIExit_fires m aoiId ev h.1 h.2
    rw [hen, h.1]
  · rw [handleAOIExit_blocked]
    rw [not_and_or] at h
    rcases h with h | h
    · exact Or.inl (by simpa using h)
    · exact Or.inr h

/-- Entries of other regions leave the membership of `R` and the flag alone. -/
theorem foldl_checkEntry_other (x y : Int) (R : String) (entries : List (String × AOIConfig))
    (hother : ∀ e ∈ entries, e.1 ≠ R) (m : AOIManager) :
    (R ∈ (entries.foldl (checkEntry x y) m).activeAOIs ↔ R ∈ m.activeAOIs) ∧
    (entries.foldl (checkEntry x y) m).isEnabled = m.isEnabled := by
  induction entries generalizing m with
  | nil => exact ⟨Iff.rfl, rfl⟩
  | cons e rest ih =>
    have he : e.1 ≠ R := hother e (List.mem_cons_self _ _)
    have hstep : (R ∈ (checkEntry x y m e).activeAOIs ↔ R ∈ m.activeAOIs) ∧
        (checkEntry x y m e).isEnabled = m.isEnabled := by
      unfold checkEntry
      split
      · exact ⟨Iff.rfl, rfl⟩
      · dsimp only
        split
        · exact ⟨(handleAOIEnter_other (simulatedEvent m x y).2 e.1 R _ he).1,
            handleAOIEnter_isEnabled (simulatedEvent m x y).2 _ _⟩
        · split
          · exact ⟨(handleAOIExit_other (simulatedEvent m x y).2 e.1 R _ he).1,
              handleAOIExit_isEnabled (simulatedEvent m x y).2 _ _⟩
          · exact ⟨Iff.rfl, rfl⟩
    obtain ⟨h1, h2⟩ := ih (fun e' he' => hother e' (List.mem_cons_of_mem _ he')) (checkEntry x y m e)
    exact ⟨h1.trans hstep.1, h2.trans hstep.2⟩

/-- The entry of `R` itself, when the guard on `x` and `width` lets it through, makes
`R` active exactly when the point is inside. -/
theorem checkEntry_self (x y : Int) (R : String) (c : AOIConfig) (m : AOIManager)
    (hen : m.isEnabled = true) (hx : truthyNum c.x = true) (hw : truthyNum c.width = true) :
    (R ∈ (checkEntry x y m (R, c)).activeAOIs ↔ isInside c x y = true) := by
  unfold checkEntry
  rw [if_neg (by simp [hx, hw])]
  dsimp only
  by_cases hin : isInside c x y = true
  · by_cases hact : R ∈ m.activeAOIs
    · rw [if_neg (by simp [hact]), if_neg (by simp [hin])]
      simp [hin, hact]
    · rw [if_pos (by simp [hin, hact])]
      obtain ⟨r, -, -, -, -, h, -, -, -⟩ :=
        handleAOIEnter_fires (simulatedEvent m x y).2 R (simulatedEvent m x y).1 hen hact
      rw [h]
      simp [hin]
  · by_cases hact : R ∈ m.activeAOIs
    · rw [if_neg (by simp [hin]), if_pos (by simp [hin, hact])]
      obtain ⟨r, -, -, -, -, -, -, -, h, -, -, -⟩ :=
        handleAOIExit_fires (simulatedEvent m x y).2 R (simulatedEvent m x y).1 hen hact
      rw [h]
      simp [hin]
    · rw [if_neg (by simp [hin]), if_neg (by simp [hact])]
      simp [hin, hact]

/-- The poll tick, for a region whose `x` and `width` are both non-zero: on an enabled
manager with one entry per region id, after `checkPointInAOIs(sx, sy)` the region is
active exactly when the sample is inside it, boundaries included. -/
theorem checkPointInAOIs_active_iff (m : AOIManager) (R : String) (c : AOIConfig)
    (cx cy w h sx sy : Int) (hen : m.isEnabled = true) (hnd : (Obj.keys m.aoiConfig).Nodup)
    (hmem : (R, c) ∈ m.aoiConfig) (hx : c.x = some cx) (hy : c.y = some cy)
    (hw : c.width = some w) (hh : c.height = some h) (hx0 : cx ≠ 0) (hw0 : w ≠ 0) :
    (R ∈ (m.checkPointInAOIs sx sy).activeAOIs ↔
      (cx ≤ sx ∧ sx ≤ cx + w) ∧ (cy ≤ sy ∧ sy ≤ cy + h)) := by
  obtain ⟨pre, post, hsplit⟩ := List.append_of_mem hmem
  have hkeys : (Obj.keys m.aoiConfig) = Obj.keys pre ++ R :: Obj.keys post := by
    rw [hsplit]
    simp [Obj.keys]
  rw [hkeys] at hnd
  have hpre : ∀ e ∈ pre, e.1 ≠ R := by
    intro e he heq
    have : R ∈ Obj.keys pre := List.mem_map.mpr ⟨e, he, heq⟩
    exact (List.nodup_append.mp hnd).2.2 this (List.mem_cons_self _ _)
  have hpost : ∀ e ∈ post, e.1 ≠ R := by
    intro e he heq
    have : R ∈ Obj.keys post := List.mem_map.mpr ⟨e, he, heq⟩
    exact (List.nodup_cons.mp (List.nodup_append.mp hnd).2.1).1 this
  unfold checkPointInAOIs
  rw [hsplit, List.foldl_append, List.foldl_cons]
  obtain ⟨-, hen1⟩ := foldl_checkEntry_other sx sy R pre hpre m
  obtain ⟨hact2, -⟩ := foldl_checkEntry_other sx sy R post hpost
    (checkEntry sx sy (pre.foldl (checkEntry sx sy) m) (R, c))
  rw [hact2, checkEntry_self sx sy R c _ (hen1.trans hen) (by simp [truthyNum, hx, hx0])
    (by simp [truthyNum, hw, hw0])]
  simp [isInside, hx, hy, hw, hh, and_assoc]

end AOIManager

/-- C3, at the failing input: the region "title" registered at `x = 0` (box 0, 0, 100,
50) contains the sample (50, 25), the pointer-enter listener would make it active,
but the poll tick skips the region: nothing is logged and it is not active.  The same
happens to a region of width 0 at `x = 5` for the sample (5, 10) on its edge. -/
theorem C3_region_at_left_edge_skipped :
    (Obj.get (titleManager 0).aoiConfig "title" =
        some { id := some "title", x := some 0, y := some 0, width := some 100,
               height := some 50, totalTime := some 0, visits := some 0 } ∧
     AOIManager.isInside { x := some 0, y := some 0, width := some 100, height := some 50 } 50 25
        = true ∧
     (titleManager 0).isEnabled = true ∧
     ((titleManager 0).checkPointInAOIs 50 25).activeAOIs = [] ∧
     ((titleManager 0).checkPointInAOIs 50 25).events = [] ∧
     ((titleManager 0).handleAOIEnter "title" { clientX := 50, clientY := 25 }).activeAOIs
        = ["title"]) ∧
    (AOIManager.isInside { x := some 5, y := some 0, width := some 0, height := some 50 } 5 10
        = true ∧
     ((regionManager { left := 5, top := 0, width := 0, height := 50 }).checkPointInAOIs 5 10
        ).activeAOIs = []) := by
  decide

/-- C4, at the failing input: with the box at `x = 0` the three ticks of the scenario
log nothing, and a further tick outside leaves `visits` at 0.  With the same box
moved to `x = 1` the scenario logs enter, exit (duration 150, one visit), enter, and a
further tick outside logs the second exit and leaves `visits` at 2. -/
theorem C4_scenario_at_left_edge_logs_nothing :
    ((titleScenario 0).events = [] ∧
     (Obj.get (((titleScenario 0).atTime 450).checkPointInAOIs 200 200).aoiConfig "title").bind
        AOIConfig.visits = some 0) ∧
    ((titleScenario 1).events.map
        (fun r => (r.type, r.data.aoiId, r.data.duration, r.data.totalVisits)) =
        [("aoi_enter", some "title", none, none),
         ("aoi_exit", some "title", some 150, some 1),
         ("aoi_enter", some "title", none, none)] ∧
     ((((titleScenario 1).atTime 450).checkPointInAOIs 200 200).eventsSince
        (titleScenario 1)).map
        (fun r => (r.type, r.data.aoiId, r.data.duration, r.data.totalVisits)) =
        [("aoi_exit", some "title", some 150, some 2)] ∧
     (Obj.get (((titleScenario 1).atTime 450).checkPointInAOIs 200 200).aoiConfig "title").bind
        AOIConfig.visits = some 2) := by
  decide
/-! ## DataLogger: the JSON export -/

theorem map_eq_self_iff_fixed {α : Type} (f : α → α) (l : List α) :
    l.map f = l ↔ ∀ x ∈ l, f x = x := by
  induction l with
  | nil => simp
  | cons a rest ih => simp [List.map_cons, ih]

theorem Obj.viaJson_length_le (js : Builtins) (o : Obj JsVal) :
    (Obj.viaJson js o).length ≤ o.length := by
  unfold Obj.viaJson
  exact List.length_filterMap_le _ _

/-- An object comes back from the round trip as it is exactly when every property
value does. -/
theorem Obj.viaJson_eq_self_iff (js : Builtins) (o : Obj JsVal) :
    Obj.viaJson js o = o ↔ o.all (fun p => p.2.jsonSafe js) = true := by
  induction o with
  | nil => simp [Obj.viaJson]
  | cons p rest ih =>
    have hle := Obj.viaJson_length_le js rest
    unfold Obj.viaJson at ih hle ⊢
    rw [List.filterMap_cons, List.all_cons, Bool.and_eq_true, ← ih]
    cases hv : p.2.viaJson js with
    | none =>
      simp only [Option.map_none', JsVal.jsonSafe, hv]
      constructor
      · intro h
        have := congrArg List.length h
        simp only [List.length_cons] at this
        omega
      · intro h
        exact absurd h.1 (by simp)
    | some v =>
      simp only [Option.map_some', JsVal.jsonSafe, hv, List.cons.injEq]
      constructor
      · rintro ⟨h1, h2⟩
        refine ⟨?_, h2⟩
        rw [← h1]
        simp
      · rintro ⟨h1, h2⟩
        refine ⟨?_, h2⟩
        have hv' : v = p.2 := by simpa using h1
        rw [hv']

/-- An entry of the answers map comes back from the round trip as it is exactly when
every property value of it does. -/
theorem AnswerEntry.roundTrip_eq_self_iff (js : Builtins) (e : AnswerEntry) :
    e.viaJson js = e ↔ e.jsonSafe js = true := by
  obtain ⟨value, timestamp, questionId, answer, metadata⟩ := e
  simp only [AnswerEntry.viaJson, AnswerEntry.jsonSafe, AnswerEntry.mk.injEq, true_and,
    and_true, Bool.and_eq_true]
  have h1 : ∀ v : Option JsVal,
      v.bind (JsVal.viaJson js) = v ↔ (v.map (JsVal.jsonSafe js)).getD true = true := by
    intro v
    cases v with
    | none => simp
    | some v => simp [JsVal.jsonSafe]
  have h3 : metadata.map (Obj.viaJson js) = metadata ↔
      (metadata.getD []).all (fun p => p.2.jsonSafe js) = true := by
    cases metadata with
    | none => simp
    | some o => simp [Option.getD_some, ← Obj.viaJson_eq_self_iff js o]
  rw [h1 value, h1 answer, h3, and_assoc]

/-- C11 (as amended): parsing what `exportData('json')` returns succeeds and gives an
object whose events list is as long as the live one, whose `aoiVisits` map is equal
to the live one, and whose `answers` map has the entries of the live one, under the
same question ids and in the same order, each with its property values as the JSON
round trip gives them back (`AnswerEntry.viaJson`: a property whose value is
`undefined` is left out, `NaN` comes back as `null`).  The parsed `answers` map is
equal to the live one exactly when every property value of every entry comes back as
it is. -/
theorem C11_json_export_round_trip (js : Builtins) (d : DataLogger) :
    ∃ snap : ExportSnapshot,
      (DataLogger.exportData js d "json").2.parseJson js = some snap ∧
      snap.logData.events.length = d.logData.events.length ∧
      snap.logData.aoiVisits = d.logData.aoiVisits ∧
      snap.logData.answers = d.logData.answers.map (fun e => (e.1, e.2.viaJson js)) ∧
      (snap.logData.answers = d.logData.answers ↔
        ∀ e ∈ d.logData.answers, e.2.jsonSafe js = true) := by
  refine ⟨_, rfl, ?_, rfl, rfl, ?_⟩
  · simp [ExportSnapshot.viaJson, LogData.viaJson, Window.now]
  · show d.logData.answers.map (fun e => (e.1, e.2.viaJson js)) = d.logData.answers ↔ _
    rw [map_eq_self_iff_fixed]
    constructor
    · intro h e he
      have := congrArg Prod.snd (h e he)
      exact (AnswerEntry.roundTrip_eq_self_iff js e.2).1 this
    · intro h e he
      rw [(AnswerEntry.roundTrip_eq_self_iff js e.2).2 (h e he)]

/-- C11, an instance: after `logAnswer('q1', 'A', {tags: [..]})`, with an array of
JSON values as metadata, every property value comes back as it is, and the parsed
export has the live answers map. -/
theorem C11_json_export_round_trip_witness :
    (∀ e ∈ ((sampleLogger 100).logAnswer "q1" (JsVal.str "A")
          (some [("tags", JsVal.other "array")])).1.logData.answers,
        e.2.jsonSafe sampleBuiltins = true) ∧
    ∃ snap : ExportSnapshot,
      (DataLogger.exportData sampleBuiltins
        ((sampleLogger 100).logAnswer "q1" (JsVal.str "A")
          (some [("tags", JsVal.other "array")])).1 "json").2.parseJson sampleBuiltins
          = some snap ∧
      snap.logData.events.length = 0 ∧
      snap.logData.answers =
        [("q1", { questionId := some "q1", answer := some (JsVal.str "A"), timestamp := 100,
                  metadata := some [("tags", JsVal.other "array")] })] :=
  ⟨by decide,
   (C11_json_export_round_trip sampleBuiltins
      ((sampleLogger 100).logAnswer "q1" (JsVal.str "A")
        (some [("tags", JsVal.other "array")])).1).elim
      (fun snap h => ⟨snap, h.1, h.2.1.trans (by decide),
        (h.2.2.2.2.2 (by decide)).trans (by decide)⟩)⟩

/-- C11 as stated fails.  After `logEvent('answer_updated', {question: 'q1'})`, a
payload without `value`, the live entry of "q1" has the property `value` (it is
`undefined`) and the entry of the parsed export has not.  After `logAnswer('q1', NaN)`
no property is `undefined`, and the parsed answer is `null`.  After
`logAnswer('q1', new Date(0), {max: Infinity, check: f})` with a function `f` the
parsed answer is a string and the parsed metadata is `{max: null}`.  In the three
cases the parsed answers map differs from the live one. -/
theorem C11_undefined_value_counterexample :
    (((sampleLogger 100).logEvent "answer_updated" (some { question := some "q1" })).1.logData.answers
      = [("q1", { value := some JsVal.undefined, timestamp := 100 })] ∧
     ((DataLogger.exportData sampleBuiltins
        ((sampleLogger 100).logEvent "answer_updated" (some { question := some "q1" })).1
        "json").2.parseJson sampleBuiltins).map (fun snap => snap.logData.answers)
      = some [("q1", { timestamp := 100 })]) ∧
    (((sampleLogger 100).logAnswer "q1" JsVal.nan none).1.logData.answers
      = [("q1", { questionId := some "q1", answer := some JsVal.nan, timestamp := 100,
                  metadata := some [] })] ∧
     ((DataLogger.exportData sampleBuiltins
        ((sampleLogger 100).logAnswer "q1" JsVal.nan none).1
        "json").2.parseJson sampleBuiltins).map (fun snap => snap.logData.answers)
      = some [("q1", { questionId := some "q1", answer := some JsVal.null, timestamp := 100,
                       metadata := some [] })]) ∧
    (((sampleLogger 100).logAnswer "q1" (JsVal.date (some 0))
        (some [("max", JsVal.infinity false), ("check", JsVal.function)])).1.logData.answers
      = [("q1", { questionId := some "q1", answer := some (JsVal.date (some 0)),
                  timestamp := 100,
                  metadata := some [("max", JsVal.infinity false), ("check", JsVal.function)] })] ∧
     ((DataLogger.exportData sampleBuiltins
        ((sampleLogger 100).logAnswer "q1" (JsVal.date (some 0))
          (some [("max", JsVal.infinity false), ("check", JsVal.function)])).1
        "json").2.parseJson sampleBuiltins).map (fun snap => snap.logData.answers)
      = some [("q1", { questionId := some "q1", answer := some (JsVal.str "0"),
                       timestamp := 100, metadata := some [("max", JsVal.null)] })]) := by
  decide

/-! ## DataLogger: payloads that are missing -/

/-- C12, at the failing inputs: `logEvent('answer_updated')`, `logEvent('aoi_enter')`
and `logEvent('aoi_exit')` without payload push their record and then throw: no
record is returned and `autoSave` does not run (nothing is written).  With another
type, `logEvent('page_view')` without payload returns the record, with `pageX` and
`pageY` 0 and the empty object as data, and saves. -/
theorem C12_absent_payload_throws :
    (((sampleLogger 100).logEvent "answer_updated" none).2 = none ∧
     ((sampleLogger 100).logEvent "answer_updated" none).1.logData.events.length = 1 ∧
     ((sampleLogger 100).logEvent "answer_updated" none).1.window.localStorage.writes = 0) ∧
    (((sampleLogger 100).logEvent "aoi_enter" none).2 = none ∧
     ((sampleLogger 100).logEvent "aoi_enter" none).1.logData.events.length = 1 ∧
     ((sampleLogger 100).logEvent "aoi_enter" none).1.window.localStorage.writes = 0) ∧
    (((sampleLogger 100).logEvent "aoi_exit" none).2 = none ∧
     ((sampleLogger 100).logEvent "aoi_exit" none).1.logData.events.length = 1 ∧
     ((sampleLogger 100).logEvent "aoi_exit" none).1.window.localStorage.writes = 0) ∧
    (((sampleLogger 100).logEvent "page_view" none).2 =
       some { type := "page_view", timestamp := 100, timestampMs := 100, pageX := 0,
              pageY := 0, data := {} } ∧
     ((sampleLogger 100).logEvent "page_view" none).1.window.localStorage.writes = 1) := by
  decide

/-! ## DataLogger: clearing -/

/-- What `clearData` does in every state: both stored copies are gone, five
collections are empty, the identity is kept, and the milestone timestamps stay. -/
theorem DataLogger.clearData_effect (d : DataLogger) :
    Obj.get d.clearData.window.localStorage.items d.storageKey = none ∧
    Obj.get d.clearData.window.sessionStorage.items ("backup_" ++ d.storageKey) = none ∧
    d.clearData.logData.events = [] ∧ d.clearData.logData.gazeData = [] ∧
    d.clearData.logData.interactions = [] ∧ d.clearData.logData.answers = [] ∧
    d.clearData.logData.aoiVisits = [] ∧
    d.clearData.participantId = d.participantId ∧ d.clearData.taskId = d.taskId ∧
    d.clearData.logData.timestamps = d.logData.timestamps :=
  ⟨Obj.get_delete_same _ _, Obj.get_delete_same _ _, rfl, rfl, rfl, rfl, rfl, rfl, rfl, rfl⟩

/-- C13, at the failing input: on a logger that has logged `page_loaded` (and saved
both copies), `clearData` removes both copies, empties events, gazeData,
interactions, answers and aoiVisits and keeps the identity, but the milestone
timestamps map still holds `pageLoad`: it is not empty. -/
theorem C13_clearData_keeps_timestamps :
    (Obj.get ((sampleLogger 100).logEvent "page_loaded" (some {})).1.window.localStorage.items
        "taskData_p1_task1").isSome = true ∧
    (Obj.get ((sampleLogger 100).logEvent "page_loaded" (some {})).1.clearData.window.localStorage.items
        "taskData_p1_task1" = none ∧
     Obj.get ((sampleLogger 100).logEvent "page_loaded" (some {})).1.clearData.window.sessionStorage.items
        "backup_taskData_p1_task1" = none ∧
     ((sampleLogger 100).logEvent "page_loaded" (some {})).1.clearData.logData.events = [] ∧
     ((sampleLogger 100).logEvent "page_loaded" (some {})).1.clearData.participantId = "p1") ∧
    ((sampleLogger 100).logEvent "page_loaded" (some {})).1.clearData.logData.timestamps
      = { pageLoad := some 100 } ∧
    ((sampleLogger 100).logEvent "page_loaded" (some {})).1.clearData.logData.timestamps
      ≠ {} := by
  decide

/-! ## DataLogger: the answers map -/

/-- What one answer call does to the entry of question `q`. -/
theorem AnswerCall.run_answers (d : DataLogger) (c : AnswerCall) (q : String) :
    Obj.get (c.run d).logData.answers q =
      if c.writes q = true then some (c.entry (d.window.clock 0))
      else Obj.get d.logData.answers q := by
  cases c with
  | answerUpdated question value =>
    have h1 : ¬ ("answer_updated" = "page_loaded") := by decide
    have h2 : ¬ ("answer_updated" = "task_completed") := by decide
    by_cases hq : question = ""
    · have hsw : DataLogger.logEventSwitch
          (DataLogger.pushEvent d "answer_updated"
            (some { question := some question, value := value })).1
          "answer_updated" (some { question := some question, value := value })
          (DataLogger.pushEvent d "answer_updated"
            (some { question := some question, value := value })).2
          = some (DataLogger.pushEvent d "answer_updated"
            (some { question := some question, value := value })).1 := by
        unfold DataLogger.logEventSwitch
        simp [h1, h2, truthyStr, hq]
      show Obj.get (d.logEvent "answer_updated" _).1.logData.answers q = _
      rw [DataLogger.logEvent_fst d _ _ _ hsw]
      simp [AnswerCall.writes, hq]
      rfl
    · have hsw : DataLogger.logEventSwitch
          (DataLogger.pushEvent d "answer_updated"
            (some { question := some question, value := value })).1
          "answer_updated" (some { question := some question, value := value })
          (DataLogger.pushEvent d "answer_updated"
            (some { question := some question, value := value })).2
          = some { (DataLogger.pushEvent d "answer_updated"
              (some { question := some question, value := value })).1 with
            logData := { (DataLogger.pushEvent d "answer_updated"
                (some { question := some question, value := value })).1.logData with
              answers := Obj.set d.logData.answers question
                { value := some value, timestamp := d.window.clock 0 } } } := by
        unfold DataLogger.logEventSwitch
        simp [h1, h2, truthyStr, hq]
        rfl
      show Obj.get (d.logEvent "answer_updated" _).1.logData.answers q = _
      rw [DataLogger.logEvent_fst d _ _ _ hsw]
      simp only [DataLogger.autoSave_logData]
      by_cases hqq : question = q
      · subst hqq
        simp [AnswerCall.writes, hq, Obj.get_set_same, AnswerCall.entry]
      · simp [AnswerCall.writes, hqq, Obj.get_set_other _ _ _ _ hqq]
  | logAnswer questionId answer metadata =>
    show Obj.get (d.logAnswer questionId answer metadata).1.logData.answers q = _
    unfold DataLogger.logAnswer
    simp only [Window.now, DataLogger.autoSave_logData]
    by_cases hqq : questionId = q
    · subst hqq
      simp [AnswerCall.writes, Obj.get_set_same, AnswerCall.entry]
    · simp [AnswerCall.writes, hqq, Obj.get_set_other _ _ _ _ hqq]

theorem lastWrite_concat (q : String) (calls : List AnswerCall) (c : AnswerCall) :
    lastWrite q (calls ++ [c]) = if c.writes q = true then some c else lastWrite q calls := by
  unfold lastWrite
  rw [List.filter_append]
  by_cases h : c.writes q = true
  · simp [List.filter_cons, h]
  · simp [List.filter_cons, h]

theorem runAnswerCalls_concat (d : DataLogger) (calls : List AnswerCall) (c : AnswerCall) :
    runAnswerCalls d (calls ++ [c]) = c.run (runAnswerCalls d calls) := by
  unfold runAnswerCalls
  rw [List.foldl_append]
  rfl

/-- C14 (as amended): after any sequence of `logEvent('answer_updated', {question,
value})` and `logAnswer(questionId, answer, metadata)` calls the answers map holds
for a question id the entry of the last call that wrote it (the entry it had before
when no call did; an `answer_updated` with an empty question writes nothing).  The
entry has the shape `{value, timestamp}` when `answer_updated` wrote it and the shape
`{questionId, answer, timestamp, metadata}`, without `value`, when `logAnswer` did. -/
theorem C14_answers_hold_last_write (d : DataLogger) (calls : List AnswerCall) (q : String) :
    (∃ t, Obj.get (runAnswerCalls d calls).logData.answers q =
      (lastWrite q calls).elim (Obj.get d.logData.answers q) (fun c => some (c.entry t))) ∧
    (∀ t question value, (AnswerCall.answerUpdated question value).entry t =
      { value := some value, timestamp := t, questionId := none, answer := none,
        metadata := none }) ∧
    (∀ t questionId answer metadata, (AnswerCall.logAnswer questionId answer metadata).entry t =
      { value := none, timestamp := t, questionId := some questionId, answer := some answer,
        metadata := some (metadata.getD []) }) := by
  refine ⟨?_, fun _ _ _ => rfl, fun _ _ _ _ => rfl⟩
  induction calls using List.reverseRecOn with
  | nil => exact ⟨0, rfl⟩
  | append_singleton cs c ih =>
    obtain ⟨t, ht⟩ := ih
    rw [runAnswerCalls_concat, AnswerCall.run_answers, lastWrite_concat]
    by_cases h : c.writes q = true
    · exact ⟨(runAnswerCalls d cs).window.clock 0, by simp [h]⟩
    · exact ⟨t, by simp [h, ht]⟩

/-- C14 as stated fails: after `logAnswer('q1', 'A')` the entry of "q1" has no
`value` property (the answer is under `answer`), also when an `answer_updated` for
"q1" came before it; and an `answer_updated` whose question is the empty string
writes no entry. -/
theorem C14_logAnswer_shape_counterexample :
    (Obj.get ((sampleLogger 100).logAnswer "q1" (JsVal.str "A") none).1.logData.answers "q1")
      = some { questionId := some "q1", answer := some (JsVal.str "A"), timestamp := 100,
               metadata := some [] } ∧
    ((Obj.get ((sampleLogger 100).logAnswer "q1" (JsVal.str "A") none).1.logData.answers "q1").bind
        AnswerEntry.value) = none ∧
    ((Obj.get (runAnswerCalls (sampleLogger 100)
        [AnswerCall.answerUpdated "q1" (JsVal.str "B"),
         AnswerCall.logAnswer "q1" (JsVal.str "A") none]).logData.answers "q1").bind
        AnswerEntry.value) = none ∧
    ((Obj.get (runAnswerCalls (sampleLogger 100)
        [AnswerCall.answerUpdated "q1" (JsVal.str "B")]).logData.answers "q1").bind
        AnswerEntry.value) = some (JsVal.str "B") ∧
    (runAnswerCalls (sampleLogger 100)
        [AnswerCall.answerUpdated "" (JsVal.str "B")]).logData.answers = [] := by
  decide

/-! ## DataLogger: participant identity -/

/-- C15 (as amended): when the persisted `participantData` is absent or empty
(`sid` is then `null`), or is text that `JSON.parse` turns into a non-null value
whose `id` is `sid`, `getParticipantId` returns the first non-empty (truthy) of the
query-string parameter, `sid`, the global value, and otherwise "unknown"; so a
non-empty query-string parameter is the result whatever such persisted value is. -/
theorem C15_participant_id_precedence (parse : String → ParsedRecord)
    (urlId storedData globalId : Option String) (sid : JsVal)
    (hstored : (truthyStr storedData = false ∧ sid = JsVal.null) ∨
      (truthyStr storedData = true ∧ parse (storedData.getD "") = ParsedRecord.value sid)) :
    (∀ u, urlId = some u → u ≠ "" →
      DataLogger.getParticipantId parse urlId storedData globalId = some (JsVal.str u)) ∧
    ((urlId = none ∨ urlId = some "") → sid.truthy = true →
      DataLogger.getParticipantId parse urlId storedData globalId = some sid) ∧
    ((urlId = none ∨ urlId = some "") → sid.truthy = false → ∀ g, globalId = some g → g ≠ "" →
      DataLogger.getParticipantId parse urlId storedData globalId = some (JsVal.str g)) ∧
    ((urlId = none ∨ urlId = some "") → sid.truthy = false →
      (globalId = none ∨ globalId = some "") →
      DataLogger.getParticipantId parse urlId storedData globalId
        = some (JsVal.str "unknown")) := by
  have hsid : DataLogger.getParticipantId parse urlId storedData globalId =
      (if truthyStr urlId then some (JsVal.str (urlId.getD ""))
       else if sid.truthy then some sid
       else if truthyStr globalId then some (JsVal.str (globalId.getD ""))
       else some (JsVal.str "unknown")) := by
    unfold DataLogger.getParticipantId
    rcases hstored with ⟨h1, h2⟩ | ⟨h1, h2⟩
    · simp [h1, h2, JsVal.truthy]
    · simp [h1, h2]
  rw [hsid]
  refine ⟨?_, ?_, ?_, ?_⟩
  · intro u hu hne
    simp [hu, truthyStr, hne]
  · intro hu hs
    rcases hu with hu | hu <;> simp [hu, truthyStr, hs]
  · intro hu hs g hg hne
    rcases hu with hu | hu <;> simp [hu, truthyStr, hs, hg, hne]
  · intro hu hs hg
    rcases hu with hu | hu <;> rcases hg with hg | hg <;> simp [hu, truthyStr, hs, hg]

/-- C15, an instance: with the query-string parameter "P42" and the persisted record
of participant "P7" the result is "P42"; without the parameter it is "P7". -/
theorem C15_participant_id_precedence_witness :
    (truthyStr (some "\x7b\"id\":\"P7\"\x7d") = true ∧
     sampleParse ((some "\x7b\"id\":\"P7\"\x7d" : Option String).getD "")
       = ParsedRecord.value (JsVal.str "P7") ∧
     "P42" ≠ "" ∧ (JsVal.str "P7").truthy = true) ∧
    DataLogger.getParticipantId sampleParse (some "P42") (some "\x7b\"id\":\"P7\"\x7d") none
      = some (JsVal.str "P42") ∧
    DataLogger.getParticipantId sampleParse none (some "\x7b\"id\":\"P7\"\x7d") none
      = some (JsVal.str "P7") :=
  ⟨⟨by decide, by decide, by decide, by decide⟩,
   (C15_participant_id_precedence sampleParse (some "P42") (some "\x7b\"id\":\"P7\"\x7d") none
      (JsVal.str "P7") (Or.inr ⟨by decide, by decide⟩)).1 "P42" rfl (by decide),
   (C15_participant_id_precedence sampleParse none (some "\x7b\"id\":\"P7\"\x7d") none
      (JsVal.str "P7") (Or.inr ⟨by decide, by decide⟩)).2.1 (Or.inl rfl) (by decide)⟩

/-- C15 as stated fails.  A query-string parameter that is present but empty is
skipped: the result is the persisted id "P7".  And with the query-string parameter
"P42" present, a persisted text that is not JSON, or that is the JSON text `null`,
makes the method throw instead of returning "P42". -/
theorem C15_empty_or_malformed_counterexample :
    DataLogger.getParticipantId sampleParse (some "") (some "\x7b\"id\":\"P7\"\x7d") none
      = some (JsVal.str "P7") ∧
    DataLogger.getParticipantId sampleParse (some "") none (some "G1")
      = some (JsVal.str "G1") ∧
    DataLogger.getParticipantId sampleParse (some "P42") (some "not json") none = none ∧
    DataLogger.getParticipantId sampleParse (some "P42") (some "null") none = none := by
  decide

/-! ## AOIManager: timers, durations and the clock -/

theorem clockSuffix_refl (c : Nat → Int) : ClockSuffix c c := ⟨0, fun _ => rfl⟩

theorem clockSuffix_trans {c1 c2 c3 : Nat → Int} (h12 : ClockSuffix c1 c2)
    (h23 : ClockSuffix c2 c3) : ClockSuffix c1 c3 := by
  obtain ⟨k1, h1⟩ := h12
  obtain ⟨k2, h2⟩ := h23
  exact ⟨k1 + k2, fun n => by rw [h1, h2, Nat.add_assoc]⟩

theorem clockSuffix_shift (c : Nat → Int) : ClockSuffix (fun n => c (n + 1)) c :=
  ⟨1, fun _ => rfl⟩

theorem clockSuffix_of_eq {c1 c2 : Nat → Int} (h : c1 = c2) : ClockSuffix c1 c2 := by
  rw [h]
  exact clockSuffix_refl c2

theorem clockSuffix_monotone {later earlier : Nat → Int} (h : ClockSuffix later earlier)
    (hm : Monotone earlier) : Monotone later := by
  obtain ⟨k, hk⟩ := h
  intro a b hab
  rw [hk, hk]
  exact hm (Nat.add_le_add_right hab k)

theorem clockSuffix_lower_bound {later earlier : Nat → Int} (h : ClockSuffix later earlier)
    (t : Int) (hb : ∀ n, t ≤ earlier n) : ∀ n, t ≤ later n := by
  obtain ⟨k, hk⟩ := h
  intro n
  rw [hk]
  exact hb _

namespace DataLogger

theorem autoSaveWrite_clockSuffix (d : DataLogger) :
    ClockSuffix (autoSaveWrite d).window.clock d.window.clock := by
  refine ⟨1, fun n => ?_⟩
  simp [autoSaveWrite, Window.now]

theorem autoSave_clockSuffix (d : DataLogger) :
    ClockSuffix (autoSave d).window.clock d.window.clock := by
  unfold autoSave
  split
  · dsimp only
    split
    · exact clockSuffix_shift _
    · exact clockSuffix_trans (autoSaveWrite_clockSuffix _) (clockSuffix_shift _)
  · exact autoSaveWrite_clockSuffix d

theorem trackInherited_clockSuffix (d : DataLogger) (ty aoiId : String) :
    ClockSuffix (trackInherited d ty aoiId).window.clock d.window.clock := by
  unfold trackInherited
  split
  · exact clockSuffix_shift _
  · split
    · exact clockSuffix_shift _
    · exact clockSuffix_refl _

theorem trackAOIVisit_clockSuffix {d d' : DataLogger} {ty : String} {ed : Option EventData}
    (h : trackAOIVisit d ty ed = some d') : ClockSuffix d'.window.clock d.window.clock := by
  unfold trackAOIVisit at h
  split at h
  · exact absurd h (by simp)
  · split at h
    · simp at h; subst h; exact clockSuffix_refl _
    · simp only [] at h
      split at h
      · simp at h; subst h; exact trackInherited_clockSuffix _ _ _
      · split at h
        · simp at h; subst h; exact clockSuffix_shift _
        · split at h
          · simp at h; subst h; exact clockSuffix_shift _
          · simp at h; subst h; exact clockSuffix_refl _

theorem logEventSwitch_clockSuffix {d d' : DataLogger} {ty : String} {ed : Option EventData}
    {ev : LogRecord} (h : logEventSwitch d ty ed ev = some d') :
    ClockSuffix d'.window.clock d.window.clock := by
  unfold logEventSwitch at h
  split at h
  · simp at h; subst h; exact clockSuffix_refl _
  · split at h
    · simp at h; subst h; exact clockSuffix_refl _
    · split at h
      · split at h
        · exact absurd h (by simp)
        · split at h <;> (simp at h; subst h; exact clockSuffix_refl _)
      · split at h
        · exact trackAOIVisit_clockSuffix h
        · simp at h; subst h; exact clockSuffix_refl _

theorem pushEvent_clockSuffix (d : DataLogger) (ty : String) (ed : Option EventData) :
    ClockSuffix (pushEvent d ty ed).1.window.clock d.window.clock :=
  ⟨2, fun _ => rfl⟩

/-- The clock after `logEvent` is what the reads of the call left of the clock before. -/
theorem logEvent_clockSuffix (d : DataLogger) (ty : String) (ed : Option EventData) :
    ClockSuffix (logEvent d ty ed).1.window.clock d.window.clock := by
  unfold logEvent
  split
  · exact pushEvent_clockSuffix d ty ed
  · rename_i d2 h
    exact clockSuffix_trans (autoSave_clockSuffix d2)
      (clockSuffix_trans (logEventSwitch_clockSuffix h) (pushEvent_clockSuffix d ty ed))

end DataLogger

namespace AOIManager

theorem handleAOIEnter_clockSuffix (m : AOIManager) (aoiId : String) (ev : DomEvent) :
    ClockSuffix (m.handleAOIEnter aoiId ev).clock m.clock := by
  unfold handleAOIEnter
  split
  · exact clockSuffix_refl _
  · exact clockSuffix_trans (DataLogger.logEvent_clockSuffix _ _ _) (clockSuffix_shift _)

theorem handleAOIExit_clockSuffix (m : AOIManager) (aoiId : String) (ev : DomEvent) :
    ClockSuffix (m.handleAOIExit aoiId ev).clock m.clock := by
  unfold handleAOIExit
  split
  · exact clockSuffix_refl _
  · exact clockSuffix_trans (DataLogger.logEvent_clockSuffix _ _ _) (clockSuffix_shift _)

theorem handleAOIClick_clockSuffix (m : AOIManager) (aoiId : String) (ev : DomEvent) :
    ClockSuffix (m.handleAOIClick aoiId ev).clock m.clock := by
  unfold handleAOIClick
  split
  · exact clockSuffix_refl _
  · exact clockSuffix_trans (DataLogger.logEvent_clockSuffix _ _ _) (clockSuffix_shift _)

theorem step_clockSuffix {m m' : AOIManager} (h : Step m m') : ClockSuffix m'.clock m.clock := by
  cases h with
  | enter aoiId ev _ _ => exact handleAOIEnter_clockSuffix m aoiId ev
  | exit aoiId ev _ _ => exact handleAOIExit_clockSuffix m aoiId ev
  | click aoiId ev _ => exact handleAOIClick_clockSuffix m aoiId ev
  | clock x y => exact clockSuffix_shift _
  | flag b => exact clockSuffix_refl _

end AOIManager

theorem Obj.get_set {α : Type} (o : Obj α) (k k' : String) (v : α) :
    Obj.get (Obj.set o k v) k' = if k = k' then some v else Obj.get o k' := by
  by_cases h : k = k'
  · subst h
    simp [Obj.get_set_same]
  · simp [h, Obj.get_set_other _ _ _ _ h]

theorem Obj.get_delete {α : Type} (o : Obj α) (k k' : String) :
    Obj.get (Obj.delete o k) k' = if k = k' then none else Obj.get o k' := by
  by_cases h : k = k'
  · subst h
    simp [Obj.get_delete_same]
  · simp [h, Obj.get_delete_other _ _ _ h]

theorem Obj.get_setNumber (o : Obj Int) (k k' : String) (v : Int) (hk : k ≠ "__proto__") :
    Obj.get (Obj.setNumber o k v) k' = if k = k' then some v else Obj.get o k' := by
  by_cases h : k = k'
  · subst h
    simp [Obj.get_setNumber_same _ _ _ hk]
  · simp [h, Obj.get_setNumber_other _ _ _ _ h]

/-- A step keeps the timer invariant. -/
theorem AOIManager.step_timers {m0 m m' : AOIManager} (hstep : AOIManager.Step m m')
    (inv : AOIManager.TimersSound m0 m) : AOIManager.TimersSound m0 m' := by
  obtain ⟨hA, hP, ⟨new, hev, hdur⟩, hmono⟩ := inv
  have hsuf : ClockSuffix m'.clock m.clock := AOIManager.step_clockSuffix hstep
  cases hstep with
  | enter aoiId ev he hn =>
    obtain ⟨r, hty, -, -, hev', hact', htm', hcfg', -⟩ :=
      AOIManager.handleAOIEnter_fires m aoiId ev he hn
    refine ⟨?_, ?_, ⟨new ++ [r], by rw [hev', hev, List.append_assoc], ?_⟩, ?_⟩
    · intro id hid
      rw [hact', htm', List.mem_append, List.mem_singleton, hA id hid]
      by_cases h : aoiId = id
      · subst h
        simp [Obj.get_setNumber_same _ _ _ hid]
      · rw [Obj.get_setNumber_other _ _ _ _ h]
        simp [Ne.symm h]
    · rw [htm']
      exact Obj.get_setNumber_proto _ _ _ hP
    · intro r' hr' hexit
      rcases List.mem_append.mp hr' with h | h
      · exact hdur r' h hexit
      · rw [List.mem_singleton] at h
        subst h
        rw [hty] at hexit
        exact absurd hexit (by decide)
    · intro hm0
      obtain ⟨hB, hC, hE⟩ := hmono hm0
      refine ⟨clockSuffix_monotone hsuf hB, ?_, ?_⟩
      · intro id t ht
        rw [htm'] at ht
        by_cases h : aoiId = id
        · subst h
          by_cases hp : aoiId = "__proto__"
          · subst hp
            rw [Obj.get_setNumber_proto _ _ _ hP] at ht
            exact absurd ht (by simp)
          · rw [Obj.get_setNumber_same _ _ _ hp, Option.some.injEq] at ht
            subst ht
            exact clockSuffix_lower_bound hsuf _ (fun n => hB (Nat.zero_le n))
        · rw [Obj.get_setNumber_other _ _ _ _ h] at ht
          exact clockSuffix_lower_bound hsuf t (hC id t ht)
      · intro R c0 t0 hR h1 h2 h3
        rw [hcfg']
        exact hE R c0 t0 hR h1 h2 h3
  | exit aoiId ev he hn =>
    obtain ⟨r, hty, hid, -, hrdur, -, -, hev', hact', htm', hcfg', -⟩ :=
      AOIManager.handleAOIExit_fires m aoiId ev he hn
    refine ⟨?_, ?_, ⟨new ++ [r], by rw [hev', hev, List.append_assoc], ?_⟩, ?_⟩
    · intro id hidp
      rw [hact', htm', Obj.get_delete, List.mem_filter, hA id hidp]
      by_cases h : aoiId = id
      · simp [h]
      · simp [h, Ne.symm h]
    · rw [htm', Obj.get_delete]
      split
      · rfl
      · exact hP
    · intro r' hr' hexit
      rcases List.mem_append.mp hr' with h | h
      · exact hdur r' h hexit
      · rw [List.mem_singleton] at h
        subst h
        rw [hid]
        constructor
        · intro hp
          have hp' : aoiId ≠ "__proto__" := fun h => hp (by rw [h])
          obtain ⟨te, hte⟩ := Option.isSome_iff_exists.mp ((hA aoiId hp').mp hn)
          rw [hte] at hrdur
          refine ⟨m.dataLogger.window.clock 0 - te, hrdur, ?_⟩
          intro hm0
          have := (hmono hm0).2.1 aoiId te hte 0
          show 0 ≤ m.clock 0 - te
          omega
        · intro hp
          rw [Option.some.injEq] at hp
          subst hp
          rw [hrdur, hP]
          rfl
    · intro hm0
      obtain ⟨hB, hC, hE⟩ := hmono hm0
      refine ⟨clockSuffix_monotone hsuf hB, ?_, ?_⟩
      · intro id t ht
        rw [htm', Obj.get_delete] at ht
        by_cases h : aoiId = id
        · simp [h] at ht
        · simp only [h, if_false] at ht
          exact clockSuffix_lower_bound hsuf t (hC id t ht)
      · intro R c0 t0 hR h1 h2 h3
        obtain ⟨c, t, hc, ht, hpos⟩ := hE R c0 t0 hR h1 h2 h3
        rw [hcfg']
        by_cases h : aoiId = R
        · subst h
          obtain ⟨te, hte⟩ := Option.isSome_iff_exists.mp ((hA aoiId hR).mp hn)
          rw [hc, hte]
          refine ⟨_, t + (m.dataLogger.window.clock 0 - te), Obj.get_set_same _ _ _, ?_, ?_⟩
          · simp [AOIManager.addDwell, ht]
          · have := hC aoiId te hte 0
            have h0 : te ≤ m.dataLogger.window.clock 0 := this
            omega
        · refine ⟨c, t, ?_, ht, hpos⟩
          cases hg : Obj.get m.aoiConfig aoiId with
          | none => exact hc
          | some c1 =>
            dsimp only
            rw [Obj.get_set_other _ _ _ _ h]
            exact hc
  | click aoiId ev he =>
    obtain ⟨r, hty, hev', hact', htm', hcfg', -⟩ := AOIManager.handleAOIClick_fires m aoiId ev he
    refine ⟨?_, ?_, ⟨new ++ [r], by rw [hev', hev, List.append_assoc], ?_⟩, ?_⟩
    · intro id hid
      rw [hact', htm']
      exact hA id hid
    · rw [htm']
      exact hP
    · intro r' hr' hexit
      rcases List.mem_append.mp hr' with h | h
      · exact hdur r' h hexit
      · rw [List.mem_singleton] at h
        subst h
        rw [hty] at hexit
        exact absurd hexit (by decide)
    · intro hm0
      obtain ⟨hB, hC, hE⟩ := hmono hm0
      refine ⟨clockSuffix_monotone hsuf hB, ?_, ?_⟩
      · intro id t ht
        rw [htm'] at ht
        exact clockSuffix_lower_bound hsuf t (hC id t ht)
      · intro R c0 t0 hR h1 h2 h3
        rw [hcfg']
        exact hE R c0 t0 hR h1 h2 h3
  | clock x y =>
    refine ⟨hA, hP, ⟨new, hev, hdur⟩, ?_⟩
    intro hm0
    obtain ⟨hB, hC, hE⟩ := hmono hm0
    exact ⟨clockSuffix_monotone hsuf hB,
      fun id t ht => clockSuffix_lower_bound hsuf t (hC id t ht), hE⟩
  | flag b => exact ⟨hA, hP, ⟨new, hev, hdur⟩, hmono⟩

theorem AOIManager.steps_timers {m0 m m' : AOIManager} (hsteps : AOIManager.Steps m m')
    (inv : AOIManager.TimersSound m0 m) : AOIManager.TimersSound m0 m' := by
  induction hsteps with
  | refl => exact inv
  | tail _ hstep ih => exact AOIManager.step_timers hstep ih

theorem runLifecycle_timers (calls : List LifecycleCall) (m0 m : AOIManager)
    (inv : AOIManager.TimersSound m0 m) : AOIManager.TimersSound m0 (runLifecycle m calls) := by
  induction calls generalizing m with
  | nil => exact inv
  | cons c rest ih =>
    apply ih
    cases c with
    | call c => exact AOIManager.steps_timers (ManagerCall.steps_run m c) inv
    | cleanup =>
      obtain ⟨-, -, hev, hmono⟩ := inv
      refine ⟨fun id _ => by simp [LifecycleCall.run, AOIManager.cleanup, Obj.get], rfl, hev, ?_⟩
      intro hm0
      obtain ⟨hB, -, hE⟩ := hmono hm0
      exact ⟨hB, fun id t ht => by simp [LifecycleCall.run, AOIManager.cleanup, Obj.get] at ht,
        hE⟩

/-- C16 (as amended): in every state reached from construction by the three
listeners, poll ticks, `enable()`, `disable()` and `cleanup()`, a region id other than
`__proto__` is in `activeAOIs` exactly when `aoiTimers` holds an enter time for it, and
`aoiTimers` holds none for `__proto__`.  Every `aoi_exit` logged for a region other
than `__proto__` carries a number as duration, which is not negative when the clock
never goes back, and every `aoi_exit` logged for `__proto__` carries none.  When the
clock never goes back, the `totalTime` of a region other than `__proto__` that was a
non-negative number at construction (0 for a registered region) is a non-negative
number.  The listeners keep the two in step: on the enabled manager `handleAOIEnter`
for an inactive id other than `__proto__` makes it active and stores the clock reading
as its enter time, and `handleAOIExit` for an active one logs one `aoi_exit` whose
duration is the clock reading minus the stored enter time, and removes the id from
`activeAOIs` and `aoiTimers`. -/
theorem C16_active_iff_timer (cfg : Obj AOIConfig) (dl : DataLogger) (doc : Document)
    (calls : List LifecycleCall) :
    (∀ id, id ≠ "__proto__" →
      (id ∈ (runLifecycle (AOIManager.new cfg dl doc) calls).activeAOIs ↔
        (Obj.get (runLifecycle (AOIManager.new cfg dl doc) calls).aoiTimers id).isSome = true)) ∧
    Obj.get (runLifecycle (AOIManager.new cfg dl doc) calls).aoiTimers "__proto__" = none ∧
    (∀ r ∈ (runLifecycle (AOIManager.new cfg dl doc) calls).eventsSince
          (AOIManager.new cfg dl doc),
      r.type = "aoi_exit" →
        (r.data.aoiId ≠ some "__proto__" →
          ∃ dur, r.data.duration = some dur ∧ (Monotone dl.window.clock → 0 ≤ dur)) ∧
        (r.data.aoiId = some "__proto__" → r.data.duration = none)) ∧
    (Monotone dl.window.clock →
      ∀ R c0 t0, R ≠ "__proto__" →
        Obj.get (AOIManager.new cfg dl doc).aoiConfig R = some c0 →
        c0.totalTime = some t0 → 0 ≤ t0 →
        ∃ c t, Obj.get (runLifecycle (AOIManager.new cfg dl doc) calls).aoiConfig R = some c ∧
          c.totalTime = some t ∧ 0 ≤ t) ∧
    (∀ id ev, id ≠ "__proto__" →
      (runLifecycle (AOIManager.new cfg dl doc) calls).isEnabled = true →
      id ∉ (runLifecycle (AOIManager.new cfg dl doc) calls).activeAOIs →
        id ∈ ((runLifecycle (AOIManager.new cfg dl doc) calls).handleAOIEnter id ev).activeAOIs ∧
        Obj.get ((runLifecycle (AOIManager.new cfg dl doc) calls).handleAOIEnter id ev).aoiTimers
            id =
          some ((runLifecycle (AOIManager.new cfg dl doc) calls).dataLogger.window.clock 0)) ∧
    (∀ id ev, id ≠ "__proto__" →
      (runLifecycle (AOIManager.new cfg dl doc) calls).isEnabled = true →
      id ∈ (runLifecycle (AOIManager.new cfg dl doc) calls).activeAOIs →
        ∃ (te : Int) (x : LogRecord),
          Obj.get (runLifecycle (AOIManager.new cfg dl doc) calls).aoiTimers id = some te ∧
          ((runLifecycle (AOIManager.new cfg dl doc) calls).handleAOIExit id ev).events =
            (runLifecycle (AOIManager.new cfg dl doc) calls).events ++ [x] ∧
          x.type = "aoi_exit" ∧ x.data.aoiId = some id ∧
          x.data.duration =
            some ((runLifecycle (AOIManager.new cfg dl doc) calls).dataLogger.window.clock 0 - te) ∧
          id ∉ ((runLifecycle (AOIManager.new cfg dl doc) calls).handleAOIExit id ev).activeAOIs ∧
          Obj.get ((runLifecycle (AOIManager.new cfg dl doc) calls).handleAOIExit id ev).aoiTimers
            id = none) := by
  obtain ⟨hact, htm, hdl, -⟩ := AOIManager.new_frame cfg dl doc
  have hclock : (AOIManager.new cfg dl doc).clock = dl.window.clock := by
    unfold AOIManager.clock
    rw [hdl]
  have hinit := runLifecycle_timers calls (AOIManager.new cfg dl doc) (AOIManager.new cfg dl doc)
    ⟨fun id _ => by rw [hact, htm]; simp [Obj.get],
     by rw [htm]; rfl,
     ⟨[], by simp, by simp⟩,
     fun hm0 => ⟨hm0, fun id t ht => by rw [htm] at ht; simp [Obj.get] at ht,
       fun R c0 t0 _ h1 h2 h3 => ⟨c0, t0, h1, h2, h3⟩⟩⟩
  unfold AOIManager.TimersSound at hinit
  rw [hclock] at hinit
  obtain ⟨hA, hP, ⟨new, hev, hdur⟩, hmono⟩ := hinit
  refine ⟨hA, hP, ?_, fun hm0 => (hmono hm0).2.2, ?_, ?_⟩
  · rw [AOIManager.eventsSince_eq hev]
    exact hdur
  · intro id ev hid hen hout
    obtain ⟨r, -, -, -, -, hact', htm', -, -⟩ :=
      AOIManager.handleAOIEnter_fires _ id ev hen hout
    rw [hact', htm']
    exact ⟨by simp, Obj.get_setNumber_same _ _ _ hid⟩
  · intro id ev hid hen hin
    obtain ⟨te, hte⟩ := Option.isSome_iff_exists.mp ((hA id hid).mp hin)
    obtain ⟨x, hty, hxid, -, hxdur, -, -, hev', hact', htm', -, -⟩ :=
      AOIManager.handleAOIExit_fires _ id ev hen hin
    rw [hte] at hxdur
    refine ⟨te, x, hte, hev', hty, hxid, by simpa using hxdur, ?_, ?_⟩
    · rw [hact']
      simp
    · rw [htm']
      exact Obj.get_delete_same _ _

/-- C16, an instance: the clock of `tickingLogger` never goes back and the region
"title" starts with `totalTime` 0, so after two dwells with a `cleanup()` in between
its `totalTime` is a non-negative number: 6000, from the two dwells of 3000 ms that
were completed.  After the first three calls "title" is active with enter time 12000,
and a pointer-leave at clock reading 15000 logs an exit of 3000 ms. -/
theorem C16_active_iff_timer_witness :
    (Monotone tickingLogger.window.clock ∧ "title" ≠ "__proto__" ∧
     Obj.get tickingManager.aoiConfig "title" = some titleConfig ∧
     titleConfig.totalTime = some 0 ∧ (0 : Int) ≤ 0) ∧
    (∃ c t, Obj.get (runLifecycle tickingManager lifecycleCalls).aoiConfig "title" = some c ∧
      c.totalTime = some t ∧ 0 ≤ t) ∧
    (Obj.get (runLifecycle tickingManager lifecycleCalls).aoiConfig "title").bind
      AOIConfig.totalTime = some 6000 ∧
    ((runLifecycle tickingManager (lifecycleCalls.take 3)).isEnabled = true ∧
     "title" ∈ (runLifecycle tickingManager (lifecycleCalls.take 3)).activeAOIs ∧
     Obj.get (runLifecycle tickingManager (lifecycleCalls.take 3)).aoiTimers "title" =
       some 12000 ∧
     ∃ x : LogRecord,
       ((runLifecycle tickingManager (lifecycleCalls.take 3)).handleAOIExit "title"
          { clientX := 200, clientY := 200 }).events =
         (runLifecycle tickingManager (lifecycleCalls.take 3)).events ++ [x] ∧
       x.type = "aoi_exit" ∧ x.data.duration = some 3000) := by
  have hmono : Monotone tickingLogger.window.clock := fun a b hab => by
    show (5000 : Int) + 500 * (a : Int) ≤ 5000 + 500 * (b : Int)
    have : (a : Int) ≤ (b : Int) := by exact_mod_cast hab
    omega
  refine ⟨⟨hmono, by decide, rfl, rfl, le_refl 0⟩, ?_, by decide, rfl, by decide, by decide, ?_⟩
  · exact (C16_active_iff_timer [("title", { id := some "title" })] tickingLogger (titlePage 1)
      lifecycleCalls).2.2.2.1 hmono "title" titleConfig 0 (by decide) rfl rfl (le_refl 0)
  · obtain ⟨te, x, hte, hev, hty, -, hdur, -, -⟩ :=
      (C16_active_iff_timer [("title", { id := some "title" })] tickingLogger (titlePage 1)
        (lifecycleCalls.take 3)).2.2.2.2.2 "title" { clientX := 200, clientY := 200 }
        (by decide) rfl (by decide)
    have hte' : Obj.get (runLifecycle tickingManager (lifecycleCalls.take 3)).aoiTimers "title" =
        some 12000 := by decide
    have hte'' : te = 12000 := by
      have h := hte.symm.trans hte'
      exact Option.some.inj h
    subst hte''
    exact ⟨x, hev, hty, hdur⟩

/-- C16 as stated fails for the region id `__proto__`.  On a manager whose one region
is registered under the own key `__proto__`, a tick inside the region makes the id
active while `aoiTimers` holds no enter time for it, and the tick outside that follows
logs an `aoi_exit` whose duration is no number (`NaN`), although enter and exit are
stamped 5500 and 8500; the region's `totalTime` is no number afterwards. -/
theorem C16_proto_timer_counterexample :
    ("__proto__" ∈ (protoManager.checkPointInAOIs 50 25).activeAOIs ∧
     Obj.get (protoManager.checkPointInAOIs 50 25).aoiTimers "__proto__" = none) ∧
    (((protoManager.checkPointInAOIs 50 25).checkPointInAOIs 200 200).eventsSince
        protoManager).map (fun r => (r.type, r.data.aoiId, r.data.timestamp, r.data.duration)) =
      [("aoi_enter", some "__proto__", some 5500, none),
       ("aoi_exit", some "__proto__", some 8500, none)] ∧
    (Obj.get protoManager.aoiConfig "__proto__").bind AOIConfig.totalTime = some 0 ∧
    (Obj.get ((protoManager.checkPointInAOIs 50 25).checkPointInAOIs 200 200).aoiConfig
      "__proto__").bind AOIConfig.totalTime = none := by
  decide
